import Mathlib

/-!
Verification of the `sox` tree-walking interpreter (Rust) against its
natural-language specification.

The development is a shallow embedding of the Rust sources:
`token.rs`, `expr.rs`, `stmt.rs`, `parser.rs`, `resolver.rs`,
`environment.rs`, `interpreter.rs`, `core.rs` and the `builtins` modules.
Pure Rust functions become Lean functions; the interpreter's mutable state
(the slotmap of environment frames, the instance heap, the table of class
objects, the resolver output and the printed output) is threaded explicitly
through a state type.  Rust `i64` is modelled by `Int` (no claim below
depends on wrap-around), Rust `f64` by `Rat` (every floating-point value and
operation appearing in a claim is exact in binary, e.g. `7.0 / 2.0 = 3.5`,
so the rational model agrees with IEEE754 on all relevant inputs).
Rust panics (`unwrap`/`expect` failures) are modelled by a distinct
`fault` outcome; raised `Err(SoxObject)` values by a `thr` outcome.
-/

namespace Sox

/-! ## Association-list helpers

The Rust code uses `HashMap` and `slotmap::SlotMap`.  Both are modelled by
association lists: lookup returns the first binding of a key; `aupsert`
models `HashMap::insert` (replace if present, append otherwise); `aremove`
models `SlotMap::remove`.  Slotmap keys are modelled by an ever-increasing
`Nat` counter; a `DefaultKey` of a removed slot is never reused with the
same version in Rust, so equality of keys coincides in both models. -/

def alookup {α : Type} (k : Nat) : List (Nat × α) → Option α
| [] => none
| (k', v) :: rest => if k = k' then some v else alookup k rest

def aupsert {α : Type} (k : Nat) (v : α) : List (Nat × α) → List (Nat × α)
| [] => [(k, v)]
| (k', v') :: rest => if k = k' then (k, v) :: rest else (k', v') :: aupsert k v rest

def aremove {α : Type} (k : Nat) : List (Nat × α) → List (Nat × α)
| [] => []
| (k', v') :: rest => if k = k' then rest else (k', v') :: aremove k rest

def akeys {α : Type} (l : List (Nat × α)) : List Nat := l.map (fun p => p.1)

/-- String-keyed lookup (models `HashMap<String, _>` / slice search). -/
def slookup {α : Type} (k : String) : List (String × α) → Option α
| [] => none
| (k', v) :: rest => if k = k' then some v else slookup k rest

/-- Models `HashMap<String, _>::insert` (last insert wins). -/
def supsert {α : Type} (k : String) (v : α) : List (String × α) → List (String × α)
| [] => [(k, v)]
| (k', v') :: rest => if k = k' then (k, v) :: rest else (k', v') :: supsert k v rest

/-! ## Tokens (`token.rs`, `token_type.rs`) -/

inductive TokenType where
| LeftParen | RightParen | LeftBrace | RightBrace | LeftSqb | RightSqb
| Colon | Comma | Semi | Plus | Minus | Star | Slash | Dot | Rem
| Less | Greater | Equal | EqualEqual | NotEqual | LessEqual | GreaterEqual
| Bang | BangEqual
| Identifier | Number | SoxString
| And | Class | Else | False | For | If | Or | Return | Super | True
| While | Def | This | Let | None | Print
| Newline | Whitespace | Indent | Dedent | Comment | CommentMarker
| Error | EOF
deriving DecidableEq, Repr

/-- `token.rs` models `f64` literal payloads with a bit-compared wrapper
`Float`; here `f64` is modelled by `Rat` (see the header). -/
inductive Literal where
| str (s : String)
| integer (i : Int)
| float (f : Rat)
| boolean (b : Bool)
| none
deriving DecidableEq, Repr

/-- `token.rs`: a token carries its kind, lexeme, literal payload, line and
a unique `id` drawn from the global `TOKEN_ATOMIC` counter.  `PartialEq`,
`Eq` and `Hash` are derived in Rust, so the `id` participates in equality
and hashing; Lean's `DecidableEq` likewise compares all fields. -/
structure Token where
  token_type : TokenType
  lexeme : String
  literal : Literal
  line : Nat
  id : Nat
deriving DecidableEq, Repr

/-- `Token::new`: the global atomic counter is threaded explicitly; the
call consumes the current counter value as the `id` and bumps it. -/
def Token.new (tt : TokenType) (lexeme : String) (lit : Literal) (line : Nat)
    (counter : Nat) : Token × Nat :=
  ({ token_type := tt, lexeme := lexeme, literal := lit, line := line, id := counter },
   counter + 1)

/-! ## AST (`expr.rs`, `stmt.rs`)

`Stmt::Return`'s payload and `Stmt::If`'s else branch follow the shapes the
interpreter and resolver destructure (`Option<Expr>` / `Option<Stmt>`). -/

mutual
inductive Expr where
| Assign (name : Token) (value : Expr)
| Binary (left : Expr) (operator : Token) (right : Expr)
| Call (callee : Expr) (paren : Token) (arguments : List Expr)
| Get (object : Expr) (name : Token)
| Grouping (expr : Expr)
| Literal (value : Literal)
| Variable (name : Token)
| Logical (left : Expr) (operator : Token) (right : Expr)
| Set (object : Expr) (name : Token) (value : Expr)
| Super (keyword : Token) (method : Token)
| This (keyword : Token)
| Unary (operator : Token) (right : Expr)
deriving Repr

inductive Stmt where
| Expression (expr : Expr)
| If (condition : Expr) (then_branch : Stmt) (else_branch : Option Stmt)
| Print (expr : Expr)
| Return (keyword : Token) (value : Option Expr)
| Var (name : Token) (initializer : Option Expr)
| While (condition : Expr) (body : Stmt)
| Block (stmts : List Stmt)
| Function (name : Token) (params : List Token) (body : List Stmt)
| Class (name : Token) (superclass : Option Expr) (methods : List Stmt)
deriving Repr
end

/-! ## Runtime objects (`core.rs`, `builtins`)

`SoxObject` is the tagged runtime value.  `SoxRef<T>` (an `Rc`) around
immutable payloads (numbers, strings, booleans, functions) is dropped;
shared *mutable* data lives in heaps inside the interpreter state:
class objects (`SoxRef<SoxType>`) and class instances
(`SoxRef<SoxInstance>`, whose `fields` are behind a `RefCell`) are
represented by `Nat` references into append-only stores.
The `Exception` enum (`builtins/exceptions.rs`) is flattened into the two
constructors `exceptionErr` / `exceptionRet` of `SoxObject`, matching
`SoxObject::Exception(SoxRef<Exception>)` with
`Exception::Err(RuntimeError)` and `Exception::Return(SoxObject)`. -/

/-- `builtins/function.rs`: `SoxFunction`.  `arity` is an `i8` in Rust;
it is stored here as the mathematical integer produced by `as i8`
(see `i8OfNat`). -/
structure SoxFunction where
  name : String
  declaration : Stmt
  environment_ref : Nat
  is_initializer : Bool
  arity : Int
deriving Repr

inductive SoxObject where
| int (v : Int)
| str (s : String)
| float (v : Rat)
| boolean (b : Bool)
| func (f : SoxFunction)
| exceptionErr (msg : String)
| exceptionRet (v : SoxObject)
| none
| typ (r : Nat)
| typeInstance (r : Nat)
deriving Repr

/-- `params.len() as i8` / `methods... as i8`: two's-complement wrap of a
`usize` into `i8`. -/
def i8OfNat (n : Nat) : Int := ((n % 256 : Nat) : Int) - (if n % 256 ≥ 128 then 256 else 0)

/-- `fo.arity as usize` on an `i8`: sign-extend then reinterpret as `u64`. -/
def usizeOfI8 (i : Int) : Int := if i ≥ 0 then i else i + 2 ^ 64

/-! The `as_*` accessors from `core.rs`. -/

def SoxObject.as_int : SoxObject → Option Int
| .int v => some v
| _ => Option.none

def SoxObject.as_float : SoxObject → Option Rat
| .float v => some v
| _ => Option.none

def SoxObject.as_bool : SoxObject → Option Bool
| .boolean b => some b
| _ => Option.none

def SoxObject.as_string : SoxObject → Option String
| .str s => some s
| _ => Option.none

def SoxObject.is_none : SoxObject → Bool
| .none => true
| _ => false

def SoxObject.as_func : SoxObject → Option SoxFunction
| .func f => some f
| _ => Option.none

def SoxObject.as_type : SoxObject → Option Nat
| .typ r => some r
| _ => Option.none

def SoxObject.as_class_instance : SoxObject → Option Nat
| .typeInstance r => some r
| _ => Option.none

/-- `core.rs` `SoxResult<T> = Result<T, SoxObject>` extended with a `fault`
outcome for Rust panics (`unwrap` / `expect` failures), which abort the
process rather than propagate as `Err`. -/
inductive Outcome (α : Type) where
| ok (a : α)
| thr (e : SoxObject)
| fault (msg : String)
deriving Repr

def Outcome.obind {α β : Type} : Outcome α → (α → Outcome β) → Outcome β
| .ok a, f => f a
| .thr e, _ => .thr e
| .fault m, _ => .fault m

/-! ## Builtin method tables (`builtins/*.rs`, `builtins/method.rs`)

Each `SoxMethod` referenced from a `METHOD_DEFS` table is identified by a
`MethodId`; `runMethod` interprets it, reproducing the `NativeFn` binding
machinery of `builtins/method.rs` exactly:

* the blanket `impl<T: TryFromSoxObject> FromArgs for T` reads
  `args.args.iter().take(1).next().unwrap()` — i.e. it always reads the
  **first** argument and never consumes it, so in a two-parameter method
  such as `equals(&self, rhs)` both `self` and `rhs` are bound from
  `args[0]`;
* the tuple `FromArgs` impls thread the same `FuncArgs` through both
  components;
* `args.bind::<..>(i).expect("Fail")` panics (faults) when a conversion
  fails.
-/

inductive MethodId where
| boolBool | boolEquals | intEquals | floatEquals | stringEquals
| noneBool | noneEquals | funcEquals
deriving Repr, DecidableEq

/-- `args.args.iter().take(1).next().unwrap().clone()`. -/
def firstArg (args : List SoxObject) : Outcome SoxObject :=
  match args.head? with
  | some v => .ok v
  | Option.none => .fault "FuncArgs: args.args.iter().take(1).next().unwrap() on empty args"

/-- `TryFromSoxObject for SoxBool` (`builtins/bool.rs`). -/
def tryFromBool (o : SoxObject) : Except SoxObject Bool :=
  match o.as_bool with
  | some b => .ok b
  | Option.none => .error (.str "failed to get boolean from supplied object")

/-- `TryFromSoxObject for SoxInt` (`builtins/int.rs`); the error message is
the (copy-pasted) boolean one from the source. -/
def tryFromInt (o : SoxObject) : Except SoxObject Int :=
  match o.as_int with
  | some v => .ok v
  | Option.none => .error (.str "failed to get boolean from supplied object")

/-- `TryFromSoxObject for SoxFloat` (`builtins/float.rs`). -/
def tryFromFloat (o : SoxObject) : Except SoxObject Rat :=
  match o.as_float with
  | some v => .ok v
  | Option.none => .error (.str "failed to get boolean from supplied object")

/-- `TryFromSoxObject for SoxString` (`builtins/string.rs`). -/
def tryFromString (o : SoxObject) : Except SoxObject String :=
  match o.as_string with
  | some v => .ok v
  | Option.none => .error (.str "failed to get boolean from supplied object")

/-- `TryFromSoxObject for SoxNone` (`builtins/none.rs`). -/
def tryFromNone (o : SoxObject) : Except SoxObject Unit :=
  if o.is_none then .ok ()
  else .error (.str "failed to get boolean from supplied object")

/-- Modelled from the spec: the `TryFromSoxObject for SoxObject` instance
used to bind a method's `rhs: SoxObject` parameter is not in the snapshot
(only the blanket `FromArgs` impl that invokes it is).  The conversion of
an object to itself can only be the identity.  Note that *which* argument
it receives is decided by the blanket `FromArgs` impl that *is* in the
source, and that impl always reads `args[0]`. -/
def tryFromObject (o : SoxObject) : Except SoxObject SoxObject := .ok o

/-- `.expect("Fail")` in the `NativeFn::call` impls. -/
def expectOk {α : Type} : Except SoxObject α → Outcome α
| .ok a => .ok a
| .error _ => .fault "Fail"

/-- `SoxBool::bool` — returns `self.clone()`. -/
def SoxBool.bool (b : Bool) : Bool := b

/-- `SoxBool::equals` (`builtins/bool.rs`). -/
def SoxBool.equals (zelf : Bool) (rhs : SoxObject) : Bool :=
  match rhs.as_bool with
  | some other => zelf == other
  | Option.none => false

/-- `SoxInt::equals` (`builtins/int.rs` lines 30–36): equal only to an int
of the same value, `false` for any other runtime type — no widening. -/
def SoxInt.equals (zelf : Int) (rhs : SoxObject) : Bool :=
  match rhs.as_int with
  | some rhsInt => zelf == rhsInt
  | Option.none => false

/-- `SoxFloat::equals` (`builtins/float.rs`). -/
def SoxFloat.equals (zelf : Rat) (rhs : SoxObject) : Bool :=
  match rhs.as_float with
  | some other => other == zelf
  | Option.none => false

/-- `SoxString::equals` (`builtins/string.rs`). -/
def SoxString.equals (zelf : String) (rhs : SoxObject) : Bool :=
  match rhs.as_string with
  | some other => zelf == other
  | Option.none => false

/-- `SoxNone::bool` (`builtins/none.rs`): `false`. -/
def SoxNone.bool (_zelf : Unit) : Bool := false

/-- `SoxNone::equals` (`builtins/none.rs`). -/
def SoxNone.equals (_zelf : Unit) (rhs : SoxObject) : Bool := rhs.is_none

/-- Interpreter for a `SoxMethod`'s `func` pointer, including the
`FromArgs` binding described above.  `funcEquals` is the entry
`("equals", static_func(SoxBool::equals))` from `SoxFunction::METHOD_DEFS`
(`builtins/function.rs` registers `SoxBool::equals`, not a function
comparison): binding `&self : SoxBool` from a function object fails and
panics with `Fail`. -/
def runMethod : MethodId → List SoxObject → Outcome SoxObject
| .boolBool, args =>
    (firstArg args).obind fun a0 =>
    (expectOk (tryFromBool a0)).obind fun zelf =>
    .ok (.boolean (SoxBool.bool zelf))
| .boolEquals, args =>
    (firstArg args).obind fun a0 =>
    (expectOk (tryFromBool a0)).obind fun zelf =>
    (firstArg args).obind fun a1 =>
    (expectOk (tryFromObject a1)).obind fun rhs =>
    .ok (.boolean (SoxBool.equals zelf rhs))
| .intEquals, args =>
    (firstArg args).obind fun a0 =>
    (expectOk (tryFromInt a0)).obind fun zelf =>
    (firstArg args).obind fun a1 =>
    (expectOk (tryFromObject a1)).obind fun rhs =>
    .ok (.boolean (SoxInt.equals zelf rhs))
| .floatEquals, args =>
    (firstArg args).obind fun a0 =>
    (expectOk (tryFromFloat a0)).obind fun zelf =>
    (firstArg args).obind fun a1 =>
    (expectOk (tryFromObject a1)).obind fun rhs =>
    .ok (.boolean (SoxFloat.equals zelf rhs))
| .stringEquals, args =>
    (firstArg args).obind fun a0 =>
    (expectOk (tryFromString a0)).obind fun zelf =>
    (firstArg args).obind fun a1 =>
    (expectOk (tryFromObject a1)).obind fun rhs =>
    .ok (.boolean (SoxString.equals zelf rhs))
| .noneBool, args =>
    (firstArg args).obind fun a0 =>
    (expectOk (tryFromNone a0)).obind fun zelf =>
    .ok (.boolean (SoxNone.bool zelf))
| .noneEquals, args =>
    (firstArg args).obind fun a0 =>
    (expectOk (tryFromNone a0)).obind fun zelf =>
    (firstArg args).obind fun a1 =>
    (expectOk (tryFromObject a1)).obind fun rhs =>
    .ok (.boolean (SoxNone.equals zelf rhs))
| .funcEquals, args =>
    (firstArg args).obind fun a0 =>
    (expectOk (tryFromBool a0)).obind fun zelf =>
    (firstArg args).obind fun a1 =>
    (expectOk (tryFromObject a1)).obind fun rhs =>
    .ok (.boolean (SoxBool.equals zelf rhs))

/-! ## Class objects (`builtins/type.rs`, `catalog.rs`) -/

inductive SlotCall where
| funcCall
| typeCall
deriving Repr, DecidableEq

/-- `SoxTypeSlot`: the generic `call` hook and the `METHOD_DEFS` slice the
`create_slots` impls store alongside it. -/
structure SoxTypeSlot where
  call : Option SlotCall
  methods : List (String × MethodId)
deriving Repr

def SoxTypeSlot.default : SoxTypeSlot := { call := Option.none, methods := [] }

/-- `builtins/type.rs` `SoxType`.  `base` and user-class objects are
`Rc<SoxType>` values; class objects are stored in the append-only
`State.types` store and referenced by index. -/
structure SoxType where
  base : Option Nat
  methods : List (String × MethodId)
  slots : SoxTypeSlot
  attributes : List (String × SoxObject)
  name : Option String
deriving Repr

/-- `SoxType::find_method`: search `attributes`, then the base chain.
The recursion is bounded by a fuel argument (in the Rust `Rc` graph the
base chain is acyclic by construction; callers pass `types.length`). -/
def findMethod (types : List SoxType) : Nat → SoxType → String → Option SoxObject
| 0, _, _ => Option.none
| fuel + 1, t, name =>
  match slookup name t.attributes with
  | some v => some v
  | Option.none =>
    match t.base with
    | some b =>
      match types.get? b with
      | some bt => findMethod types fuel bt name
      | Option.none => Option.none
    | Option.none => Option.none

/-- A builtin static type as produced by
`StaticType::init_builtin_type` → `create_static_type`: no base, empty
attributes, `methods` = the `METHOD_DEFS` table, `slots` from
`create_slots`.  The snapshot's `SoxType::new_static_type` discards its
name argument (`name: None`) while `visit_call_expr` unconditionally
unwraps `callee_type.name`; modelled from the spec (the runtime error
`"<type> object is not callable"` needs the name), the name is
`Some(StaticType::NAME)`. -/
def mkStaticType (nm : String) (defs : List (String × MethodId))
    (call : Option SlotCall) : SoxType :=
  { base := Option.none, methods := defs,
    slots := { call := call, methods := defs },
    attributes := [], name := some nm }

def boolMethodDefs : List (String × MethodId) := [("bool", .boolBool), ("equals", .boolEquals)]
def floatMethodDefs : List (String × MethodId) := [("equals", .floatEquals)]
def intMethodDefs : List (String × MethodId) := [("equals", .intEquals)]
def stringMethodDefs : List (String × MethodId) := [("equals", .stringEquals)]
def noneMethodDefs : List (String × MethodId) := [("bool", .noneBool), ("equals", .noneEquals)]
def exceptionMethodDefs : List (String × MethodId) := []
def functionMethodDefs : List (String × MethodId) := [("equals", .funcEquals)]
def typeMethodDefs : List (String × MethodId) := []

/-- `TypeLibrary::init` (`catalog.rs`), in field order; the store index is
the type's reference.  `StaticType::NAME`s: `"boolean"`, `"float"`,
`"int"`, `"string"`, `"none"`, `""` (exception), `"function"`, `"type"`. -/
def initialTypes : List SoxType :=
  [ mkStaticType "boolean" boolMethodDefs Option.none,
    mkStaticType "float" floatMethodDefs Option.none,
    mkStaticType "int" intMethodDefs Option.none,
    mkStaticType "string" stringMethodDefs Option.none,
    mkStaticType "none" noneMethodDefs Option.none,
    mkStaticType "" exceptionMethodDefs Option.none,
    mkStaticType "function" functionMethodDefs (some .funcCall),
    mkStaticType "type" typeMethodDefs (some .typeCall) ]

def boolTypeRef : Nat := 0
def floatTypeRef : Nat := 1
def intTypeRef : Nat := 2
def strTypeRef : Nat := 3
def noneTypeRef : Nat := 4
def exceptionTypeRef : Nat := 5
def funcTypeRef : Nat := 6
def typeTypeRef : Nat := 7

/-- `SoxInstance` (`builtins/type.rs`): the class reference and the
`RefCell`ed field map.  Instances live in the append-only
`State.instances` store, giving `SoxRef<SoxInstance>` sharing. -/
structure SoxInstance where
  typ : Nat
  fields : List (String × SoxObject)
deriving Repr

/-! ## Environment (`environment.rs`) -/

/-- `EnvKey = (String, usize, usize)`. -/
abbrev EnvKey := String × Nat × Nat

structure EnvNamespace where
  bindings : List (String × SoxObject)
deriving Repr

/-- `NameError` message used by `Namespace::get`, `Environment::get` and
`find_and_get` — note: no trailing period. -/
def nameErrorNoPeriod (name : String) : SoxObject :=
  .exceptionErr ("NameError: name '" ++ name ++ "' is not defined")

/-- `NameError` message used by `get_from_global_scope` and
`find_and_assign` — note the trailing period. -/
def nameErrorPeriod (name : String) : SoxObject :=
  .exceptionErr ("NameError: name '" ++ name ++ "' is not defined.")

/-- `Namespace::define`: push the binding. -/
def EnvNamespace.define (ns : EnvNamespace) (key : String) (value : SoxObject) : EnvNamespace :=
  { bindings := ns.bindings ++ [(key, value)] }

/-- `Namespace::assign`: `bindings.get_mut(idx)` is unwrapped (fault when
out of range); the entry is overwritten only when its stored name equals
the key's name. -/
def EnvNamespace.assign (ns : EnvNamespace) (key : EnvKey) (value : SoxObject) :
    Outcome EnvNamespace :=
  let (name, _, binding_idx) := key
  match ns.bindings.get? binding_idx with
  | Option.none => .fault "Namespace::assign: entry.as_ref().unwrap()"
  | some entry =>
    if entry.1 = name then .ok { bindings := ns.bindings.set binding_idx (entry.1, value) }
    else .ok ns

/-- `Namespace::get`: fetch by index only (the name is not checked);
missing index raises the period-free `NameError`. -/
def EnvNamespace.get (ns : EnvNamespace) (key : EnvKey) : Outcome SoxObject :=
  let (name, _, binding_idx) := key
  match ns.bindings.get? binding_idx with
  | some v => .ok v.2
  | Option.none => .thr (nameErrorNoPeriod name)

structure Environment where
  envs : List (Nat × EnvNamespace)
  counter : Nat
  active : Nat
  global : Nat
  env_link : List (Nat × Nat)
  env_rc : List (Nat × Int)
deriving Repr

/-- `Environment::new`: a single global frame. -/
def Environment.new : Environment :=
  { envs := [(0, { bindings := [] })], counter := 1, active := 0, global := 0,
    env_link := [], env_rc := [] }

/-- `env_rc` bump used by `new_local_env` / `new_local_env_at`:
`+1` if the key is present, else insert `1`. -/
def rcIncr (k : Nat) (rc : List (Nat × Int)) : List (Nat × Int) :=
  match alookup k rc with
  | some v => aupsert k (v + 1) rc
  | Option.none => aupsert k 1 rc

/-- `and_modify(|v| *v -= 1)`: decrement only if present. -/
def rcDecr (k : Nat) (rc : List (Nat × Int)) : List (Nat × Int) :=
  match alookup k rc with
  | some v => aupsert k (v - 1) rc
  | Option.none => rc

/-- `Environment::new_local_env_at`: fresh frame linked under
`enclosing`; does not move `active`. -/
def Environment.new_local_env_at (e : Environment) (enclosing : Nat) : Environment × Nat :=
  let k := e.counter
  ({ e with envs := aupsert k { bindings := [] } e.envs,
            counter := k + 1,
            env_link := aupsert k enclosing e.env_link,
            env_rc := rcIncr enclosing e.env_rc }, k)

/-- `Environment::new_local_env`: fresh frame under `active`, which then
becomes the new `active`. -/
def Environment.new_local_env (e : Environment) : Environment × Nat :=
  let k := e.counter
  ({ e with envs := aupsert k { bindings := [] } e.envs,
            counter := k + 1,
            env_link := aupsert k e.active e.env_link,
            env_rc := rcIncr e.active e.env_rc,
            active := k }, k)

/-- `Environment::define_at`: `envs.get_mut(ns_ref).unwrap()`. -/
def Environment.define_at (e : Environment) (key : String) (value : SoxObject)
    (ns_ref : Nat) : Outcome Environment :=
  match alookup ns_ref e.envs with
  | some ns => .ok { e with envs := aupsert ns_ref (ns.define key value) e.envs }
  | Option.none => .fault "Environment::define_at: envs.get_mut(ns_ref).unwrap()"

/-- `Environment::define`: define into the active frame. -/
def Environment.define (e : Environment) (key : String) (value : SoxObject) :
    Outcome Environment :=
  match alookup e.active e.envs with
  | some ns => .ok { e with envs := aupsert e.active (ns.define key value) e.envs }
  | Option.none => .fault "Environment::define: envs.get_mut(self.active).unwrap()"

/-- `Environment::get_from_global_scope`: linear search of the global
frame by name; misses raise the `NameError` **with** trailing period. -/
def Environment.get_from_global_scope (e : Environment) (key : String) : Outcome SoxObject :=
  match alookup e.global e.envs with
  | Option.none => .fault "Environment::get_from_global_scope: envs.get(self.global).unwrap()"
  | some ns =>
    match ns.bindings.find? (fun v => v.1 = key) with
    | some v => .ok v.2
    | Option.none => .thr (nameErrorPeriod key)

/-- The climbing loop of `Environment::get`: follow `dist_to_ns` parent
links from `active`; a missing link raises the period-free `NameError`,
a missing frame along the way is an unwrap fault. -/
def Environment.climb (e : Environment) (name : String) : Nat → Nat → Outcome Nat
| 0, k => .ok k
| d + 1, k =>
  match alookup k e.env_link with
  | some p =>
    match alookup p e.envs with
    | some _ => e.climb name d p
    | Option.none => .fault "Environment::get: envs.get_mut(parent_ns).unwrap()"
  | Option.none => .thr (nameErrorNoPeriod name)

/-- `Environment::get` (indexed lookup). -/
def Environment.get (e : Environment) (key : EnvKey) : Outcome SoxObject :=
  let (name, dist_to_ns, _) := key
  match alookup e.active e.envs with
  | Option.none => .fault "Environment::get: envs.get_mut(self.active).unwrap()"
  | some _ =>
    (e.climb name dist_to_ns e.active).obind fun k =>
    match alookup k e.envs with
    | some ns => ns.get key
    | Option.none => .fault "Environment::get: namespace vanished"

/-- `Environment::find_and_get`: walk the parent chain from `active`
returning the first binding with the given name.  The walk is fuelled
(callers pass `envs.length + 1`; the Rust link graph is acyclic so the
fuel is never exhausted on reachable states — exhaustion models the
divergence a cyclic graph would cause). -/
def Environment.find_and_get_aux (e : Environment) (key : String) :
    Nat → Option Nat → Outcome SoxObject
| _, Option.none => .thr (nameErrorNoPeriod key)
| 0, some _ => .fault "Environment::find_and_get: cyclic env_link"
| fuel + 1, some k =>
  match alookup k e.envs with
  | Option.none => .fault "Environment::find_and_get: envs.get_mut(namespace_key).unwrap()"
  | some ns =>
    match ns.bindings.find? (fun b => b.1 = key) with
    | some b => .ok b.2
    | Option.none => e.find_and_get_aux key fuel (alookup k e.env_link)

def Environment.find_and_get (e : Environment) (key : String) : Outcome SoxObject :=
  e.find_and_get_aux key (e.envs.length + 1) (some e.active)

/-- `Environment::find_and_assign` (same fuelled walk; overwrites the
first binding whose stored name matches; misses raise the `NameError`
**with** period). -/
def Environment.find_and_assign_aux (e : Environment) (key : String) (value : SoxObject) :
    Nat → Option Nat → Outcome Environment
| _, Option.none => .thr (nameErrorPeriod key)
| 0, some _ => .fault "Environment::find_and_assign: cyclic env_link"
| fuel + 1, some k =>
  match alookup k e.envs with
  | Option.none => .fault "Environment::find_and_assign: envs.get_mut(nsk).unwrap()"
  | some ns =>
    match ns.bindings.findIdx? (fun b => b.1 = key) with
    | some i =>
      .ok { e with envs := aupsert k { bindings := ns.bindings.set i (key, value) } e.envs }
    | Option.none => e.find_and_assign_aux key value fuel (alookup k e.env_link)

def Environment.find_and_assign (e : Environment) (key : String) (value : SoxObject) :
    Outcome Environment :=
  e.find_and_assign_aux key value (e.envs.length + 1) (some e.active)

/-- The climbing loop of `Environment::assign`: `ns_key` is an `Option`
that is `unwrap`ped on each use (a missing link faults instead of raising,
unlike `Environment::get`). -/
def Environment.assign_climb (e : Environment) : Nat → Option Nat → Outcome Nat
| 0, some k => .ok k
| 0, Option.none => .fault "Environment::assign: ns_key.unwrap()"
| _ + 1, Option.none => .fault "Environment::assign: ns_key.as_ref().unwrap()"
| d + 1, some k => e.assign_climb d (alookup k e.env_link)

/-- `Environment::assign` (indexed assignment). -/
def Environment.assign (e : Environment) (key : EnvKey) (value : SoxObject) :
    Outcome Environment :=
  let (_, dist_to_ns, _) := key
  (e.assign_climb dist_to_ns (some e.active)).obind fun k =>
  match alookup k e.envs with
  | Option.none => .fault "Environment::assign: envs.get_mut(ns_key.unwrap()).unwrap()"
  | some ns =>
    (ns.assign key value).obind fun ns' =>
    .ok { e with envs := aupsert k ns' e.envs }

/-- Modelled from the spec: `Environment::assign_in_global` is called by
`visit_assign_expr` (interpreter.rs line 392) but its definition is
missing from the snapshot.  §4.5: "a global assignment (name only)
updates the matching entry in the global frame or fails with
`NameError`." -/
def Environment.assign_in_global (e : Environment) (key : String) (value : SoxObject) :
    Outcome Environment :=
  match alookup e.global e.envs with
  | Option.none => .fault "Environment::assign_in_global: missing global frame"
  | some ns =>
    match ns.bindings.findIdx? (fun b => b.1 = key) with
    | some i =>
      .ok { e with envs := aupsert e.global { bindings := ns.bindings.set i (key, value) } e.envs }
    | Option.none => .thr (nameErrorPeriod key)

/-- `Environment::pop`: read the parent link (unwrap), move `active` up,
`env_rc.entry(active).or_default()` (inserting `0` when absent), and when
the count is zero remove the frame, its link entry, and decrement the
parent's count (`and_modify`). -/
def Environment.pop (e : Environment) : Outcome Environment :=
  match alookup e.active e.env_link with
  | Option.none => .fault "Environment::pop: env_link.get(&self.active).unwrap()"
  | some parent =>
    let popped := e.active
    let rc1 := match alookup popped e.env_rc with
               | some _ => e.env_rc
               | Option.none => aupsert popped 0 e.env_rc
    let cnt := (alookup popped rc1).getD 0
    if cnt = 0 then
      .ok { e with active := parent,
                   envs := aremove popped e.envs,
                   env_rc := rcDecr parent rc1,
                   env_link := aremove popped e.env_link }
    else
      .ok { e with active := parent, env_rc := rc1 }

/-! ## Interpreter state -/

/-- The interpreter's mutable state: the environment, the class-object
store, the instance heap, the resolver output `_locals`
(`HashMap<Token, (usize, usize)>`), the lines printed to stdout, and the
global `TOKEN_ATOMIC` counter. -/
structure State where
  env : Environment
  types : List SoxType
  instances : List SoxInstance
  locals : List (Token × (Nat × Nat))
  output : List String
  token_counter : Nat
deriving Repr

/-- `Interpreter::new` with the given initial token-counter value. -/
def State.new (tokenCounter : Nat) : State :=
  { env := Environment.new, types := initialTypes, instances := [],
    locals := [], output := [], token_counter := tokenCounter }

/-- `HashMap<Token, _>::get`: lookup by derived `Token` equality. -/
def localsGet (locals : List (Token × (Nat × Nat))) (t : Token) : Option (Nat × Nat) :=
  (locals.find? (fun p => p.1 = t)).map (fun p => p.2)

/-- `HashMap<Token, _>::insert`. -/
def localsInsert (locals : List (Token × (Nat × Nat))) (t : Token) (v : Nat × Nat) :
    List (Token × (Nat × Nat)) :=
  match locals.findIdx? (fun p => p.1 = t) with
  | some i => locals.set i (t, v)
  | Option.none => locals ++ [(t, v)]

/-- `Interpreter::runtime_error`: wrap a message as
`Exception::Err(RuntimeError { msg })`. -/
def runtimeError (msg : String) : SoxObject := .exceptionErr msg

/-- `SoxObject::sox_type` (`core.rs`) extended with the `Type` /
`TypeInstance` variants the interpreter matches on (`SoxType::class` is
the `type` metatype; `SoxInstance::class` is the instance's own class). -/
def soxTypeOf (st : State) : SoxObject → Option Nat
| .int _ => some intTypeRef
| .str _ => some strTypeRef
| .float _ => some floatTypeRef
| .boolean _ => some boolTypeRef
| .func _ => some funcTypeRef
| .exceptionErr _ => some exceptionTypeRef
| .exceptionRet _ => some exceptionTypeRef
| .none => some noneTypeRef
| .typ _ => some typeTypeRef
| .typeInstance r => (st.instances.get? r).map (fun i => i.typ)

def typeData (st : State) (r : Nat) : Option SoxType := st.types.get? r

/-- `SoxObject::try_into_rust_bool` (`core.rs` lines 148–160): look up a
method under the key `"bool_"` in the class's method map; if found, call
it on the value and unwrap the boolean; otherwise the value is truthy.
(Note: every `METHOD_DEFS` table registers the truthiness method under
`"bool"`, not `"bool_"`.) -/
def tryIntoRustBool (st : State) (v : SoxObject) : Outcome Bool :=
  match soxTypeOf st v with
  | Option.none => .fault "sox_type: dangling instance reference"
  | some tref =>
    match typeData st tref with
    | Option.none => .fault "sox_type: dangling type reference"
    | some typ =>
      match slookup "bool_" typ.methods with
      | some meth =>
        match runMethod meth [v] with
        | .ok truth_val =>
          match truth_val.as_bool with
          | some b => .ok b
          | Option.none => .fault "try_into_rust_bool: truth_val.as_bool().unwrap()"
        | .thr _ => .fault "try_into_rust_bool: (meth.func)(i, call_args).unwrap()"
        | .fault m => .fault m
      | Option.none => .ok true

/-- Modelled from the spec: `f64::to_string` rendering of a float; the
snapshot's `SoxFloat` `Representable` impl calls `self.value.to_string()`.
No claim below depends on this rendering. -/
def floatRepr (q : Rat) : String :=
  if q.den = 1 then toString q.num else toString q

/-- Modelled from the spec: the `Representable` impl for `SoxObject`
(dispatching on the variant) is not in the snapshot; the payload impls it
dispatches to are (`SoxInt`/`SoxFloat`/`SoxBool`/`SoxString` render via
`to_string`, `SoxNone` as `"None"`, `SoxFunction` as `"<Function name>"`,
`Exception::Err` as its message, `Exception::Return` as `"Return"`).
Class objects and instances are given placeholder renderings; no claim
depends on them. -/
def reprObj (st : State) : SoxObject → String
| .int v => toString v
| .float q => floatRepr q
| .boolean b => cond b "true" "false"
| .str s => s
| .none => "None"
| .func f => "<Function " ++ f.name ++ ">"
| .exceptionErr m => m
| .exceptionRet _ => "Return"
| .typ r => "<class " ++ (((st.types.get? r).bind (fun t => t.name)).getD "") ++ ">"
| .typeInstance _ => "<instance>"

/-! ## Binary operator arms (`interpreter.rs`, `visit_binary_expr`)

Each arm is transcribed from its `match operator.token_type` arm: first
the int×int case, then (when a float operand is present) the three
float-widening cases, then (for `+`) string concatenation, otherwise the
arm's runtime error.  `left_val`/`right_val` are the already-evaluated
operands. -/

/-- Rust `%` on `i64` is truncated remainder and panics on a zero
divisor. -/
def i64Rem (a b : Int) : Outcome SoxObject :=
  if b = 0 then .fault "attempt to calculate the remainder with a divisor of zero"
  else .ok (.int (Int.tmod a b))

/-- Rust `%` on `f64`: `a - b * trunc(a / b)` (exact on exact inputs; a
zero divisor gives NaN in IEEE754, modelled here as `0`). -/
def ratRem (a b : Rat) : Rat :=
  if b = 0 then 0
  else a - b * ((if a / b < 0 then -(Rat.floor (-(a / b))) else Rat.floor (a / b) : Int) : Rat)

def binMinus (left_val right_val : SoxObject) : Outcome SoxObject :=
  let exc : Outcome SoxObject := .thr (runtimeError "Operands must be two numbers or two strings")
  match left_val.as_int, right_val.as_int with
  | some v1, some v2 => .ok (.int (v1 - v2))
  | _, _ =>
    if left_val.as_float.isSome || right_val.as_float.isSome then
      match left_val.as_float, right_val.as_float with
      | some v1, some v2 => .ok (.float (v1 - v2))
      | _, _ =>
        match left_val.as_float, right_val.as_int with
        | some v1, some v2 => .ok (.float (v1 - (v2 : Rat)))
        | _, _ =>
          match left_val.as_int, right_val.as_float with
          | some v1, some v2 => .ok (.float ((v1 : Rat) - v2))
          | _, _ => exc
    else exc

def binRem (left_val right_val : SoxObject) : Outcome SoxObject :=
  let exc : Outcome SoxObject := .thr (runtimeError "Arguments to the remainder operator must both be numbers")
  match left_val.as_int, right_val.as_int with
  | some v1, some v2 => i64Rem v1 v2
  | _, _ =>
    if left_val.as_float.isSome || right_val.as_float.isSome then
      match left_val.as_float, right_val.as_float with
      | some v1, some v2 => .ok (.float (ratRem v1 v2))
      | _, _ =>
        match left_val.as_float, right_val.as_int with
        | some v1, some v2 => .ok (.float (ratRem v1 (v2 : Rat)))
        | _, _ =>
          match left_val.as_int, right_val.as_float with
          | some v1, some v2 => .ok (.float (ratRem (v1 : Rat) v2))
          | _, _ => exc
    else exc

def binPlus (left_val right_val : SoxObject) : Outcome SoxObject :=
  let exc : Outcome SoxObject := .thr (runtimeError "Operands must be two numbers or two strings.")
  match left_val.as_int, right_val.as_int with
  | some v1, some v2 => .ok (.int (v1 + v2))
  | _, _ =>
    if left_val.as_float.isSome || right_val.as_float.isSome then
      match left_val.as_float, right_val.as_float with
      | some v1, some v2 => .ok (.float (v1 + v2))
      | _, _ =>
        match left_val.as_float, right_val.as_int with
        | some v1, some v2 => .ok (.float (v1 + (v2 : Rat)))
        | _, _ =>
          match left_val.as_int, right_val.as_float with
          | some v1, some v2 => .ok (.float ((v1 : Rat) + v2))
          | _, _ => exc
    else
      match left_val.as_string, right_val.as_string with
      | some v1, some v2 => .ok (.str (v1 ++ v2))
      | _, _ => exc

def binStar (left_val right_val : SoxObject) : Outcome SoxObject :=
  let exc : Outcome SoxObject := .thr (runtimeError "Arguments to the multiplication operator must both be numbers")
  match left_val.as_int, right_val.as_int with
  | some v1, some v2 => .ok (.int (v1 * v2))
  | _, _ =>
    if left_val.as_float.isSome || right_val.as_float.isSome then
      match left_val.as_float, right_val.as_float with
      | some v1, some v2 => .ok (.float (v1 * v2))
      | _, _ =>
        match left_val.as_float, right_val.as_int with
        | some v1, some v2 => .ok (.float (v1 * (v2 : Rat)))
        | _, _ =>
          match left_val.as_int, right_val.as_float with
          | some v1, some v2 => .ok (.float ((v1 : Rat) * v2))
          | _, _ => exc
    else exc

/-- The `Slash` arm (`interpreter.rs` lines 544–570): two ints are cast
to `f64` and divided, so `/` always produces a float. -/
def binSlash (left_val right_val : SoxObject) : Outcome SoxObject :=
  let exc : Outcome SoxObject := .thr (runtimeError "Arguments to the division operator must both be numbers")
  match left_val.as_int, right_val.as_int with
  | some v1, some v2 => .ok (.float ((v1 : Rat) / (v2 : Rat)))
  | _, _ =>
    if left_val.as_float.isSome || right_val.as_float.isSome then
      match left_val.as_float, right_val.as_float with
      | some v1, some v2 => .ok (.float (v1 / v2))
      | _, _ =>
        match left_val.as_float, right_val.as_int with
        | some v1, some v2 => .ok (.float (v1 / (v2 : Rat)))
        | _, _ =>
          match left_val.as_int, right_val.as_float with
          | some v1, some v2 => .ok (.float ((v1 : Rat) / v2))
          | _, _ => exc
    else exc

def binLess (left_val right_val : SoxObject) : Outcome SoxObject :=
  let exc : Outcome SoxObject := .thr (runtimeError "Arguments to the less than operator must both be numbers")
  match left_val.as_int, right_val.as_int with
  | some v1, some v2 => .ok (.boolean (v1 < v2))
  | _, _ =>
    if left_val.as_float.isSome || right_val.as_float.isSome then
      match left_val.as_float, right_val.as_float with
      | some v1, some v2 => .ok (.boolean (v1 < v2))
      | _, _ =>
        match left_val.as_float, right_val.as_int with
        | some v1, some v2 => .ok (.boolean (v1 < (v2 : Rat)))
        | _, _ =>
          match left_val.as_int, right_val.as_float with
          | some v1, some v2 => .ok (.boolean ((v1 : Rat) < v2))
          | _, _ => exc
    else exc

def binGreater (left_val right_val : SoxObject) : Outcome SoxObject :=
  let exc : Outcome SoxObject := .thr (runtimeError "Arguments to the greater than operator must both be numbers")
  match left_val.as_int, right_val.as_int with
  | some v1, some v2 => .ok (.boolean (v1 > v2))
  | _, _ =>
    if left_val.as_float.isSome || right_val.as_float.isSome then
      match left_val.as_float, right_val.as_float with
      | some v1, some v2 => .ok (.boolean (v1 > v2))
      | _, _ =>
        match left_val.as_float, right_val.as_int with
        | some v1, some v2 => .ok (.boolean (v1 > (v2 : Rat)))
        | _, _ =>
          match left_val.as_int, right_val.as_float with
          | some v1, some v2 => .ok (.boolean ((v1 : Rat) > v2))
          | _, _ => exc
    else exc

def binLessEqual (left_val right_val : SoxObject) : Outcome SoxObject :=
  let exc : Outcome SoxObject := .thr (runtimeError "Arguments to the less than or equals operator must both be numbers")
  match left_val.as_int, right_val.as_int with
  | some v1, some v2 => .ok (.boolean (v1 ≤ v2))
  | _, _ =>
    if left_val.as_float.isSome || right_val.as_float.isSome then
      match left_val.as_float, right_val.as_float with
      | some v1, some v2 => .ok (.boolean (v1 ≤ v2))
      | _, _ =>
        match left_val.as_float, right_val.as_int with
        | some v1, some v2 => .ok (.boolean (v1 ≤ (v2 : Rat)))
        | _, _ =>
          match left_val.as_int, right_val.as_float with
          | some v1, some v2 => .ok (.boolean ((v1 : Rat) ≤ v2))
          | _, _ => exc
    else exc

def binGreaterEqual (left_val right_val : SoxObject) : Outcome SoxObject :=
  let exc : Outcome SoxObject := .thr (runtimeError "Arguments to the greater than or equals operator must both be numbers")
  match left_val.as_int, right_val.as_int with
  | some v1, some v2 => .ok (.boolean (v1 ≥ v2))
  | _, _ =>
    if left_val.as_float.isSome || right_val.as_float.isSome then
      match left_val.as_float, right_val.as_float with
      | some v1, some v2 => .ok (.boolean (v1 ≥ v2))
      | _, _ =>
        match left_val.as_float, right_val.as_int with
        | some v1, some v2 => .ok (.boolean (v1 ≥ (v2 : Rat)))
        | _, _ =>
          match left_val.as_int, right_val.as_float with
          | some v1, some v2 => .ok (.boolean ((v1 : Rat) ≥ v2))
          | _, _ => exc
    else exc

/-- The `EqualEqual` arm (`interpreter.rs` lines 626–660): find an
`"equals"` entry in the *left* operand's `slots.methods` table and call
it with `[left_val, right_val]`; with no such entry the result is
`false`. -/
def binEqualEqual (st : State) (left_val right_val : SoxObject) : Outcome SoxObject :=
  match soxTypeOf st left_val with
  | Option.none => .fault "sox_type: dangling instance reference"
  | some tref =>
    match typeData st tref with
    | Option.none => .fault "sox_type: dangling type reference"
    | some left_type =>
      match left_type.slots.methods.find? (fun v => v.1 = "equals") with
      | some entry => runMethod entry.2 [left_val, right_val]
      | Option.none => .ok (.boolean false)

/-- The `BangEqual` arm (`interpreter.rs` lines 661–695): the same
`"equals"` dispatch, then the result is coerced through
`try_into_rust_bool` and negated. -/
def binBangEqual (st : State) (left_val right_val : SoxObject) : Outcome SoxObject :=
  let value : Outcome SoxObject :=
    match soxTypeOf st left_val with
    | Option.none => .fault "sox_type: dangling instance reference"
    | some tref =>
      match typeData st tref with
      | Option.none => .fault "sox_type: dangling type reference"
      | some left_type =>
        match left_type.slots.methods.find? (fun v => v.1 = "equals") with
        | some entry => runMethod entry.2 [left_val, right_val]
        | Option.none => .ok (.boolean false)
  value.obind fun v =>
    (tryIntoRustBool st v).obind fun b =>
    .ok (.boolean (!b))

/-- The (dead) binary `Bang` arm (`interpreter.rs` lines 751–754):
coerces the right operand without negating. -/
def binBang (st : State) (right_val : SoxObject) : Outcome SoxObject :=
  (tryIntoRustBool st right_val).obind fun b => .ok (.boolean b)

/-- Dispatch on `operator.token_type` in `visit_binary_expr`; unknown
operators raise `"Unsupported token type"`. -/
def evalBinOp (st : State) (op : TokenType) (left_val right_val : SoxObject) :
    Outcome SoxObject :=
  match op with
  | .Minus => binMinus left_val right_val
  | .Rem => binRem left_val right_val
  | .Plus => binPlus left_val right_val
  | .Star => binStar left_val right_val
  | .Slash => binSlash left_val right_val
  | .Less => binLess left_val right_val
  | .Greater => binGreater left_val right_val
  | .EqualEqual => binEqualEqual st left_val right_val
  | .BangEqual => binBangEqual st left_val right_val
  | .LessEqual => binLessEqual left_val right_val
  | .GreaterEqual => binGreaterEqual left_val right_val
  | .Bang => binBang st right_val
  | _ => .thr (runtimeError "Unsupported token type")

/-- `visit_unary_expr`: unary minus on a number, unary `!` as negated
truthiness. -/
def evalUnaryOp (st : State) (op : TokenType) (right : SoxObject) : Outcome SoxObject :=
  match op with
  | .Minus =>
    match right.as_float with
    | some v => .ok (.float (-v))
    | Option.none =>
      match right.as_int with
      | some v => .ok (.int (-v))
      | Option.none =>
        .thr (runtimeError "The unary operator (-) can only be applied to a numeric value.")
  | .Bang =>
    (tryIntoRustBool st right).obind fun b => .ok (.boolean (!b))
  | _ => .thr (runtimeError "Unknown unary operator.")

/-! ## Evaluation plumbing

`EvalM α` is explicit state passing over `State` with the three-way
`Outcome`; `ebind` is Rust's `?` (both `Err` and panics short-circuit). -/

def EvalM (α : Type) : Type := State → State × Outcome α

def epure {α : Type} (a : α) : EvalM α := fun st => (st, .ok a)

def ethrow {α : Type} (e : SoxObject) : EvalM α := fun st => (st, .thr e)

def efault {α : Type} (m : String) : EvalM α := fun st => (st, .fault m)

def ebind {α β : Type} (x : EvalM α) (f : α → EvalM β) : EvalM β := fun st =>
  match x st with
  | (st', .ok a) => f a st'
  | (st', .thr e) => (st', .thr e)
  | (st', .fault m) => (st', .fault m)

/-- Read-only step computed from the current state. -/
def eread {α : Type} (f : State → Outcome α) : EvalM α := fun st => (st, f st)

/-- Apply a fallible environment operation (`Environment::*` methods that
mutate `self`). -/
def eenv (f : Environment → Outcome Environment) : EvalM Unit := fun st =>
  match f st.env with
  | .ok e => ({ st with env := e }, .ok ())
  | .thr e => (st, .thr e)
  | .fault m => (st, .fault m)

/-- `self.environment.active = k`. -/
def esetActive (k : Nat) : EvalM Unit := fun st =>
  ({ st with env := { st.env with active := k } }, .ok ())

/-- `println!` to stdout. -/
def eprintln (line : String) : EvalM Unit := fun st =>
  ({ st with output := st.output ++ [line] }, .ok ())

/-- `Interpreter::lookup_variable`: placed references use the resolver's
`(depth, index)` through indexed lookup; unplaced references fall back to
name lookup on the global frame. -/
def lookupVariable (name : Token) : EvalM SoxObject := fun st =>
  match localsGet st.locals name with
  | some (dst, binding_idx) => (st, st.env.get (name.lexeme, dst, binding_idx))
  | Option.none => (st, st.env.get_from_global_scope name.lexeme)

/-- `visit_assign_expr`'s placement: indexed assignment for placed names,
`assign_in_global` otherwise. -/
def assignVariable (name : Token) (value : SoxObject) : EvalM Unit := fun st =>
  match localsGet st.locals name with
  | some (dst, idx) =>
    match st.env.assign (name.lexeme, dst, idx) value with
    | .ok e => ({ st with env := e }, .ok ())
    | .thr e => (st, .thr e)
    | .fault m => (st, .fault m)
  | Option.none =>
    match st.env.assign_in_global name.lexeme value with
    | .ok e => ({ st with env := e }, .ok ())
    | .thr e => (st, .thr e)
    | .fault m => (st, .fault m)

/-- `SoxFunction::bind`: a child frame of the function's captured frame
holding the single binding `this → instance`, captured by a copy of the
function. -/
def bindMethod (fo : SoxFunction) (instObj : SoxObject) : EvalM SoxObject := fun st =>
  match instObj with
  | .typeInstance _ =>
    let (e1, env_ref) := st.env.new_local_env_at fo.environment_ref
    match e1.define_at "this" instObj env_ref with
    | .ok e2 =>
      ({ st with env := e2 },
       .ok (.func { name := fo.name, declaration := fo.declaration,
                    environment_ref := env_ref, is_initializer := fo.is_initializer,
                    arity := fo.arity }))
    | .thr e => ({ st with env := e1 }, .thr e)
    | .fault m => ({ st with env := e1 }, .fault m)
  | _ => (st, .thr (runtimeError "Could not bind method to instance"))

/-- `SoxInstance::get`: fields first, then a bound method from the class
chain, else `Undefined property`. -/
def instanceGet (instRef : Nat) (name : Token) : EvalM SoxObject := fun st =>
  match st.instances.get? instRef with
  | Option.none => (st, .fault "SoxInstance::get: dangling instance reference")
  | some inst =>
    match slookup name.lexeme inst.fields with
    | some field_value => (st, .ok field_value)
    | Option.none =>
      match typeData st inst.typ with
      | Option.none => (st, .fault "SoxInstance::get: dangling type reference")
      | some t =>
        match findMethod st.types st.types.length t name.lexeme with
        | some m =>
          match m.as_func with
          | some func => bindMethod func (.typeInstance instRef) st
          | Option.none =>
            (st, .thr (runtimeError
              ("Found property with same name, " ++ name.lexeme ++ ", but it is not a function")))
        | Option.none =>
          (st, .thr (runtimeError ("Undefined property - " ++ name.lexeme)))

/-- `SoxInstance::set`: insert or overwrite the field. -/
def instanceSet (instRef : Nat) (name : Token) (value : SoxObject) : EvalM Unit := fun st =>
  match st.instances.get? instRef with
  | Option.none => (st, .fault "SoxInstance::set: dangling instance reference")
  | some inst =>
    let inst' : SoxInstance := { inst with fields := supsert name.lexeme value inst.fields }
    ({ st with instances := st.instances.set instRef inst' }, .ok ())

/-- `Token::new` inside `visit_super_expr`, drawing from the global
counter held in the state. -/
def freshToken (tt : TokenType) (lexeme : String) (lit : Literal) (line : Nat) :
    EvalM Token := fun st =>
  let (t, c) := Token.new tt lexeme lit line st.token_counter
  ({ st with token_counter := c }, .ok t)

/-- The parameter-binding loop of `SoxFunction::call`:
`for (param, arg) in zip(params, args) { env.define(...) }` directly on
the freshly created `exec_ns` namespace. -/
def defineParams (ns_ref : Nat) (pairs : List (Token × SoxObject)) : EvalM Unit := fun st =>
  match alookup ns_ref st.env.envs with
  | Option.none => (st, .fault "SoxFunction::call: envs.get_mut(*exec_ns).unwrap()")
  | some ns =>
    let ns' := pairs.foldl (fun acc p => acc.define p.1.lexeme p.2) ns
    ({ st with env := { st.env with envs := aupsert ns_ref ns' st.env.envs } }, .ok ())

/-- The method-table construction loop of `visit_class_stmt`: one
function value per `Stmt::Function`, all capturing the current frame,
`is_initializer` iff the method is named `init`, inserted into a
`HashMap`. -/
def buildMethodsMap (active : Nat) (methods : List Stmt) : List (String × SoxObject) :=
  methods.foldl
    (fun acc m =>
      match m with
      | Stmt.Function mname mparams _ =>
        supsert mname.lexeme
          (.func { name := mname.lexeme, declaration := m, environment_ref := active,
                   is_initializer := mname.lexeme == "init",
                   arity := i8OfNat mparams.length }) acc
      | _ => acc)
    []

/-- `Environment::new_local_env` as a step (returns the fresh key). -/
def enewLocalEnv : EvalM Nat := fun st =>
  let (e, k) := st.env.new_local_env
  ({ st with env := e }, .ok k)

/-- `Environment::new_local_env_at` as a step. -/
def enewLocalEnvAt (enclosing : Nat) : EvalM Nat := fun st =>
  let (e, k) := st.env.new_local_env_at enclosing
  ({ st with env := e }, .ok k)

/-- `self.environment.pop().expect("TODO: panic message")` in
`execute_block`: an `Err` from `pop` panics. -/
def epopExpect : EvalM Unit := fun st =>
  match st.env.pop with
  | .ok e => ({ st with env := e }, .ok ())
  | .thr _ => (st, .fault "execute_block: pop().expect(TODO panic message)")
  | .fault m => (st, .fault m)

/-! ## The tree walker (`interpreter.rs`)

The mutually recursive `visit_*` methods and `call` slots are tied
together by open recursion over an explicit fuel: `InterpFns` is the
record of the group's functions, one `interpStep` supplies each body with
the functions one fuel level down, and `interpAt` iterates it (`Nat.rec`,
so each fuel step is a single recursor reduction).  The Rust functions
are total on terminating programs; fuel exhaustion surfaces as a `fault`
and concrete runs pick a sufficiently large fuel. -/

structure InterpFns where
  evalExpr : Expr → EvalM SoxObject
  evalArgs : List Expr → EvalM (List SoxObject)
  execStmt : Stmt → EvalM SoxObject
  blockLoop : List Stmt → EvalM Unit
  execBlock : List Stmt → Option Nat → EvalM Unit
  whileLoop : Expr → Stmt → SoxObject → EvalM Unit
  callBody : SoxFunction → List SoxObject → EvalM (Except SoxObject SoxObject)
  callFunction : SoxObject → List SoxObject → EvalM SoxObject
  callType : SoxObject → List SoxObject → EvalM SoxObject

/-- Fuel exhausted: every entry faults. -/
def interpZero : InterpFns :=
  { evalExpr := fun _ => efault "fuel exhausted",
    evalArgs := fun _ => efault "fuel exhausted",
    execStmt := fun _ => efault "fuel exhausted",
    blockLoop := fun _ => efault "fuel exhausted",
    execBlock := fun _ _ => efault "fuel exhausted",
    whileLoop := fun _ _ _ => efault "fuel exhausted",
    callBody := fun _ _ => efault "fuel exhausted",
    callFunction := fun _ _ => efault "fuel exhausted",
    callType := fun _ _ => efault "fuel exhausted" }

/-- `ExprVisitor for &mut Interpreter` (dispatch via `Expr::accept`). -/
def evalExprF (prev : InterpFns) : Expr → EvalM SoxObject := fun e =>
  match e with
  | .Literal value =>
    match value with
    | .str s => epure (.str s)
    | .integer i => epure (.int i)
    | .float f => epure (.float f)
    | .boolean b => epure (.boolean b)
    | .none => epure SoxObject.none
  | .Grouping inner => prev.evalExpr inner
  | .Unary operator right =>
    ebind (prev.evalExpr right) fun r =>
    eread fun st => evalUnaryOp st operator.token_type r
  | .Binary left operator right =>
    ebind (prev.evalExpr right) fun right_val =>
    ebind (prev.evalExpr left) fun left_val =>
    eread fun st => evalBinOp st operator.token_type left_val right_val
  | .Logical left operator right =>
    ebind (prev.evalExpr left) fun l =>
    if operator.token_type = TokenType.Or then
      ebind (eread fun st => tryIntoRustBool st l) fun b =>
      if b then epure l else prev.evalExpr right
    else
      ebind (eread fun st => tryIntoRustBool st l) fun b =>
      if !b then epure l else prev.evalExpr right
  | .Variable name => lookupVariable name
  | .Assign name value =>
    ebind (prev.evalExpr value) fun eval_val =>
    ebind (assignVariable name eval_val) fun _ =>
    epure eval_val
  | .Call callee _paren arguments =>
    ebind (prev.evalExpr callee) fun callee_val =>
    ebind (prev.evalArgs arguments) fun args =>
    fun st =>
      match soxTypeOf st callee_val with
      | Option.none => (st, .fault "sox_type: dangling instance reference")
      | some tref =>
        match typeData st tref with
        | Option.none => (st, .fault "sox_type: dangling type reference")
        | some callee_type =>
          match callee_type.name with
          | Option.none => (st, .fault "visit_call_expr: callee_type.name.clone().unwrap()")
          | some callee_type_name =>
            match callee_type.slots.call with
            | some .funcCall => prev.callFunction callee_val args st
            | some .typeCall => prev.callType callee_val args st
            | Option.none =>
              (st, .thr (runtimeError (callee_type_name ++ " object is not callable.")))
  | .Get object name =>
    ebind (prev.evalExpr object) fun obj =>
    match obj with
    | .typeInstance r => instanceGet r name
    | _ => ethrow (runtimeError "Only class instances have attributes")
  | .Set object name value =>
    ebind (prev.evalExpr object) fun obj =>
    match obj.as_class_instance with
    | some r =>
      ebind (prev.evalExpr value) fun v =>
      ebind (instanceSet r name v) fun _ =>
      epure v
    | Option.none => ethrow (runtimeError "Only instances have fields")
  | .This keyword => lookupVariable keyword
  | .Super keyword method =>
    fun st =>
      match localsGet st.locals keyword with
      | Option.none => (st, .fault "visit_super_expr: self._locals.get(&keyword).unwrap()")
      | some dist =>
        let (this_token, c') := Token.new TokenType.This "this" Literal.none 0 st.token_counter
        let st1 := { st with token_counter := c' }
        match localsGet st1.locals this_token with
        | Option.none => (st1, .fault "visit_super_expr: self._locals.get(&this_token).unwrap()")
        | some dist2 =>
          match st1.env.get ("super", dist.1, dist.2) with
          | .thr e => (st1, .thr e)
          | .fault m => (st1, .fault m)
          | .ok super_type =>
            match st1.env.get ("this", dist2.1, dist2.2) with
            | .thr e => (st1, .thr e)
            | .fault m => (st1, .fault m)
            | .ok inst_val =>
              match super_type with
              | .typ v =>
                match typeData st1 v with
                | Option.none => (st1, .fault "find_method: dangling type reference")
                | some c =>
                  match findMethod st1.types st1.types.length c method.lexeme with
                  | some m =>
                    match m.as_func with
                    | some func => bindMethod func inst_val st1
                    | Option.none =>
                      (st1, .thr (runtimeError ("Undefined property " ++ method.lexeme)))
                  | Option.none =>
                    (st1, .thr (runtimeError ("Undefined property " ++ method.lexeme)))
              | _ => (st1, .thr (runtimeError "Unable to resolve instance - this"))

/-- The argument loop of `visit_call_expr`: strictly left to right. -/
def evalArgsF (prev : InterpFns) : List Expr → EvalM (List SoxObject)
| [] => epure []
| a :: rest =>
  ebind (prev.evalExpr a) fun v =>
  ebind (prev.evalArgs rest) fun vs =>
  epure (v :: vs)

/-- `StmtVisitor for &mut Interpreter` (dispatch via `Stmt::accept`). -/
def execStmtF (prev : InterpFns) : Stmt → EvalM SoxObject := fun s =>
  match s with
  | .Expression expr => prev.evalExpr expr
  | .Print expr =>
    ebind (prev.evalExpr expr) fun v =>
    ebind (eread fun st => .ok (reprObj st v)) fun line =>
    ebind (eprintln line) fun _ =>
    epure SoxObject.none
  | .Var name initializer =>
    ebind (match initializer with
           | some initializer_stmt => prev.evalExpr initializer_stmt
           | Option.none => epure SoxObject.none) fun value =>
    ebind (eenv fun e => e.define name.lexeme value) fun _ =>
    epure SoxObject.none
  | .Block statements =>
    ebind (prev.execBlock statements Option.none) fun _ =>
    epure SoxObject.none
  | .If condition then_branch else_branch =>
    ebind (prev.evalExpr condition) fun cond_val =>
    ebind (eread fun st => tryIntoRustBool st cond_val) fun b =>
    ebind (if b then ebind (prev.execStmt then_branch) (fun _ => epure ())
           else match else_branch with
                | some else_branch_stmt => ebind (prev.execStmt else_branch_stmt) (fun _ => epure ())
                | Option.none => epure ()) fun _ =>
    epure SoxObject.none
  | .While condition body =>
    ebind (prev.evalExpr condition) fun cond =>
    ebind (prev.whileLoop condition body cond) fun _ =>
    epure SoxObject.none
  | .Function name params body =>
    fun st =>
      let fo : SoxFunction :=
        { name := name.lexeme, declaration := Stmt.Function name params body,
          environment_ref := st.env.active, is_initializer := false,
          arity := i8OfNat params.length }
      match st.env.define name.lexeme (.func fo) with
      | .ok e => ({ st with env := e }, .ok SoxObject.none)
      | .thr err => (st, .thr err)
      | .fault m => (st, .fault m)
  | .Return _keyword value =>
    ebind (match value with
           | some v => prev.evalExpr v
           | Option.none => epure SoxObject.none) fun return_value =>
    ethrow (.exceptionRet return_value)
  | .Class name superclass methods =>
    ebind (match superclass with
           | some sc_expr =>
             fun st =>
               match prev.evalExpr sc_expr st with
               | (st1, .ok (.typ v)) => (st1, .ok (some v))
               | (st1, .ok _) => (st1, .thr (runtimeError "Superclass must be a class."))
               | (st1, .thr _) => (st1, .thr (runtimeError "Superclass must be a class."))
               | (st1, .fault m) => (st1, .fault m)
           | Option.none => epure Option.none) fun sc =>
    ebind (eenv fun e => e.define name.lexeme SoxObject.none) fun _ =>
    ebind (eread fun st => .ok st.env.active) fun prev_env_ref =>
    ebind (match sc with
           | some sc_ref =>
             ebind enewLocalEnv fun _ =>
             eenv fun e => e.define "super" (SoxObject.typ sc_ref)
           | Option.none => epure ()) fun _ =>
    fun st =>
      let methods_map := buildMethodsMap st.env.active methods
      let class_ref := st.types.length
      let cls : SoxType :=
        { base := sc, methods := [], slots := SoxTypeSlot.default,
          attributes := methods_map, name := some name.lexeme }
      let st1 : State :=
        { st with types := st.types ++ [cls],
                  env := { st.env with active := prev_env_ref } }
      match st1.env.find_and_assign name.lexeme (.typ class_ref) with
      | .ok e => ({ st1 with env := e }, .ok SoxObject.none)
      | .thr _ => (st1, .fault "visit_class_stmt: find_and_assign(...).expect(TODO panic message)")
      | .fault m => (st1, .fault m)

/-- The statement loop of `Interpreter::execute_block`, including the
pops: on an error the frame is popped and the error re-raised; after a
normal pass the frame is popped. -/
def blockLoopF (prev : InterpFns) : List Stmt → EvalM Unit
| [] => epopExpect
| s :: rest =>
  fun st =>
    match prev.execStmt s st with
    | (st1, .ok _) => prev.blockLoop rest st1
    | (st1, .thr v) =>
      match st1.env.pop with
      | .ok e => ({ st1 with env := e }, .thr v)
      | .thr _ => (st1, .fault "execute_block: pop().expect(TODO panic message)")
      | .fault m => (st1, .fault m)
    | (st1, .fault m) => (st1, .fault m)

/-- `Interpreter::execute_block`: enter the given frame (function call)
or push a fresh one (plain block), then run the loop. -/
def execBlockF (prev : InterpFns) : List Stmt → Option Nat → EvalM Unit := fun statements ns_ref =>
  ebind (match ns_ref with
         | some k => esetActive k
         | Option.none => ebind enewLocalEnv fun _ => epure ()) fun _ =>
  prev.blockLoop statements

/-- The `while cond.try_into_rust_bool()` loop of `visit_while_stmt`. -/
def whileLoopF (prev : InterpFns) : Expr → Stmt → SoxObject → EvalM Unit := fun condition body cond =>
  ebind (eread fun st => tryIntoRustBool st cond) fun b =>
  if b then
    ebind (prev.execStmt body) fun _ =>
    ebind (prev.evalExpr condition) fun cond' =>
    prev.whileLoop condition body cond'
  else epure ()

/-- The body-execution phase of `SoxFunction::call`: create `exec_ns`
under the captured frame, bind parameters, run the body, and convert the
outcome into the held `return_value` (a `Return` unwind becomes `Ok`,
a `RuntimeError` is kept as `Err`, any non-`Exception` error object is
silently dropped, leaving `Ok(None)`); a non-`Function` declaration skips
all of it. -/
def callBodyF (prev : InterpFns) : SoxFunction → List SoxObject → EvalM (Except SoxObject SoxObject) := fun fo args =>
  match fo.declaration with
  | Stmt.Function _ params body =>
    ebind (enewLocalEnvAt fo.environment_ref) fun exec_ns =>
    ebind (defineParams exec_ns (params.zip args)) fun _ =>
    fun st =>
      match prev.execBlock body (some exec_ns) st with
      | (st1, .ok _) => (st1, .ok (.ok SoxObject.none))
      | (st1, .thr e) =>
        match e with
        | .exceptionRet v => (st1, .ok (.ok v))
        | .exceptionErr m => (st1, .ok (.error (.exceptionErr m)))
        | _ => (st1, .ok (.ok SoxObject.none))
      | (st1, .fault m) => (st1, .fault m)
  | _ => epure (.ok SoxObject.none)

/-- `SoxFunction::call` (`builtins/function.rs` lines 64–126): arity
check, switch to the captured frame, run the body, and either return the
held `return_value` or — when `is_initializer` is set — the result of
`find_and_get("this")`, restoring the caller's frame in both cases. -/
def callFunctionF (prev : InterpFns) : SoxObject → List SoxObject → EvalM SoxObject := fun fo_obj args =>
  match fo_obj.as_func with
  | Option.none =>
    ethrow (.exceptionErr "first argument to this call method should be a function object")
  | some fo =>
    if (args.length : Int) ≠ usizeOfI8 fo.arity then
      ethrow (.exceptionErr
        ("Expected " ++ toString fo.arity ++ " arguments but got " ++ toString args.length ++ "."))
    else
      ebind (eread fun st => .ok st.env.active) fun previous_env_ref =>
      ebind (esetActive fo.environment_ref) fun _ =>
      ebind (prev.callBody fo args) fun return_value =>
      if fo.is_initializer then
        fun st =>
          match st.env.find_and_get "this" with
          | .fault m => (st, .fault m)
          | .ok v => ({ st with env := { st.env with active := previous_env_ref } }, .ok v)
          | .thr e => ({ st with env := { st.env with active := previous_env_ref } }, .thr e)
      else
        ebind (esetActive previous_env_ref) fun _ =>
        match return_value with
        | .ok v => epure v
        | .error e => ethrow e

/-- `SoxType::call` (`builtins/type.rs` lines 74–96): allocate the
instance, look up `init` through the inheritance chain, bind and invoke
it when present (its result is discarded), and return the instance. -/
def callTypeF (prev : InterpFns) : SoxObject → List SoxObject → EvalM SoxObject := fun fo args =>
  match fo.as_type with
  | Option.none =>
    ethrow (.exceptionErr "first argument to this call method should be a type object")
  | some to_ref =>
    fun st =>
      let inst_ref := st.instances.length
      let st1 : State := { st with instances := st.instances ++ [{ typ := to_ref, fields := [] }] }
      match typeData st1 to_ref with
      | Option.none => (st1, .fault "SoxType::call: dangling type reference")
      | some to_data =>
        match findMethod st1.types st1.types.length to_data "init" with
        | some init_func_obj =>
          match init_func_obj.as_func with
          | Option.none => (st1, .fault "init resolved to a non function object")
          | some func =>
            match bindMethod func (.typeInstance inst_ref) st1 with
            | (st2, .ok bound_method) =>
              match prev.callFunction bound_method args st2 with
              | (st3, .ok _) => (st3, .ok (.typeInstance inst_ref))
              | (st3, .thr e) => (st3, .thr e)
              | (st3, .fault m) => (st3, .fault m)
            | (st2, .thr e) => (st2, .thr e)
            | (st2, .fault m) => (st2, .fault m)
        | Option.none => (st1, .ok (.typeInstance inst_ref))

/-- One fuel level: each body sees the functions one level down. -/
def interpStep (prev : InterpFns) : InterpFns :=
  { evalExpr := evalExprF prev,
    evalArgs := evalArgsF prev,
    execStmt := execStmtF prev,
    blockLoop := blockLoopF prev,
    execBlock := execBlockF prev,
    whileLoop := whileLoopF prev,
    callBody := callBodyF prev,
    callFunction := callFunctionF prev,
    callType := callTypeF prev }

def interpAt (n : Nat) : InterpFns :=
  Nat.rec interpZero (fun _ prev => interpStep prev) n

def evalExpr (fuel : Nat) : Expr → EvalM SoxObject := (interpAt fuel).evalExpr

def evalArgs (fuel : Nat) : List Expr → EvalM (List SoxObject) := (interpAt fuel).evalArgs

def execStmt (fuel : Nat) : Stmt → EvalM SoxObject := (interpAt fuel).execStmt

def blockLoop (fuel : Nat) : List Stmt → EvalM Unit := (interpAt fuel).blockLoop

def execBlock (fuel : Nat) : List Stmt → Option Nat → EvalM Unit := (interpAt fuel).execBlock

def whileLoop (fuel : Nat) : Expr → Stmt → SoxObject → EvalM Unit := (interpAt fuel).whileLoop

def callBody (fuel : Nat) : SoxFunction → List SoxObject → EvalM (Except SoxObject SoxObject) :=
  (interpAt fuel).callBody

def callFunction (fuel : Nat) : SoxObject → List SoxObject → EvalM SoxObject :=
  (interpAt fuel).callFunction

def callType (fuel : Nat) : SoxObject → List SoxObject → EvalM SoxObject :=
  (interpAt fuel).callType


/-- `Interpreter::interpret`: run the statements in order; on an error
print its rendering and stop; after the last statement print its value
when it is not `None` (the peekable-iterator check). -/
def interpretLoop (fuel : Nat) : List Stmt → EvalM Unit
| [] => epure ()
| [s] =>
  fun st =>
    match execStmt fuel s st with
    | (st1, .ok result_value) =>
      match result_value with
      | SoxObject.none => (st1, .ok ())
      | v => ({ st1 with output := st1.output ++ [reprObj st1 v] }, .ok ())
    | (st1, .thr e) => ({ st1 with output := st1.output ++ [reprObj st1 e] }, .ok ())
    | (st1, .fault m) => (st1, .fault m)
| s :: rest =>
  fun st =>
    match execStmt fuel s st with
    | (st1, .ok _) => interpretLoop fuel rest st1
    | (st1, .thr e) => ({ st1 with output := st1.output ++ [reprObj st1 e] }, .ok ())
    | (st1, .fault m) => (st1, .fault m)

/-! ## Resolver (`resolver.rs`) -/

inductive ResolverError where
| NoScope
| DuplicateVariable (s : String)
| NotFound (s : String)
| SyntaxError (s : String)
deriving Repr, DecidableEq

inductive FunctionType where
| None | Function | Method | Initializer
deriving Repr, DecidableEq

inductive ClassType where
| None | Class | SubClass
deriving Repr, DecidableEq

/-- The resolver's state.  `scopes` is stored innermost-first (the Rust
`Vec` pushes/pops and reads `last_mut` at the back; `resolve_local`
iterates `.rev()`), so Rust's back is the head here.  The write-only
`resolved_data: HashMap<(String, usize), _>` field is never read nor
returned and is omitted; `_resolved_data` (returned by `resolve`) is kept.
The global token counter is threaded for the `Token::new` calls in
`visit_class_stmt`. -/
structure RState where
  scopes : List (List (Token × Bool))
  current_function : FunctionType
  current_class : ClassType
  _resolved_data : List (Token × (Nat × Nat))
  token_counter : Nat
deriving Repr

def RState.new (tokenCounter : Nat) : RState :=
  { scopes := [], current_function := .None, current_class := .None,
    _resolved_data := [], token_counter := tokenCounter }

abbrev RM := RState → RState × Except ResolverError Unit

def rpure : RM := fun r => (r, .ok ())

def rerr (e : ResolverError) : RM := fun r => (r, .error e)

def rbind (x : RM) (y : RM) : RM := fun r =>
  match x r with
  | (r1, .ok _) => y r1
  | (r1, .error e) => (r1, .error e)

/-- `Resolver::begin_scope`. -/
def beginScope : RM := fun r => ({ r with scopes := [] :: r.scopes }, .ok ())

/-- `Resolver::end_scope`. -/
def endScope : RM := fun r => ({ r with scopes := r.scopes.tail }, .ok ())

/-- `Resolver::declare` (`resolver.rs` lines 95–102): a no-op in the
global scope, otherwise push `(name, false)` onto the innermost scope —
unconditionally; no duplicate check of any kind is performed. -/
def declare (name : Token) : RM := fun r =>
  match r.scopes with
  | [] => (r, .ok ())
  | scope :: rest => ({ r with scopes := (scope ++ [(name, false)]) :: rest }, .ok ())

/-- `Resolver::define`: flip the first entry of the innermost scope whose
lexeme *and line* match to defined. -/
def define (name : Token) : RM := fun r =>
  match r.scopes with
  | [] => (r, .ok ())
  | scope :: rest =>
    match scope.findIdx? (fun e => e.1.lexeme = name.lexeme && e.1.line = name.line) with
    | some i =>
      match scope.get? i with
      | some entry => ({ r with scopes := (scope.set i (entry.1, true)) :: rest }, .ok ())
      | Option.none => (r, .ok ())
    | Option.none => (r, .ok ())

/-- The inner loop of `Resolver::resolve_local` over one scope: insert a
`(depth, idx)` entry for *every* index whose lexeme matches (the `HashMap`
keeps the last), reporting whether any matched. -/
def resolveLocalScope (name : Token) (d : Nat) (scope : List (Token × Bool))
    (rd : List (Token × (Nat × Nat))) : List (Token × (Nat × Nat)) × Bool :=
  (List.range scope.length).foldl
    (fun acc idx =>
      match scope.get? idx with
      | some val =>
        if val.1.lexeme = name.lexeme then (localsInsert acc.1 name (d, idx), true) else acc
      | Option.none => acc)
    (rd, false)

def resolveLocalLoop (name : Token) : Nat → List (List (Token × Bool)) →
    List (Token × (Nat × Nat)) → List (Token × (Nat × Nat))
| _, [], rd => rd
| d, scope :: rest, rd =>
  let (rd', found) := resolveLocalScope name d scope rd
  if found then rd' else resolveLocalLoop name (d + 1) rest rd'

/-- `Resolver::resolve_local`: scan scopes from the innermost outwards;
stop at the first scope containing the lexeme. -/
def resolveLocal (name : Token) : RM := fun r =>
  ({ r with _resolved_data := resolveLocalLoop name 0 r.scopes r._resolved_data }, .ok ())

/-- `let super_token = Token::new(Super, "super", None, 0); scopes.last_mut()
.unwrap().push((super_token, true))`. -/
def pushSuperToken : RM := fun r =>
  let (t, c) := Token.new TokenType.Super "super" Literal.none 0 r.token_counter
  match r.scopes with
  | scope :: rest =>
    ({ r with scopes := (scope ++ [(t, true)]) :: rest, token_counter := c }, .ok ())
  | [] => ({ r with token_counter := c }, .error (.SyntaxError "scopes.last_mut().unwrap()"))

/-- `let this_token = Token::new(This, "this", None, 0); ...push((this_token,
true))`. -/
def pushThisToken : RM := fun r =>
  let (t, c) := Token.new TokenType.This "this" Literal.none 0 r.token_counter
  match r.scopes with
  | scope :: rest =>
    ({ r with scopes := (scope ++ [(t, true)]) :: rest, token_counter := c }, .ok ())
  | [] => ({ r with token_counter := c }, .error (.SyntaxError "scopes.last_mut().unwrap()"))

/-- The parameter loop of `resolve_function`. -/
def declareParams (params : List Token) : RM := fun r =>
  (params.foldl (fun acc p => rbind acc <| rbind (declare p) <| define p) rpure) r

/-- The resolver's mutually recursive visitors, tied by the same open
recursion over fuel as the interpreter. -/
structure ResolveFns where
  resolveStmt : Stmt → RM
  resolveMethods : List Stmt → RM
  resolveStmts : List Stmt → RM
  resolveFunction : Stmt → FunctionType → RM
  resolveExpr : Expr → RM
  resolveArgs : List Expr → RM

def resolveZero : ResolveFns :=
  { resolveStmt := fun _ r => (r, .error (.SyntaxError "fuel exhausted")),
    resolveMethods := fun _ r => (r, .error (.SyntaxError "fuel exhausted")),
    resolveStmts := fun _ r => (r, .error (.SyntaxError "fuel exhausted")),
    resolveFunction := fun _ _ r => (r, .error (.SyntaxError "fuel exhausted")),
    resolveExpr := fun _ r => (r, .error (.SyntaxError "fuel exhausted")),
    resolveArgs := fun _ r => (r, .error (.SyntaxError "fuel exhausted")) }

/-- `StmtVisitor for &mut Resolver`. -/
def resolveStmtF (prev : ResolveFns) : Stmt → RM := fun s =>
  match s with
  | .Expression expr => prev.resolveExpr expr
  | .Print expr => prev.resolveExpr expr
  | .Var name initializer =>
    rbind (declare name) <|
    rbind (match initializer with
           | some init_val => prev.resolveExpr init_val
           | Option.none => rpure) <|
    define name
  | .Block stmts =>
    rbind beginScope <| rbind (prev.resolveStmts stmts) <| endScope
  | .If condition then_branch else_branch =>
    rbind (prev.resolveExpr condition) <|
    rbind (prev.resolveStmt then_branch) <|
    (match else_branch with
     | some e => prev.resolveStmt e
     | Option.none => rpure)
  | .While condition body =>
    rbind (prev.resolveExpr condition) <| prev.resolveStmt body
  | .Function name _params _body =>
    rbind (declare name) <| rbind (define name) <|
    prev.resolveFunction s FunctionType.Function
  | .Return _keyword value =>
    fun r =>
      if r.current_function = FunctionType.None then
        (r, .error (.SyntaxError "Return not allowed at top-level code."))
      else
        match value with
        | some v =>
          if r.current_function = FunctionType.Initializer then
            (r, .error (.SyntaxError "Cannot return value from initializer."))
          else prev.resolveExpr v r
        | Option.none => (r, .ok ())
  | .Class name superclass methods =>
    fun r =>
      let enclosing_class := r.current_class
      let r := { r with current_class := .Class }
      (rbind (declare name) <| rbind (define name) <|
       rbind (match superclass with
              | some sc =>
                fun r1 =>
                  let r1 := { r1 with current_class := .SubClass }
                  match sc with
                  | Expr.Variable sc_name =>
                    if sc_name.lexeme = name.lexeme then
                      (r1, .error (.SyntaxError
                        ("Error at '" ++ sc_name.lexeme ++ "': A class cannot inherit from itself.")))
                    else
                      (rbind (prev.resolveExpr sc) <|
                       rbind beginScope <| pushSuperToken) r1
                  | _ =>
                    (rbind (prev.resolveExpr sc) <|
                     rbind beginScope <| pushSuperToken) r1
              | Option.none => rpure) <|
       rbind beginScope <|
       rbind pushThisToken <|
       rbind (prev.resolveMethods methods) <|
       rbind endScope <|
       rbind (fun r2 => ({ r2 with current_class := enclosing_class }, .ok ())) <|
       (match superclass with
        | some _ => endScope
        | Option.none => rpure)) r

/-- The `for method in methods` loop of `visit_class_stmt`, picking the
function kind from the method name. -/
def resolveMethodsF (prev : ResolveFns) : List Stmt → RM
| [] => rpure
| m :: rest =>
  rbind (prev.resolveFunction m
          (match m with
           | Stmt.Function mname _ _ =>
             if mname.lexeme = "init" then FunctionType.Initializer else FunctionType.Method
           | _ => FunctionType.Method)) <|
  prev.resolveMethods rest

/-- `Resolver::resolve` over a statement list. -/
def resolveStmtsF (prev : ResolveFns) : List Stmt → RM
| [] => rpure
| s :: rest =>
  rbind (prev.resolveStmt s) <| prev.resolveStmts rest

/-- `Resolver::resolve_function`: open a scope, declare+define the
parameters, resolve the body under the given function kind. -/
def resolveFunctionF (prev : ResolveFns) : Stmt → FunctionType → RM := fun s func_type =>
  match s with
  | Stmt.Function _name params body =>
    fun r =>
      let enclosing_function := r.current_function
      let r := { r with current_function := func_type }
      (rbind beginScope <|
       rbind (declareParams params) <|
       rbind (prev.resolveStmts body) <|
       rbind endScope <|
       (fun r2 => ({ r2 with current_function := enclosing_function }, .ok ()))) r
  | _ => rpure

/-- `ExprVisitor for &mut Resolver`. -/
def resolveExprF (prev : ResolveFns) : Expr → RM := fun e =>
  match e with
  | .Assign name value =>
    rbind (prev.resolveExpr value) <| resolveLocal name
  | .Literal _ => rpure
  | .Binary left _op right =>
    rbind (prev.resolveExpr left) <| prev.resolveExpr right
  | .Grouping inner => prev.resolveExpr inner
  | .Unary _op right => prev.resolveExpr right
  | .Logical left _op right =>
    rbind (prev.resolveExpr left) <| prev.resolveExpr right
  | .Variable name =>
    fun r =>
      let bad :=
        !r.scopes.isEmpty &&
        (match r.scopes.head? with
         | some scope =>
           (match scope.find? (fun v => v.1.lexeme = name.lexeme) with
            | some v => v.2 = false
            | Option.none => false)
         | Option.none => false)
      match resolveLocal name r with
      | (r1, .ok _) =>
        if bad then
          (r1, .error (.SyntaxError
            ("Can't read local variable[\"" ++ name.lexeme ++ "\"] in its own initializer")))
        else (r1, .ok ())
      | other => other
  | .Call callee _paren arguments =>
    rbind (prev.resolveExpr callee) <| prev.resolveArgs arguments
  | .Get object _name => prev.resolveExpr object
  | .Set object _name value =>
    rbind (prev.resolveExpr value) <| prev.resolveExpr object
  | .This keyword =>
    fun r =>
      if r.current_class = ClassType.None then
        (r, .error (.SyntaxError "Can't use 'this' outside of a class"))
      else resolveLocal keyword r
  | .Super keyword _method =>
    fun r =>
      if r.current_class = ClassType.None then
        (r, .error (.SyntaxError "Can't use 'super' outside of a class"))
      else if r.current_class ≠ ClassType.SubClass then
        (r, .error (.SyntaxError "Can't use 'super' in a class with no superclass"))
      else resolveLocal keyword r

def resolveArgsF (prev : ResolveFns) : List Expr → RM
| [] => rpure
| a :: rest =>
  rbind (prev.resolveExpr a) <| prev.resolveArgs rest

def resolveStep (prev : ResolveFns) : ResolveFns :=
  { resolveStmt := resolveStmtF prev,
    resolveMethods := resolveMethodsF prev,
    resolveStmts := resolveStmtsF prev,
    resolveFunction := resolveFunctionF prev,
    resolveExpr := resolveExprF prev,
    resolveArgs := resolveArgsF prev }

def resolveAt (n : Nat) : ResolveFns :=
  Nat.rec resolveZero (fun _ prev => resolveStep prev) n

def resolveStmt (fuel : Nat) : Stmt → RM := (resolveAt fuel).resolveStmt

def resolveMethods (fuel : Nat) : List Stmt → RM := (resolveAt fuel).resolveMethods

def resolveStmts (fuel : Nat) : List Stmt → RM := (resolveAt fuel).resolveStmts

def resolveFunction (fuel : Nat) : Stmt → FunctionType → RM := (resolveAt fuel).resolveFunction

def resolveExpr (fuel : Nat) : Expr → RM := (resolveAt fuel).resolveExpr

def resolveArgs (fuel : Nat) : List Expr → RM := (resolveAt fuel).resolveArgs


/-- The driver (`main.rs::run` with `enable_var_resolution`): resolve,
crash on a resolver error (`resolved_data.unwrap()`), then interpret with
the resolver's table installed.  The result is the printed output, or
`Option.none` for a crash (panic / fuel exhaustion). -/
def runProgram (fuel : Nat) (stmts : List Stmt) (tokenCounter : Nat) : Option (List String) :=
  let res := resolveStmts fuel stmts (RState.new tokenCounter)
  match res.2 with
  | .error _ => Option.none
  | .ok _ =>
    let st0 : State := { State.new res.1.token_counter with locals := res.1._resolved_data }
    let run := interpretLoop fuel stmts st0
    match run.2 with
    | .ok _ => some run.1.output
    | .thr _ => Option.none
    | .fault _ => Option.none

/-- Staging lemma for evaluating `runProgram` on concrete programs: first
the resolver output is computed to a literal, then the interpreter runs
from the corresponding literal initial state. -/
theorem runProgram_stage {fuel : Nat} {stmts : List Stmt} {c : Nat} {q : RState} {out : List String}
    (h1 : resolveStmts fuel stmts (RState.new c) = (q, Except.ok ()))
    (h2 : (interpretLoop fuel stmts
            { State.new q.token_counter with locals := q._resolved_data }).2 = Outcome.ok ())
    (h3 : (interpretLoop fuel stmts
            { State.new q.token_counter with locals := q._resolved_data }).1.output = out) :
    runProgram fuel stmts c = some out := by
  unfold runProgram
  simp only [h1]
  revert h2 h3
  cases hrun : interpretLoop fuel stmts
      { State.new q.token_counter with locals := q._resolved_data } with
  | mk st1 r =>
    intro h2 h3
    simp only [hrun] at h2 h3 ⊢
    subst h2
    simp only [h3]

/-! ## Concrete programs

AST fixtures used by the claims below.  Tokens are built with explicit,
pairwise-distinct ids, as the lexer's `Token::new` calls would produce;
the initial `TOKEN_ATOMIC` value passed to `runProgram` exceeds every id
in the fixture. -/

def mkIdent (lex : String) (id : Nat) : Token :=
  { token_type := .Identifier, lexeme := lex, literal := .none, line := 1, id := id }

def mkTok (tt : TokenType) (lex : String) (id : Nat) : Token :=
  { token_type := tt, lexeme := lex, literal := .none, line := 1, id := id }

def intLit (n : Int) : Expr := Expr.Literal (Literal.integer n)

/-- `let a = 0; if (None) a = 1; else a = 2; print a;` -/
def progIfNone : List Stmt :=
  [ Stmt.Var (mkIdent "a" 0) (some (intLit 0)),
    Stmt.If (Expr.Literal Literal.none)
      (Stmt.Expression (Expr.Assign (mkIdent "a" 1) (intLit 1)))
      (some (Stmt.Expression (Expr.Assign (mkIdent "a" 2) (intLit 2)))),
    Stmt.Print (Expr.Variable (mkIdent "a" 3)) ]

/-- `print 1 == 2.0;` -/
def progIntEqFloat : List Stmt :=
  [ Stmt.Print (Expr.Binary (intLit 1) (mkTok .EqualEqual "==" 0)
      (Expr.Literal (Literal.float 2))) ]

/-- `print 1 + 2 * 3;` -/
def progArith : List Stmt :=
  [ Stmt.Print (Expr.Binary (intLit 1) (mkTok .Plus "+" 0)
      (Expr.Binary (intLit 2) (mkTok .Star "*" 1) (intLit 3))) ]

/-- `{ let a = 1; let a = 2; print a; }` — a duplicate declaration in one
non-global scope. -/
def progDupLocal : List Stmt :=
  [ Stmt.Block
    [ Stmt.Var (mkIdent "a" 0) (some (intLit 1)),
      Stmt.Var (mkIdent "a" 1) (some (intLit 2)),
      Stmt.Print (Expr.Variable (mkIdent "a" 2)) ] ]

/-- `print undefined_name;` -/
def progUndef : List Stmt :=
  [ Stmt.Print (Expr.Variable (mkIdent "undefined_name" 0)) ]

/-- `{ let a = 1; print (a = 2) + a; }` — the printed value separates
binary evaluation orders: right-then-left prints `3`, left-then-right
would print `4`. -/
def progAssignOrder : List Stmt :=
  [ Stmt.Block
    [ Stmt.Var (mkIdent "a" 0) (some (intLit 1)),
      Stmt.Print (Expr.Binary
        (Expr.Grouping (Expr.Assign (mkIdent "a" 1) (intLit 2)))
        (mkTok .Plus "+" 4)
        (Expr.Variable (mkIdent "a" 3))) ] ]

/-- `{ let a = 1; def f(x, y) { print x; print y; } f(a = 10, a + 1); }` —
the printed values separate argument evaluation orders: left-to-right
prints `10`, `11`; right-to-left would print `2`, `10`. -/
def progCallOrder : List Stmt :=
  [ Stmt.Block
    [ Stmt.Var (mkIdent "a" 0) (some (intLit 1)),
      Stmt.Function (mkIdent "f" 1) [mkIdent "x" 2, mkIdent "y" 3]
        [ Stmt.Print (Expr.Variable (mkIdent "x" 4)),
          Stmt.Print (Expr.Variable (mkIdent "y" 5)) ],
      Stmt.Expression (Expr.Call (Expr.Variable (mkIdent "f" 6)) (mkTok .RightParen ")" 9)
        [ Expr.Assign (mkIdent "a" 7) (intLit 10),
          Expr.Binary (Expr.Variable (mkIdent "a" 8)) (mkTok .Plus "+" 10) (intLit 1) ]) ] ]




/-! ### Return values of initializer and class calls -/

/-- With `is_initializer` set, `SoxFunction::call` returns the
result of `find_and_get("this")` and restores the caller frame, for every
body outcome `rv`. -/
theorem c4p1 (prev : InterpFns) (fo : SoxFunction) (args : List SoxObject)
    (st st1 : State) (rv : Except SoxObject SoxObject) (v : SoxObject)
    (harity : (args.length : Int) = usizeOfI8 fo.arity)
    (hinit : fo.is_initializer = true)
    (hbody : prev.callBody fo args { st with env := { st.env with active := fo.environment_ref } }
      = (st1, Outcome.ok rv))
    (hthis : st1.env.find_and_get "this" = Outcome.ok v) :
    callFunctionF prev (SoxObject.func fo) args st
      = ({ st1 with env := { st1.env with active := st.env.active } }, Outcome.ok v) := by
  simp only [callFunctionF, SoxObject.as_func]
  rw [if_neg (by simp [harity])]
  simp only [ebind, eread, esetActive]
  rw [hbody]
  simp only [hinit, if_true]
  rw [hthis]

/-- `SoxType::call` with an `init` method present returns the
freshly allocated instance, for every successful result `w` of the bound
initializer call. -/
theorem c4p2 (prev : InterpFns) (to_ref : Nat) (args : List SoxObject) (st : State)
    (to_data : SoxType) (init_func : SoxObject) (func : SoxFunction)
    (st2 st3 : State) (bound w : SoxObject)
    (h1 : st.types.get? to_ref = some to_data)
    (h2 : findMethod st.types st.types.length to_data "init" = some init_func)
    (h3 : init_func.as_func = some func)
    (h4 : bindMethod func (SoxObject.typeInstance st.instances.length)
      { st with instances := st.instances ++ [{ typ := to_ref, fields := [] }] }
      = (st2, Outcome.ok bound))
    (h5 : prev.callFunction bound args st2 = (st3, Outcome.ok w)) :
    callTypeF prev (SoxObject.typ to_ref) args st
      = (st3, Outcome.ok (SoxObject.typeInstance st.instances.length)) := by
  simp only [callTypeF, SoxObject.as_type, typeData]
  rw [h1]; dsimp only; rw [h2]; dsimp only; rw [h3]; dsimp only
  rw [h4]; dsimp only; rw [h5]

/-- `SoxType::call` with no `init` method returns the freshly
allocated instance directly. -/
theorem c4p3 (prev : InterpFns) (to_ref : Nat) (args : List SoxObject) (st : State)
    (to_data : SoxType)
    (h1 : st.types.get? to_ref = some to_data)
    (h2 : findMethod st.types st.types.length to_data "init" = Option.none) :
    callTypeF prev (SoxObject.typ to_ref) args st
      = ({ st with instances := st.instances ++ [{ typ := to_ref, fields := [] }] },
         Outcome.ok (SoxObject.typeInstance st.instances.length)) := by
  simp only [callTypeF, SoxObject.as_type, typeData]
  rw [h1]; dsimp only; rw [h2]

/-! ### Fixtures for the initializer/class-call behaviour -/

/-- A bound `init` with empty body, capturing frame 1 (the `this` frame). -/
def c4InitFn : SoxFunction :=
  { name := "init", declaration := Stmt.Function (mkIdent "init" 100) [] [],
    environment_ref := 1, is_initializer := true, arity := 0 }

/-- Global frame 0 plus the bind frame 1 holding `this`. -/
def c4State : State :=
  { env := { envs := [(0, { bindings := [] }),
                      (1, { bindings := [("this", SoxObject.typeInstance 0)] })],
             counter := 2, active := 0, global := 0, env_link := [(1, 0)], env_rc := [] },
    types := initialTypes, instances := [{ typ := 8, fields := [] }],
    locals := [], output := [], token_counter := 200 }

/-- An unbound `init` method value captured at the global frame. -/
def c4ClassInit : SoxFunction :=
  { name := "init", declaration := Stmt.Function (mkIdent "init" 101) [] [],
    environment_ref := 0, is_initializer := true, arity := 0 }

/-- A user class with an `init` method. -/
def c4Class : SoxType :=
  { base := Option.none, methods := [], slots := SoxTypeSlot.default,
    attributes := [("init", SoxObject.func c4ClassInit)], name := some "C" }

/-- A user class without `init`. -/
def c4ClassNoInit : SoxType :=
  { base := Option.none, methods := [], slots := SoxTypeSlot.default,
    attributes := [], name := some "D" }

def c4State2 : State :=
  { env := Environment.new, types := initialTypes ++ [c4Class], instances := [],
    locals := [], output := [], token_counter := 300 }

def c4State3 : State :=
  { env := Environment.new, types := initialTypes ++ [c4ClassNoInit], instances := [],
    locals := [], output := [], token_counter := 300 }

/-! ### Frame discipline of `execute_block`

`execute_block` pushes (or enters) one frame and pops it on every
non-panicking exit path.  `Pres m` says a step returns with the active
frame pointer where it found it and the parent links of all pre-existing
frames intact; the `FrameOK` record states the matching contract for each
function of the recursive group, and an induction over the fuel shows the
whole interpreter satisfies it. -/

/-- Non-panicking outcome. -/
def FaultFree {α : Type} : Outcome α → Prop
| .fault _ => False
| _ => True

/-- The frame counter grows and the parent links of frames existing at
entry are untouched. -/
def EnvPres (e e' : Environment) : Prop :=
  e.counter ≤ e'.counter ∧
  ∀ j, j < e.counter → alookup j e'.env_link = alookup j e.env_link

/-- As `EnvPres`, except frame `k` (the one being popped) may lose its
link entry. -/
def EnvPresPop (k : Nat) (e e' : Environment) : Prop :=
  e.counter ≤ e'.counter ∧
  ∀ j, j < e.counter → j ≠ k → alookup j e'.env_link = alookup j e.env_link

/-- Post-state of a block-body run inside frame `k`: links other than
`k`'s survive and the active pointer lands on `k`'s parent as recorded at
entry. -/
def BlockPost (k : Nat) (st st' : State) : Prop :=
  EnvPresPop k st.env st'.env ∧
  ∃ p, alookup k st.env.env_link = some p ∧ st'.env.active = p

/-- A step that returns without panicking restores the active frame
pointer and preserves the pre-existing parent links. -/
def Pres {α : Type} (m : EvalM α) : Prop :=
  ∀ st st' (r : Outcome α), m st = (st', r) → FaultFree r →
    EnvPres st.env st'.env ∧ st'.env.active = st.env.active

theorem envPres_refl (e : Environment) : EnvPres e e := ⟨le_rfl, fun _ _ => rfl⟩

theorem envPres_trans {a b c : Environment} (h1 : EnvPres a b) (h2 : EnvPres b c) :
    EnvPres a c :=
  ⟨le_trans h1.1 h2.1, fun j hj => by rw [h2.2 j (lt_of_lt_of_le hj h1.1), h1.2 j hj]⟩

theorem envPres_of_eq {a b : Environment} (hc : b.counter = a.counter)
    (hl : b.env_link = a.env_link) : EnvPres a b :=
  ⟨le_of_eq hc.symm, fun j _ => by rw [hl]⟩

theorem alookup_aupsert_self {α : Type} (k : Nat) (v : α) (l : List (Nat × α)) :
    alookup k (aupsert k v l) = some v := by
  induction l with
  | nil => simp [aupsert, alookup]
  | cons hd tl ih =>
    by_cases h : k = hd.1
    · simp [aupsert, alookup, h]
    · simp [aupsert, alookup, h, ih]

theorem alookup_aupsert_ne {α : Type} (j k : Nat) (v : α) (l : List (Nat × α))
    (h : j ≠ k) : alookup j (aupsert k v l) = alookup j l := by
  induction l with
  | nil => simp [aupsert, alookup, h]
  | cons hd tl ih =>
    by_cases hk : k = hd.1
    · subst hk
      simp [aupsert, alookup, h]
    · by_cases hj : j = hd.1
      · simp [aupsert, alookup, hk, hj]
      · simp [aupsert, alookup, hk, hj, ih]

theorem alookup_aremove_ne {α : Type} (j k : Nat) (l : List (Nat × α)) (h : j ≠ k) :
    alookup j (aremove k l) = alookup j l := by
  induction l with
  | nil => simp [aremove]
  | cons hd tl ih =>
    by_cases hk : k = hd.1
    · subst hk
      simp [aremove, alookup, h]
    · by_cases hj : j = hd.1
      · simp [aremove, alookup, hk, hj]
      · simp [aremove, alookup, hk, hj, ih]

/-- `Environment::pop` with the active frame's parent link present:
active moves to the parent, the counter is untouched, and only the popped
frame's link entry may disappear. -/
theorem pop_cases (e : Environment) (p : Nat)
    (h : alookup e.active e.env_link = some p) :
    ∃ e', e.pop = Outcome.ok e' ∧ e'.active = p ∧ e'.counter = e.counter ∧
      ∀ j, j ≠ e.active → alookup j e'.env_link = alookup j e.env_link := by
  unfold Environment.pop
  rw [h]
  dsimp only
  by_cases hc : (alookup e.active (match alookup e.active e.env_rc with
      | some _ => e.env_rc
      | Option.none => aupsert e.active 0 e.env_rc)).getD 0 = 0
  · rw [if_pos hc]
    exact ⟨_, rfl, rfl, rfl, fun j hj => alookup_aremove_ne j e.active _ hj⟩
  · rw [if_neg hc]
    exact ⟨_, rfl, rfl, rfl, fun j _ => rfl⟩

/-- `Environment::pop` faults when the active frame has no parent link. -/
theorem pop_none (e : Environment) (h : alookup e.active e.env_link = Option.none) :
    e.pop = Outcome.fault "Environment::pop: env_link.get(&self.active).unwrap()" := by
  unfold Environment.pop
  rw [h]

theorem pres_epure {α : Type} (a : α) : Pres (epure a) := by
  intro st st' r h _
  cases h
  exact ⟨envPres_refl _, rfl⟩

theorem pres_ethrow {α : Type} (e : SoxObject) : Pres (ethrow e : EvalM α) := by
  intro st st' r h _
  cases h
  exact ⟨envPres_refl _, rfl⟩

theorem pres_efault {α : Type} (m : String) : Pres (efault m : EvalM α) := by
  intro st st' r h hf
  cases h
  exact hf.elim

theorem pres_eread {α : Type} (f : State → Outcome α) : Pres (eread f) := by
  intro st st' r h _
  cases h
  exact ⟨envPres_refl _, rfl⟩

theorem pres_ebind {α β : Type} {x : EvalM α} {f : α → EvalM β}
    (hx : Pres x) (hf : ∀ a, Pres (f a)) : Pres (ebind x f) := by
  intro st st' r h hfree
  unfold ebind at h
  rcases hx1 : x st with ⟨st1, r1⟩
  rw [hx1] at h
  cases r1 with
  | ok a =>
    have h1 := hx st st1 (Outcome.ok a) hx1 trivial
    have h2 := hf a st1 st' r h hfree
    exact ⟨envPres_trans h1.1 h2.1, h2.2.trans h1.2⟩
  | thr e =>
    cases h
    exact hx st st' (Outcome.thr e) hx1 trivial
  | fault m =>
    cases h
    exact hfree.elim

/-- Steps that do not touch the environment's active pointer, counter or
link table are `Pres`. -/
theorem pres_envKeep {α : Type} (m : EvalM α)
    (h : ∀ st, ((m st).1).env.active = st.env.active ∧
      ((m st).1).env.counter = st.env.counter ∧
      ((m st).1).env.env_link = st.env.env_link) : Pres m := by
  intro st st' r heq _
  have h' := h st
  rw [heq] at h'
  exact ⟨envPres_of_eq h'.2.1 h'.2.2, h'.1⟩

/-- `Environment::define` only touches `envs`. -/
theorem define_envKeep (e : Environment) (key : String) (v : SoxObject) (e' : Environment)
    (h : e.define key v = Outcome.ok e') :
    e'.active = e.active ∧ e'.counter = e.counter ∧ e'.env_link = e.env_link := by
  unfold Environment.define at h
  split at h <;> cases h
  exact ⟨rfl, rfl, rfl⟩

/-- `Environment::define_at` only touches `envs`. -/
theorem define_at_envKeep (e : Environment) (key : String) (v : SoxObject) (ns_ref : Nat)
    (e' : Environment) (h : e.define_at key v ns_ref = Outcome.ok e') :
    e'.active = e.active ∧ e'.counter = e.counter ∧ e'.env_link = e.env_link := by
  unfold Environment.define_at at h
  split at h <;> cases h
  exact ⟨rfl, rfl, rfl⟩

/-- `Environment::assign` only touches `envs`. -/
theorem assign_envKeep (e : Environment) (key : EnvKey) (v : SoxObject) (e' : Environment)
    (h : e.assign key v = Outcome.ok e') :
    e'.active = e.active ∧ e'.counter = e.counter ∧ e'.env_link = e.env_link := by
  obtain ⟨name, dist, idx⟩ := key
  unfold Environment.assign at h
  dsimp only at h
  rcases hc : e.assign_climb dist (some e.active) with k | v1 | m <;>
      rw [hc] at h <;> simp only [Outcome.obind] at h
  · rcases ha : alookup k e.envs with _ | ns <;> rw [ha] at h <;> dsimp only at h
    · cases h
    · rcases hb : ns.assign (name, dist, idx) v with ns' | v2 | m2 <;>
        rw [hb] at h <;> simp only [Outcome.obind] at h <;> cases h
      exact ⟨rfl, rfl, rfl⟩
  · cases h
  · cases h

/-- `Environment::assign_in_global` only touches `envs`. -/
theorem assign_in_global_envKeep (e : Environment) (key : String) (v : SoxObject)
    (e' : Environment) (h : e.assign_in_global key v = Outcome.ok e') :
    e'.active = e.active ∧ e'.counter = e.counter ∧ e'.env_link = e.env_link := by
  unfold Environment.assign_in_global at h
  repeat' split at h
  all_goals cases h
  all_goals exact ⟨rfl, rfl, rfl⟩

/-- `Environment::find_and_assign` only touches `envs`. -/
theorem find_and_assign_aux_envKeep (e : Environment) (key : String) (v : SoxObject) :
    ∀ (fuel : Nat) (cur : Option Nat) (e' : Environment),
      e.find_and_assign_aux key v fuel cur = Outcome.ok e' →
      e'.active = e.active ∧ e'.counter = e.counter ∧ e'.env_link = e.env_link := by
  intro fuel
  induction fuel with
  | zero =>
    intro cur e' h
    cases cur <;> unfold Environment.find_and_assign_aux at h <;> cases h
  | succ n ih =>
    intro cur e' h
    cases cur with
    | none => unfold Environment.find_and_assign_aux at h; cases h
    | some k =>
      unfold Environment.find_and_assign_aux at h
      split at h
      · cases h
      · split at h
        · cases h; exact ⟨rfl, rfl, rfl⟩
        · exact ih _ e' h

theorem find_and_assign_envKeep (e : Environment) (key : String) (v : SoxObject)
    (e' : Environment) (h : e.find_and_assign key v = Outcome.ok e') :
    e'.active = e.active ∧ e'.counter = e.counter ∧ e'.env_link = e.env_link :=
  find_and_assign_aux_envKeep e key v _ _ e' h

/-- `eenv` over an `envs`-only operation is `Pres`. -/
theorem pres_eenv {f : Environment → Outcome Environment}
    (hf : ∀ e e', f e = Outcome.ok e' →
      e'.active = e.active ∧ e'.counter = e.counter ∧ e'.env_link = e.env_link) :
    Pres (eenv f) := by
  intro st st' r h hfree
  unfold eenv at h
  split at h <;> cases h
  · rename_i e1 he
    have h2 := hf _ _ he
    exact ⟨envPres_of_eq h2.2.1 h2.2.2, h2.1⟩
  · exact ⟨envPres_refl _, rfl⟩
  · exact hfree.elim

theorem pres_eprintln (line : String) : Pres (eprintln line) := by
  intro st st' r h _
  cases h
  exact ⟨envPres_refl _, rfl⟩

theorem pres_freshToken (tt : TokenType) (lx : String) (lit : Literal) (line : Nat) :
    Pres (freshToken tt lx lit line) := by
  intro st st' r h _
  cases h
  exact ⟨envPres_refl _, rfl⟩

theorem pres_instanceSet (r : Nat) (name : Token) (v : SoxObject) :
    Pres (instanceSet r name v) := by
  intro st st' o h hf
  unfold instanceSet at h
  split at h <;> cases h
  · exact hf.elim
  · exact ⟨envPres_refl _, rfl⟩

theorem pres_lookupVariable (name : Token) : Pres (lookupVariable name) := by
  intro st st' r h _
  unfold lookupVariable at h
  split at h <;> cases h <;> exact ⟨envPres_refl _, rfl⟩

theorem pres_assignVariable (name : Token) (v : SoxObject) :
    Pres (assignVariable name v) := by
  intro st st' r h hf
  unfold assignVariable at h
  split at h
  · split at h <;> cases h
    · rename_i e1 ha
      have h2 := assign_envKeep _ _ _ _ ha
      exact ⟨envPres_of_eq h2.2.1 h2.2.2, h2.1⟩
    · exact ⟨envPres_refl _, rfl⟩
    · exact hf.elim
  · split at h <;> cases h
    · rename_i e1 ha
      have h2 := assign_in_global_envKeep _ _ _ _ ha
      exact ⟨envPres_of_eq h2.2.1 h2.2.2, h2.1⟩
    · exact ⟨envPres_refl _, rfl⟩
    · exact hf.elim

theorem pres_defineParams (ns_ref : Nat) (pairs : List (Token × SoxObject)) :
    Pres (defineParams ns_ref pairs) := by
  intro st st' r h hf
  unfold defineParams at h
  split at h <;> cases h
  · exact hf.elim
  · exact ⟨envPres_refl _, rfl⟩

theorem pres_enewLocalEnvAt (enclosing : Nat) : Pres (enewLocalEnvAt enclosing) := by
  intro st st' r h _
  simp only [enewLocalEnvAt, Environment.new_local_env_at] at h
  cases h
  refine ⟨⟨Nat.le_succ _, fun j hj => ?_⟩, rfl⟩
  exact alookup_aupsert_ne j st.env.counter enclosing _ (Nat.ne_of_lt hj)

theorem pres_bindMethod (fo : SoxFunction) (inst : SoxObject) : Pres (bindMethod fo inst) := by
  intro st st' r h hf
  unfold bindMethod at h
  split at h
  · dsimp only [Environment.new_local_env_at] at h
    split at h <;> cases h
    · rename_i e2 hd
      have h2 := define_at_envKeep _ _ _ _ _ hd
      refine ⟨⟨?_, fun j hj => ?_⟩, ?_⟩
      · rw [h2.2.1]; exact Nat.le_succ _
      · rw [h2.2.2]
        exact alookup_aupsert_ne j st.env.counter fo.environment_ref _ (Nat.ne_of_lt hj)
      · rw [h2.1]
    · refine ⟨⟨Nat.le_succ _, fun j hj => ?_⟩, rfl⟩
      exact alookup_aupsert_ne j st.env.counter fo.environment_ref _ (Nat.ne_of_lt hj)
    · exact hf.elim
  · cases h; exact ⟨envPres_refl _, rfl⟩

theorem pres_instanceGet (r : Nat) (name : Token) : Pres (instanceGet r name) := by
  intro st st' o h hf
  unfold instanceGet at h
  split at h
  · cases h; exact hf.elim
  · split at h
    · cases h; exact ⟨envPres_refl _, rfl⟩
    · split at h
      · cases h; exact hf.elim
      · split at h
        · split at h
          · exact pres_bindMethod _ _ st st' o h hf
          · cases h; exact ⟨envPres_refl _, rfl⟩
        · cases h; exact ⟨envPres_refl _, rfl⟩

/-- Inversion of `ebind`: the first step either succeeds and hands its
state to the continuation, or short-circuits. -/
theorem ebind_eq {α β : Type} {x : EvalM α} {f : α → EvalM β} {st st' : State}
    {r : Outcome β} (h : ebind x f st = (st', r)) :
    (∃ st1 a, x st = (st1, Outcome.ok a) ∧ f a st1 = (st', r)) ∨
    (∃ e, x st = (st', Outcome.thr e) ∧ r = Outcome.thr e) ∨
    (∃ m, x st = (st', Outcome.fault m) ∧ r = Outcome.fault m) := by
  unfold ebind at h
  rcases hx : x st with ⟨st1, a | e | m⟩ <;> rw [hx] at h
  · exact Or.inl ⟨st1, a, rfl, h⟩
  · cases h; exact Or.inr (Or.inl ⟨e, rfl, rfl⟩)
  · cases h; exact Or.inr (Or.inr ⟨m, rfl, rfl⟩)

/-- The frame-discipline contract for one level of the recursive group:
expression/statement execution is `Pres`; the block loop pops the frame it
runs in; `execute_block` with a fresh frame is `Pres` and with a given
frame lands on that frame's parent; the body phase of `SoxFunction::call`
never raises and ends on the captured frame; calls are `Pres`. -/
structure FrameOK (F : InterpFns) : Prop where
  evalExpr : ∀ e, Pres (F.evalExpr e)
  evalArgs : ∀ es, Pres (F.evalArgs es)
  execStmt : ∀ s, Pres (F.execStmt s)
  whileLoop : ∀ c b v, Pres (F.whileLoop c b v)
  blockLoop : ∀ stmts st st' (r : Outcome Unit), F.blockLoop stmts st = (st', r) →
    FaultFree r → st.env.active < st.env.counter → BlockPost st.env.active st st'
  execBlockNone : ∀ stmts, Pres (F.execBlock stmts Option.none)
  execBlockSome : ∀ stmts k st st' (r : Outcome Unit),
    F.execBlock stmts (some k) st = (st', r) → FaultFree r → k < st.env.counter →
    BlockPost k st st'
  callBody : ∀ fo args st st' (r : Outcome (Except SoxObject SoxObject)),
    F.callBody fo args st = (st', r) → FaultFree r →
    st.env.active = fo.environment_ref →
    (∃ rv, r = Outcome.ok rv) ∧ EnvPres st.env st'.env ∧
      st'.env.active = fo.environment_ref
  callFunction : ∀ fo args, Pres (F.callFunction fo args)
  callType : ∀ fo args, Pres (F.callType fo args)

/-- Fuel exhaustion satisfies the contract vacuously. -/
theorem frameOK_zero : FrameOK interpZero := by
  refine ⟨?_, ?_, ?_, ?_, ?_, ?_, ?_, ?_, ?_, ?_⟩
  · intro e; exact pres_efault _
  · intro es; exact pres_efault _
  · intro s; exact pres_efault _
  · intro c b v; exact pres_efault _
  · intro stmts st st' r heq hfr hlt; cases heq; exact hfr.elim
  · intro stmts; exact pres_efault _
  · intro stmts k st st' r heq hfr hk; cases heq; exact hfr.elim
  · intro fo args st st' r heq hfr hpre; cases heq; exact hfr.elim
  · intro fo args; exact pres_efault _
  · intro fo args; exact pres_efault _

theorem step_evalArgs (prev : InterpFns) (h : FrameOK prev) :
    ∀ es, Pres (evalArgsF prev es) := by
  intro es
  cases es with
  | nil => exact pres_epure _
  | cons a rest =>
    exact pres_ebind (h.evalExpr a) fun v =>
      pres_ebind (h.evalArgs rest) fun vs => pres_epure _

theorem step_whileLoop (prev : InterpFns) (h : FrameOK prev) :
    ∀ c b v, Pres (whileLoopF prev c b v) := by
  intro c b v
  refine pres_ebind (pres_eread _) fun bl => ?_
  cases bl
  · exact pres_epure _
  · exact pres_ebind (h.execStmt b) fun _ =>
      pres_ebind (h.evalExpr c) fun cond2 => h.whileLoop c b cond2

/-- The statement loop of `execute_block` pops the frame it was entered
in, on normal completion and on a propagating error alike. -/
theorem step_blockLoop (prev : InterpFns) (h : FrameOK prev) :
    ∀ stmts st st' (r : Outcome Unit), blockLoopF prev stmts st = (st', r) →
      FaultFree r → st.env.active < st.env.counter → BlockPost st.env.active st st' := by
  intro stmts st st' r heq hf hlt
  cases stmts with
  | nil =>
    unfold blockLoopF epopExpect at heq
    dsimp only at heq
    split at heq <;> cases heq
    · rename_i e1 hpop
      rcases hl : alookup st.env.active st.env.env_link with _ | p
      · rw [pop_none st.env hl] at hpop; cases hpop
      · obtain ⟨e2, hp2, hact, hcnt, hlink⟩ := pop_cases st.env p hl
        rw [hp2] at hpop
        cases hpop
        exact ⟨⟨le_of_eq hcnt.symm, fun j _ hne => hlink j hne⟩, p, hl, hact⟩
    · exact hf.elim
    · exact hf.elim
  | cons s rest =>
    unfold blockLoopF at heq
    dsimp only at heq
    split at heq
    · rename_i st1 a hex
      have hp := h.execStmt s st st1 (Outcome.ok a) hex trivial
      have hact1 : st1.env.active = st.env.active := hp.2
      have hlt1 : st1.env.active < st1.env.counter := by
        rw [hact1]; exact lt_of_lt_of_le hlt hp.1.1
      obtain ⟨⟨hc2, hl2⟩, p, hlp, hact2⟩ := h.blockLoop rest st1 st' r heq hf hlt1
      refine ⟨⟨le_trans hp.1.1 hc2, fun j hj hne => ?_⟩, p, ?_, hact2⟩
      · rw [hl2 j (lt_of_lt_of_le hj hp.1.1) (by rw [hact1]; exact hne), hp.1.2 j hj]
      · rw [← hp.1.2 st.env.active hlt, ← hact1]
        exact hlp
    · rename_i st1 v hex
      split at heq <;> cases heq
      · rename_i e1 hpop
        have hp := h.execStmt s st st1 (Outcome.thr v) hex trivial
        rcases hl : alookup st1.env.active st1.env.env_link with _ | p
        · rw [pop_none st1.env hl] at hpop; cases hpop
        · obtain ⟨e2, hp2, hact, hcnt, hlink⟩ := pop_cases st1.env p hl
          rw [hp2] at hpop
          cases hpop
          refine ⟨⟨?_, fun j hj hne => ?_⟩, p, ?_, hact⟩
          · rw [hcnt]; exact hp.1.1
          · rw [hlink j (by rw [hp.2]; exact hne), hp.1.2 j hj]
          · rw [← hp.1.2 st.env.active hlt, ← hp.2]
            exact hl
      · exact hf.elim
      · exact hf.elim
    · rename_i st1 m hex
      cases heq
      exact hf.elim

/-- `execute_block(stmts, None)` pushes a fresh frame and pops it. -/
theorem step_execBlockNone (prev : InterpFns) (h : FrameOK prev) :
    ∀ stmts, Pres (execBlockF prev stmts Option.none) := by
  intro stmts st st' r heq hf
  have heq2 : prev.blockLoop stmts
      { st with env := { st.env with
          envs := aupsert st.env.counter { bindings := [] } st.env.envs,
          counter := st.env.counter + 1,
          env_link := aupsert st.env.counter st.env.active st.env.env_link,
          env_rc := rcIncr st.env.active st.env.env_rc,
          active := st.env.counter } } = (st', r) := heq
  obtain ⟨⟨hc, hl⟩, p, hlp, hact⟩ :=
    h.blockLoop stmts _ st' r heq2 hf (Nat.lt_succ_self _)
  rw [show ({ st with env := { st.env with
          envs := aupsert st.env.counter { bindings := [] } st.env.envs,
          counter := st.env.counter + 1,
          env_link := aupsert st.env.counter st.env.active st.env.env_link,
          env_rc := rcIncr st.env.active st.env.env_rc,
          active := st.env.counter } } : State).env.env_link
      = aupsert st.env.counter st.env.active st.env.env_link from rfl,
    alookup_aupsert_self] at hlp
  cases hlp
  refine ⟨⟨le_trans (Nat.le_succ _) hc, fun j hj => ?_⟩, hact⟩
  rw [hl j (Nat.lt_succ_of_lt hj) (Nat.ne_of_lt hj)]
  exact alookup_aupsert_ne j st.env.counter st.env.active st.env.env_link (Nat.ne_of_lt hj)

/-- `execute_block(stmts, Some(k))` enters frame `k` and pops it, landing
on `k`'s parent. -/
theorem step_execBlockSome (prev : InterpFns) (h : FrameOK prev) :
    ∀ stmts k st st' (r : Outcome Unit), execBlockF prev stmts (some k) st = (st', r) →
      FaultFree r → k < st.env.counter → BlockPost k st st' := by
  intro stmts k st st' r heq hf hk
  have heq2 : prev.blockLoop stmts { st with env := { st.env with active := k } }
      = (st', r) := heq
  exact h.blockLoop stmts _ st' r heq2 hf hk

/-- The body phase of `SoxFunction::call` never raises: every error is
folded into the held `return_value`, and execution ends on the captured
frame (the `exec_ns` pop lands on `fo.environment_ref`). -/
theorem step_callBody (prev : InterpFns) (h : FrameOK prev) :
    ∀ fo args st st' (r : Outcome (Except SoxObject SoxObject)),
      callBodyF prev fo args st = (st', r) → FaultFree r →
      st.env.active = fo.environment_ref →
      (∃ rv, r = Outcome.ok rv) ∧ EnvPres st.env st'.env ∧
        st'.env.active = fo.environment_ref := by
  intro fo args st st' r heq hf hpre
  unfold callBodyF at heq
  rcases hd : fo.declaration with e | cnd | e | kw | nm | cnd | ss | ⟨name, params, body⟩ | cls <;>
      rw [hd] at heq <;> dsimp only at heq
  case Function =>
    rcases ebind_eq heq with ⟨st1, k1, hx, heq⟩ | ⟨e1, hx, _⟩ | ⟨m1, hx, _⟩ <;>
        simp only [enewLocalEnvAt, Environment.new_local_env_at] at hx <;> cases hx
    rcases ebind_eq heq with ⟨st2, u2, hdp, heq⟩ | ⟨e2, hdp, rfl⟩ | ⟨m2, hdp, rfl⟩
    · have hp2 := pres_defineParams st.env.counter (params.zip args) _ st2 _ hdp trivial
      have hk2 : st.env.counter < st2.env.counter := by
        have := hp2.1.1
        dsimp only at this
        omega
      have hlk2 : alookup st.env.counter st2.env.env_link = some fo.environment_ref := by
        rw [hp2.1.2 st.env.counter (Nat.lt_succ_self _)]
        exact alookup_aupsert_self _ _ _
      rcases hex : prev.execBlock body (some st.env.counter) st2 with ⟨st3, a3 | e3 | m3⟩ <;>
          rw [hex] at heq <;> dsimp only at heq
      · obtain ⟨⟨hc3, hl3⟩, p, hlp, hact3⟩ :=
          h.execBlockSome body st.env.counter st2 st3 _ hex trivial hk2
        rw [hlk2] at hlp
        cases hlp
        cases heq
        refine ⟨⟨_, rfl⟩, ⟨?_, fun j hj => ?_⟩, hact3⟩
        · have := hp2.1.1
          dsimp only at this
          omega
        · rw [hl3 j (by have := hp2.1.1; dsimp only at this; omega) (Nat.ne_of_lt hj),
            hp2.1.2 j (Nat.lt_succ_of_lt hj)]
          exact alookup_aupsert_ne j st.env.counter fo.environment_ref st.env.env_link
            (Nat.ne_of_lt hj)
      · obtain ⟨⟨hc3, hl3⟩, p, hlp, hact3⟩ :=
          h.execBlockSome body st.env.counter st2 st3 _ hex trivial hk2
        rw [hlk2] at hlp
        cases hlp
        have hout : st' = st3 ∧ ∃ rv, r = Outcome.ok rv := by
          rcases e3 <;> cases heq <;> exact ⟨rfl, _, rfl⟩
        obtain ⟨rfl, hrv⟩ := hout
        refine ⟨hrv, ⟨?_, fun j hj => ?_⟩, hact3⟩
        · have := hp2.1.1
          dsimp only at this
          omega
        · rw [hl3 j (by have := hp2.1.1; dsimp only at this; omega) (Nat.ne_of_lt hj),
            hp2.1.2 j (Nat.lt_succ_of_lt hj)]
          exact alookup_aupsert_ne j st.env.counter fo.environment_ref st.env.env_link
            (Nat.ne_of_lt hj)
      · cases heq
        exact hf.elim
    · unfold defineParams at hdp
      split at hdp <;> cases hdp
    · exact hf.elim
  all_goals cases heq
  all_goals exact ⟨⟨_, rfl⟩, envPres_refl _, hpre⟩

/-- `SoxFunction::call` restores the caller's active frame on every
non-panicking outcome. -/
theorem step_callFunction (prev : InterpFns) (h : FrameOK prev) :
    ∀ fo args, Pres (callFunctionF prev fo args) := by
  intro fo args st st' r heq hf
  unfold callFunctionF at heq
  rcases haf : fo.as_func with _ | f <;> rw [haf] at heq <;> dsimp only at heq
  · cases heq; exact ⟨envPres_refl _, rfl⟩
  · by_cases har : (args.length : Int) ≠ usizeOfI8 f.arity
    · rw [if_pos har] at heq; cases heq; exact ⟨envPres_refl _, rfl⟩
    · rw [if_neg har] at heq
      rcases ebind_eq heq with ⟨st1, pe, hx, heq⟩ | ⟨e1, hx, _⟩ | ⟨m1, hx, _⟩
      · cases hx
        try dsimp only at heq
        rcases ebind_eq heq with ⟨st2, u2, hx2, heq⟩ | ⟨e2, hx2, _⟩ | ⟨m2, hx2, _⟩
        · cases hx2
          try dsimp only at heq
          rcases ebind_eq heq with ⟨st3, rv, hcb, heq⟩ | ⟨e3, hcb, rfl⟩ | ⟨m3, hcb, rfl⟩
          · obtain ⟨⟨rv2, hrv⟩, hEP, hact3⟩ :=
              h.callBody f args _ st3 _ hcb trivial rfl
            have hEP2 : EnvPres st.env st3.env :=
              envPres_trans ⟨le_rfl, fun j _ => rfl⟩ hEP
            try dsimp only at heq
            by_cases hini : f.is_initializer = true
            · rw [if_pos hini] at heq
              try dsimp only at heq
              split at heq <;> cases heq
              · exact hf.elim
              · exact ⟨hEP2, rfl⟩
              · exact ⟨hEP2, rfl⟩
            · rw [if_neg hini] at heq
              rcases ebind_eq heq with ⟨st4, u4, hx3, heq⟩ | ⟨e4, hx3, _⟩ | ⟨m4, hx3, _⟩
              · cases hx3
                rcases rv with v | e <;> dsimp only at heq <;> cases heq <;>
                  exact ⟨hEP2, rfl⟩
              · cases hx3
              · cases hx3
          · obtain ⟨⟨rv2, hrv⟩, _, _⟩ := h.callBody f args _ st' _ hcb trivial rfl
            cases hrv
          · cases hf
        · cases hx2
        · cases hx2
      · cases hx
      · cases hx

/-- `SoxType::call` restores the caller's active frame on every
non-panicking outcome. -/
theorem step_callType (prev : InterpFns) (h : FrameOK prev) :
    ∀ fo args, Pres (callTypeF prev fo args) := by
  intro fo args st st' r heq hf
  unfold callTypeF at heq
  rcases hat : fo.as_type with _ | to_ref <;> rw [hat] at heq <;> dsimp only at heq
  · cases heq; exact ⟨envPres_refl _, rfl⟩
  · rcases htd : typeData { st with
        instances := st.instances ++ [{ typ := to_ref, fields := [] }] } to_ref
      with _ | to_data <;> rw [htd] at heq <;> dsimp only at heq
    · cases heq; exact hf.elim
    · rcases hfm : findMethod st.types st.types.length to_data "init" with _ | init_obj <;>
        rw [hfm] at heq <;> dsimp only at heq
      · cases heq; exact ⟨envPres_refl _, rfl⟩
      · rcases hia : init_obj.as_func with _ | func <;> rw [hia] at heq <;> dsimp only at heq
        · cases heq; exact hf.elim
        · rcases hbm : bindMethod func (SoxObject.typeInstance st.instances.length)
              { st with instances := st.instances ++ [{ typ := to_ref, fields := [] }] }
            with ⟨st2, bound | e2 | m2⟩ <;> rw [hbm] at heq <;> dsimp only at heq
          · have hb := pres_bindMethod func (SoxObject.typeInstance st.instances.length)
              _ st2 _ hbm trivial
            rcases hcf : prev.callFunction bound args st2 with ⟨st3, w3 | e3 | m3⟩ <;>
              rw [hcf] at heq <;> dsimp only at heq <;> cases heq
            · have hc := h.callFunction bound args st2 _ _ hcf trivial
              exact ⟨envPres_trans hb.1 hc.1, hc.2.trans hb.2⟩
            · have hc := h.callFunction bound args st2 _ _ hcf trivial
              exact ⟨envPres_trans hb.1 hc.1, hc.2.trans hb.2⟩
            · exact hf.elim
          · cases heq
            have hb := pres_bindMethod func (SoxObject.typeInstance st.instances.length)
              _ st' _ hbm trivial
            exact hb
          · cases heq
            exact hf.elim

/-- Every expression evaluation restores the active frame and preserves
existing links. -/
theorem step_evalExpr (prev : InterpFns) (h : FrameOK prev) :
    ∀ e, Pres (evalExprF prev e) := by
  intro e
  cases e with
  | Assign name value =>
    exact pres_ebind (h.evalExpr value) fun v =>
      pres_ebind (pres_assignVariable name v) fun _ => pres_epure _
  | Binary l op r =>
    exact pres_ebind (h.evalExpr r) fun rv =>
      pres_ebind (h.evalExpr l) fun lv => pres_eread _
  | Call callee paren arguments =>
    refine pres_ebind (h.evalExpr callee) fun cv =>
      pres_ebind (h.evalArgs arguments) fun av => ?_
    intro st st' r heq hfr
    dsimp only at heq
    repeat' split at heq
    all_goals first
      | (cases heq; exact hfr.elim)
      | (cases heq; exact ⟨envPres_refl _, rfl⟩)
      | exact h.callFunction cv av st st' r heq hfr
      | exact h.callType cv av st st' r heq hfr
  | Get object name =>
    refine pres_ebind (h.evalExpr object) fun obj => ?_
    cases obj <;> first
      | exact pres_instanceGet _ _
      | exact pres_ethrow _
  | Grouping inner => exact h.evalExpr inner
  | Literal v => cases v <;> exact pres_epure _
  | Variable name => exact pres_lookupVariable name
  | Logical l op r =>
    refine pres_ebind (h.evalExpr l) fun lv => ?_
    by_cases hop : op.token_type = TokenType.Or
    · rw [if_pos hop]
      refine pres_ebind (pres_eread _) fun b => ?_
      cases b
      · exact h.evalExpr r
      · exact pres_epure _
    · rw [if_neg hop]
      refine pres_ebind (pres_eread _) fun b => ?_
      cases b
      · exact pres_epure _
      · exact h.evalExpr r
  | Set object name value =>
    refine pres_ebind (h.evalExpr object) fun obj => ?_
    cases obj <;> first
      | exact pres_ethrow _
      | exact pres_ebind (h.evalExpr value) fun v =>
          pres_ebind (pres_instanceSet _ _ _) fun _ => pres_epure _
  | Super keyword method =>
    intro st st' r heq hfr
    unfold evalExprF at heq
    dsimp only at heq
    repeat' split at heq
    all_goals first
      | (cases heq; exact hfr.elim)
      | (cases heq; exact ⟨envPres_refl _, rfl⟩)
      | exact pres_bindMethod _ _
          { st with token_counter :=
              (Token.new TokenType.This "this" Literal.none 0 st.token_counter).2 }
          st' r heq hfr
  | This keyword => exact pres_lookupVariable keyword
  | Unary op right =>
    exact pres_ebind (h.evalExpr right) fun rv => pres_eread _

/-- `Environment::define` never raises. -/
theorem define_no_thr (e : Environment) (key : String) (v : SoxObject) (ev : SoxObject)
    (h : e.define key v = Outcome.thr ev) : False := by
  unfold Environment.define at h
  split at h <;> cases h

/-- Defining through `eenv` never raises. -/
theorem eenvDefine_no_thr (key : String) (v : SoxObject) (s1 s2 : State) (ev : SoxObject)
    (h : eenv (fun e => e.define key v) s1 = (s2, Outcome.thr ev)) : False := by
  unfold eenv at h
  split at h
  · cases h
  · rename_i e1 hdef
    cases h
    exact define_no_thr _ _ _ _ hdef
  · cases h

/-- Every statement execution restores the active frame and preserves
existing links.  `visit_class_stmt` is the delicate case: with a
superclass it pushes a `super` frame and leaves it in place, restoring
the active pointer directly from the saved `prev_env_ref`. -/
theorem step_execStmt (prev : InterpFns) (h : FrameOK prev) :
    ∀ s, Pres (execStmtF prev s) := by
  intro s
  cases s with
  | Expression e => exact h.evalExpr e
  | If cond thenb elseb =>
    refine pres_ebind (h.evalExpr cond) fun cv =>
      pres_ebind (pres_eread _) fun b =>
      pres_ebind ?_ fun _ => pres_epure _
    cases b
    · cases elseb with
      | none => exact pres_epure _
      | some eb => exact pres_ebind (h.execStmt eb) fun _ => pres_epure _
    · exact pres_ebind (h.execStmt thenb) fun _ => pres_epure _
  | Print e =>
    exact pres_ebind (h.evalExpr e) fun v =>
      pres_ebind (pres_eread _) fun line =>
      pres_ebind (pres_eprintln line) fun _ => pres_epure _
  | Return kw value =>
    refine pres_ebind ?_ fun rv => pres_ethrow _
    cases value with
    | some v => exact h.evalExpr v
    | none => exact pres_epure _
  | Var name initializer =>
    refine pres_ebind ?_ fun v =>
      pres_ebind (pres_eenv fun e e' he => define_envKeep e _ _ e' he) fun _ => pres_epure _
    cases initializer with
    | some iv => exact h.evalExpr iv
    | none => exact pres_epure _
  | While cond body =>
    exact pres_ebind (h.evalExpr cond) fun cv =>
      pres_ebind (h.whileLoop cond body cv) fun _ => pres_epure _
  | Block statements =>
    exact pres_ebind (h.execBlockNone statements) fun _ => pres_epure _
  | Function name params body =>
    intro st st' r heq hfr
    unfold execStmtF at heq
    dsimp only at heq
    split at heq <;> cases heq
    · rename_i e1 hd
      have h2 := define_envKeep _ _ _ _ hd
      exact ⟨envPres_of_eq h2.2.1 h2.2.2, h2.1⟩
    · exact ⟨envPres_refl _, rfl⟩
    · exact hfr.elim
  | Class name superclass methods =>
    intro st st' r heq hfr
    unfold execStmtF at heq
    dsimp only at heq
    rcases ebind_eq heq with ⟨stA, sc, h1, hq1⟩ | ⟨e1, h1, rfl⟩ | ⟨m1, h1, rfl⟩
    · -- superclass evaluation succeeded with result `sc`
      have hA : EnvPres st.env stA.env ∧ stA.env.active = st.env.active := by
        cases superclass with
        | none => cases h1; exact ⟨envPres_refl _, rfl⟩
        | some sce =>
          dsimp only at h1
          rcases hev : prev.evalExpr sce st with ⟨s3, a | ev | mv⟩ <;> rw [hev] at h1
          · have hp := h.evalExpr sce st s3 _ hev trivial
            rcases a <;> dsimp only at h1 <;> cases h1 <;> exact hp
          · dsimp only at h1; cases h1
          · dsimp only at h1; cases h1
      rcases ebind_eq hq1 with ⟨stB, u2, h2, hq2⟩ | ⟨e2, h2, rfl⟩ | ⟨m2, h2, rfl⟩
      · -- class name defined
        have hB := pres_eenv (fun e e' he => define_envKeep e _ _ e' he) _ stB _ h2 trivial
        rcases ebind_eq hq2 with ⟨stC, pe, h3, hq3⟩ | ⟨e3, h3, rfl⟩ | ⟨m3, h3, rfl⟩
        · cases h3
          -- pe = stB.env.active; the `super` frame step
          rcases ebind_eq hq3 with ⟨stD, u4, h4, hq4⟩ | ⟨e4, h4, rfl⟩ | ⟨m4, h4, rfl⟩
          · have hD : EnvPres stB.env stD.env := by
              cases sc with
              | none => cases h4; exact envPres_refl _
              | some scr =>
                rcases ebind_eq h4 with ⟨sM, k1, hx, h5⟩ | ⟨e5, hx, _⟩ | ⟨m5, hx, _⟩
                · simp only [enewLocalEnv, Environment.new_local_env] at hx
                  cases hx
                  have h6 := pres_eenv (fun e e' he => define_envKeep e _ _ e' he)
                    _ stD _ h5 trivial
                  refine envPres_trans ⟨Nat.le_succ _, fun j hj => ?_⟩ h6.1
                  exact alookup_aupsert_ne j stB.env.counter _ _ (Nat.ne_of_lt hj)
                · cases hx
                · cases hx
            -- the final store-and-assign step
            try dsimp only at hq4
            split at hq4 <;> cases hq4
            · rename_i e5 hfa
              have h6 := find_and_assign_envKeep _ _ _ _ hfa
              refine ⟨?_, ?_⟩
              · refine envPres_trans hA.1 (envPres_trans hB.1 (envPres_trans hD ?_))
                exact ⟨le_of_eq h6.2.1.symm, fun j _ => by rw [h6.2.2]⟩
              · rw [h6.1]
                exact hB.2.trans hA.2
            · exact hfr.elim
            · exact hfr.elim
          · cases sc with
            | none => cases h4
            | some scr =>
              rcases ebind_eq h4 with ⟨sM, k1, hx, h5⟩ | ⟨e5, hx, _⟩ | ⟨m5, hx, _⟩
              · exact (eenvDefine_no_thr _ _ _ _ _ h5).elim
              · cases hx
              · cases hx
          · exact hfr.elim
        · cases h3
        · cases h3
      · exact (eenvDefine_no_thr _ _ _ _ _ h2).elim
      · exact hfr.elim
    · -- superclass evaluation raised
      cases superclass with
      | none => cases h1
      | some sce =>
        dsimp only at h1
        rcases hev : prev.evalExpr sce st with ⟨s3, a | ev | mv⟩ <;> rw [hev] at h1
        · have hp := h.evalExpr sce st s3 _ hev trivial
          rcases a <;> dsimp only at h1 <;> cases h1 <;> exact hp
        · dsimp only at h1; cases h1
          exact h.evalExpr sce st st' _ hev trivial
        · dsimp only at h1; cases h1
    · exact hfr.elim

/-- One fuel level preserves the frame-discipline contract. -/
theorem frameOK_step (prev : InterpFns) (h : FrameOK prev) : FrameOK (interpStep prev) :=
  ⟨step_evalExpr prev h, step_evalArgs prev h, step_execStmt prev h, step_whileLoop prev h,
   step_blockLoop prev h, step_execBlockNone prev h, step_execBlockSome prev h,
   step_callBody prev h, step_callFunction prev h, step_callType prev h⟩

/-- The whole interpreter satisfies the frame-discipline contract at every
fuel. -/
theorem frameOK_interpAt : ∀ n, FrameOK (interpAt n)
| 0 => frameOK_zero
| n + 1 => frameOK_step (interpAt n) (frameOK_interpAt n)

/-- A state with one local frame (key 1) linked under the global frame,
`active` still at the global frame. -/
def c5State : State :=
  { State.new 0 with env := (Environment.new.new_local_env_at 0).1 }

/-! ## Parser (`parser.rs`)

The `Peekable<I>` token iterator is a `List Token`; `processed_tokens` is
the second list.  `Mod` in `parser.rs` is the token `TokenType.Rem` of
`token_type.rs`.  Panicking `unwrap()`s surface as `.fault`; Rust's `?`
operator is the bind `pbind`, and a `match` that continues after an
`Err` (the `parse` loop, `declaration`'s synchronize-then-return) is the
two-continuation `pstep`.  The mutual recursion is opened over fuel
exactly as for the interpreter and resolver: calls that follow the
grammar downwards are direct, back edges go through `prev : ParseFns`. -/

def TO_IGNORE : List TokenType :=
  [TokenType.Comment, TokenType.Whitespace, TokenType.Newline]

/-- `parser.rs`: `SyntaxError { msg, line }`. -/
structure SyntaxError where
  msg : String
  line : Nat
deriving Repr, DecidableEq

/-- A parse outcome: `Ok`, an `Err(SyntaxError)`, or a Rust panic. -/
inductive PRes (α : Type) where
| ok (a : α)
| err (e : SyntaxError)
| fault (s : String)

/-- A `Parser` method: the struct is the state `(tokens, processed_tokens)`. -/
structure PState where
  tokens : List Token
  processed_tokens : List Token

def PM (α : Type) : Type := PState → PState × PRes α

def ppure {α : Type} (a : α) : PM α := fun p => (p, .ok a)

def pbind {α β : Type} (x : PM α) (f : α → PM β) : PM β := fun p =>
  match x p with
  | (p1, .ok a) => f a p1
  | (p1, .err e) => (p1, .err e)
  | (p1, .fault s) => (p1, .fault s)

/-- Run `x`, then continue with `ok` on success and with `err` on a thrown
`SyntaxError` (panics still propagate). -/
def pstep {α β : Type} (x : PM α) (ok : α → PM β) (err : SyntaxError → PM β) :
    PM β := fun p =>
  match x p with
  | (p1, .ok a) => ok a p1
  | (p1, .err e) => err e p1
  | (p1, .fault s) => (p1, .fault s)

/-- `previous`: `processed_tokens.last().unwrap()` — panics when empty. -/
def previous (p : PState) : PRes Token :=
  match p.processed_tokens.getLast? with
  | some t => .ok t
  | Option.none => .fault "previous: processed_tokens.last().unwrap()"

def withPrevious {α : Type} (p : PState) (f : Token → PState × PRes α) :
    PState × PRes α :=
  match previous p with
  | .ok t => f t
  | .err e => (p, .err e)
  | .fault s => (p, .fault s)

/-- `check` and `at_end` advance the peekable stream past `TO_IGNORE`
tokens; the skipped tokens are consumed without entering
`processed_tokens`. -/
def skipIgnored : List Token → List Token
  | [] => []
  | t :: ts => if t.token_type ∈ TO_IGNORE then skipIgnored ts else t :: ts

/-- `at_end`. -/
def at_end (p : PState) : Bool × PState :=
  let ts := skipIgnored p.tokens
  (match ts with
   | [] => true
   | t :: _ => t.token_type == TokenType.EOF,
   { p with tokens := ts })

/-- `check`. -/
def check (tt : TokenType) (p : PState) : Bool × PState :=
  let (e, p1) := at_end p
  if e then (false, p1)
  else
    let ts := skipIgnored p1.tokens
    let p2 := { p1 with tokens := ts }
    match ts with
    | [] => (false, p2)
    | t :: _ => (t.token_type == tt, p2)

/-- `advance`.  When `at_end` is false the stream is nonempty, so the
empty case below is unreachable. -/
def advance (p : PState) : Option Token × PState :=
  let (e, p1) := at_end p
  if e then (Option.none, p1)
  else
    match p1.tokens with
    | [] => (Option.none, p1)
    | t :: ts => (some t, { tokens := ts, processed_tokens := p1.processed_tokens ++ [t] })

/-- `match_token`. -/
def match_token : List TokenType → PState → Bool × PState
  | [], p => (false, p)
  | tt :: rest, p =>
    let (c, p1) := check tt p
    if c then
      let (_, p2) := advance p1
      (true, p2)
    else match_token rest p1

/-- `consume`.  The error message goes through `format!("{:?}", message)`,
which wraps it in quotes (no parser message needs further escaping). -/
def consume (tt : TokenType) (message : String) : PM Token := fun p =>
  let (c, p1) := check tt p
  if c then
    match advance p1 with
    | (some t, p2) => (p2, .ok t)
    | (Option.none, p2) => (p2, .fault "consume: token.unwrap()")
  else
    withPrevious p1 (fun prev => (p1, .err ⟨"\"" ++ message ++ "\"", prev.line⟩))

/-- The fuelled back edges of the parser's mutual recursion. -/
structure ParseFns where
  expression : PM Expr
  statement : PM Stmt
  declaration : PM Stmt
  unary : PM Expr
  callLoop : Expr → PM Expr
  argsLoop : List Expr → PM (List Expr)
  orLoop : Expr → PM Expr
  andLoop : Expr → PM Expr
  equalityLoop : Expr → PM Expr
  comparisonLoop : Expr → PM Expr
  termLoop : Expr → PM Expr
  factorLoop : Expr → PM Expr
  blockLoop : List Stmt → PM (List Stmt)
  methodsLoop : List Stmt → PM (List Stmt)
  paramsLoop : List Token → Token → PM (List Token)
  syncLoop : PM Unit
  parseLoop : List Stmt → List SyntaxError → PM (List Stmt × List SyntaxError)

/-- The `while` loop of `synchronize`.  The keyword peek uses the raw
stream (`self.tokens.peek()`), without the `TO_IGNORE` skip. -/
def syncLoopF (prev : ParseFns) : PM Unit := fun p =>
  let (e, p1) := at_end p
  if e then (p1, .ok ())
  else
    withPrevious p1 (fun prevTok =>
      if prevTok.token_type == TokenType.Semi then (p1, .ok ())
      else
        let isSync : Bool :=
          match p1.tokens with
          | t :: _ => decide (t.token_type ∈ [TokenType.Class, TokenType.Def,
              TokenType.Let, TokenType.For, TokenType.If, TokenType.While,
              TokenType.Print, TokenType.Return])
          | [] => false
        if isSync then (p1, .ok ())
        else
          let (_, p2) := advance p1
          prev.syncLoop p2)

/-- `synchronize`. -/
def synchronizeF (prev : ParseFns) : PM Unit := fun p =>
  let (_, p1) := advance p
  syncLoopF prev p1

/-- `primary`.  The fall-through error formats the peeked token with
`{:?}`; the `Debug` rendering is abbreviated to the lexeme, and the
`token.unwrap()` on an exhausted stream is a panic. -/
def primaryF (prev : ParseFns) : PM Expr := fun p =>
  let (m, p1) := match_token [TokenType.None] p
  if m then (p1, .ok (Expr.Literal Literal.none))
  else
    let (m, p2) := match_token [TokenType.False] p1
    if m then (p2, .ok (Expr.Literal (Literal.boolean false)))
    else
      let (m, p3) := match_token [TokenType.True] p2
      if m then (p3, .ok (Expr.Literal (Literal.boolean true)))
      else
        let (m, p4) := match_token [TokenType.Number, TokenType.SoxString] p3
        if m then withPrevious p4 (fun t => (p4, .ok (Expr.Literal t.literal)))
        else
          let (m, p5) := match_token [TokenType.Super] p4
          if m then
            withPrevious p5 (fun keyword =>
              (pbind (consume TokenType.Dot "Expect '.' after 'super'") (fun _ =>
               pbind (consume TokenType.Identifier "Expect superclass method name")
                 (fun method => ppure (Expr.Super keyword method)))) p5)
          else
            let (m, p6) := match_token [TokenType.This] p5
            if m then withPrevious p6 (fun keyword => (p6, .ok (Expr.This keyword)))
            else
              let (m, p7) := match_token [TokenType.Identifier] p6
              if m then withPrevious p7 (fun name => (p7, .ok (Expr.Variable name)))
              else
                let (m, p8) := match_token [TokenType.LeftParen] p7
                if m then
                  (pbind prev.expression (fun e =>
                   pbind (consume TokenType.RightParen "Expect ')' after expression.")
                     (fun _ => ppure (Expr.Grouping e)))) p8
                else
                  match p8.tokens with
                  | t :: _ =>
                    (p8, .err ⟨"Failed to parse primary token - Some(" ++ t.lexeme ++ ")",
                      t.line⟩)
                  | [] => (p8, .fault "primary: token.unwrap()")

/-- The argument loop of `finish_call`: the cap check `arguments.len() > 255`
runs before each argument is parsed, so the 257th argument trips it. -/
def argsLoopF (prev : ParseFns) (arguments : List Expr) : PM (List Expr) := fun p =>
  if arguments.length > 255 then
    withPrevious p (fun prevTok =>
      (p, .err ⟨"Function cannot have more than 255 arguments", prevTok.line⟩))
  else
    (pbind prev.expression (fun e => fun p1 =>
      let (m, p2) := match_token [TokenType.Comma] p1
      if m then prev.argsLoop (arguments ++ [e]) p2
      else (p2, .ok (arguments ++ [e])))) p

/-- `finish_call`. -/
def finishCallF (prev : ParseFns) (callee : Expr) : PM Expr := fun p =>
  let (c, p1) := check TokenType.RightParen p
  (pbind (if c then ppure [] else argsLoopF prev []) (fun arguments =>
   pbind (consume TokenType.RightParen "Expect ')' after arguments.") (fun paren =>
   ppure (Expr.Call callee paren arguments)))) p1

/-- The call/property loop of `call`. -/
def callLoopF (prev : ParseFns) (expr : Expr) : PM Expr := fun p =>
  let (m, p1) := match_token [TokenType.LeftParen] p
  if m then
    (pbind (finishCallF prev expr) (fun e2 => prev.callLoop e2)) p1
  else
    let (m2, p2) := match_token [TokenType.Dot] p1
    if m2 then
      (pbind (consume TokenType.Identifier "Expect property name after '.'") (fun name =>
        prev.callLoop (Expr.Get expr name))) p2
    else (p2, .ok expr)

/-- `call`. -/
def callF (prev : ParseFns) : PM Expr :=
  pbind (primaryF prev) (fun e => callLoopF prev e)

/-- `unary`. -/
def unaryF (prev : ParseFns) : PM Expr := fun p =>
  let (m, p1) := match_token [TokenType.Bang, TokenType.Minus] p
  if m then
    withPrevious p1 (fun operator =>
      (pbind prev.unary (fun right => ppure (Expr.Unary operator right))) p1)
  else callF prev p1

/-- The operator loop of `factor`. -/
def factorLoopF (prev : ParseFns) (expr : Expr) : PM Expr := fun p =>
  let (m, p1) := match_token [TokenType.Slash, TokenType.Star, TokenType.Rem] p
  if m then
    withPrevious p1 (fun operator =>
      (pbind (unaryF prev) (fun right =>
        prev.factorLoop (Expr.Binary expr operator right))) p1)
  else (p1, .ok expr)

/-- `factor`. -/
def factorF (prev : ParseFns) : PM Expr :=
  pbind (unaryF prev) (fun e => factorLoopF prev e)

/-- The operator loop of `term`. -/
def termLoopF (prev : ParseFns) (expr : Expr) : PM Expr := fun p =>
  let (m, p1) := match_token [TokenType.Minus, TokenType.Plus] p
  if m then
    withPrevious p1 (fun operator =>
      (pbind (factorF prev) (fun right =>
        prev.termLoop (Expr.Binary expr operator right))) p1)
  else (p1, .ok expr)

/-- `term`. -/
def termF (prev : ParseFns) : PM Expr :=
  pbind (factorF prev) (fun e => termLoopF prev e)

/-- The operator loop of `comparison`. -/
def comparisonLoopF (prev : ParseFns) (expr : Expr) : PM Expr := fun p =>
  let (m, p1) := match_token [TokenType.Greater, TokenType.GreaterEqual,
      TokenType.Less, TokenType.LessEqual] p
  if m then
    withPrevious p1 (fun operator =>
      (pbind (termF prev) (fun right =>
        prev.comparisonLoop (Expr.Binary expr operator right))) p1)
  else (p1, .ok expr)

/-- `comparison`. -/
def comparisonF (prev : ParseFns) : PM Expr :=
  pbind (termF prev) (fun e => comparisonLoopF prev e)

/-- The operator loop of `equality`. -/
def equalityLoopF (prev : ParseFns) (expr : Expr) : PM Expr := fun p =>
  let (m, p1) := match_token [TokenType.BangEqual, TokenType.EqualEqual] p
  if m then
    withPrevious p1 (fun operator =>
      (pbind (comparisonF prev) (fun right =>
        prev.equalityLoop (Expr.Binary expr operator right))) p1)
  else (p1, .ok expr)

/-- `equality`. -/
def equalityF (prev : ParseFns) : PM Expr :=
  pbind (comparisonF prev) (fun e => equalityLoopF prev e)

/-- The operator loop of `and`. -/
def andLoopF (prev : ParseFns) (expr : Expr) : PM Expr := fun p =>
  let (m, p1) := match_token [TokenType.And] p
  if m then
    withPrevious p1 (fun operator =>
      (pbind (equalityF prev) (fun right =>
        prev.andLoop (Expr.Logical expr operator right))) p1)
  else (p1, .ok expr)

/-- `and`. -/
def andF (prev : ParseFns) : PM Expr :=
  pbind (equalityF prev) (fun e => andLoopF prev e)

/-- The operator loop of `or`. -/
def orLoopF (prev : ParseFns) (expr : Expr) : PM Expr := fun p =>
  let (m, p1) := match_token [TokenType.Or] p
  if m then
    withPrevious p1 (fun operator =>
      (pbind (andF prev) (fun right =>
        prev.orLoop (Expr.Logical expr operator right))) p1)
  else (p1, .ok expr)

/-- `or`. -/
def orF (prev : ParseFns) : PM Expr :=
  pbind (andF prev) (fun e => orLoopF prev e)

/-- `expression`: assignment targets rewrite `Variable`/`Get`; any other
left side falls through to the already parsed expression. -/
def expressionF (prev : ParseFns) : PM Expr :=
  pbind (orF prev) (fun expr => fun p1 =>
    let (m, p2) := match_token [TokenType.Equal] p1
    if m then
      (pbind prev.expression (fun value =>
        ppure (match expr with
          | Expr.Variable name => Expr.Assign name value
          | Expr.Get object name => Expr.Set object name value
          | _ => expr))) p2
    else (p2, .ok expr))

/-- `var_declaration`. -/
def var_declarationF (prev : ParseFns) : PM Stmt :=
  pbind (consume TokenType.Identifier "Expect variable name.") (fun name => fun p =>
    let (m, p1) := match_token [TokenType.Equal] p
    if m then
      (pbind (expressionF prev) (fun e =>
       pbind (consume TokenType.Semi "Expect ';' after variable declaration") (fun _ =>
       ppure (Stmt.Var name (some e))))) p1
    else
      (pbind (consume TokenType.Semi "Expect ';' after variable declaration") (fun _ =>
       ppure (Stmt.Var name Option.none))) p1)

/-- `print_statement`. -/
def print_statementF (prev : ParseFns) : PM Stmt :=
  pbind (expressionF prev) (fun v =>
  pbind (consume TokenType.Semi "Expect ';' after value.") (fun _ =>
  ppure (Stmt.Print v)))

/-- `expression_statement`. -/
def expression_statementF (prev : ParseFns) : PM Stmt :=
  pbind (expressionF prev) (fun e =>
  pbind (consume TokenType.Semi "Expect ';' after expression.") (fun _ =>
  ppure (Stmt.Expression e)))

/-- `return_statement`.  The parser always supplies a value (defaulting to
the literal `none`), so the `Option` payload of `Stmt.Return` is `some`. -/
def return_statementF (prev : ParseFns) : PM Stmt := fun p =>
  withPrevious p (fun keyword =>
    let (c, p1) := check TokenType.Semi p
    (pbind (if c then ppure (Expr.Literal Literal.none) else expressionF prev) (fun v =>
     pbind (consume TokenType.Semi "Expect ';' after return value.") (fun _ =>
     ppure (Stmt.Return keyword (some v))))) p1)

/-- The statement loop of `block` (`&&` short-circuits: `at_end` only runs
when the `RightBrace` check fails). -/
def pBlockLoopF (prev : ParseFns) (statements : List Stmt) : PM (List Stmt) := fun p =>
  let (c, p1) := check TokenType.RightBrace p
  if c then (p1, .ok statements)
  else
    let (e, p2) := at_end p1
    if e then (p2, .ok statements)
    else
      (pbind prev.declaration (fun s =>
        prev.blockLoop (statements ++ [s]))) p2

/-- `block` (its closing `consume` carries the empty message). -/
def blockF (prev : ParseFns) : PM (List Stmt) :=
  pbind (pBlockLoopF prev []) (fun statements =>
  pbind (consume TokenType.RightBrace "") (fun _ =>
  ppure statements))

/-- `if_statement`. -/
def if_statementF (prev : ParseFns) : PM Stmt :=
  pbind (consume TokenType.LeftParen "Expect '(' after 'if'.") (fun _ =>
  pbind (expressionF prev) (fun condition =>
  pbind (consume TokenType.RightParen "Expect ')' after 'if' condition.") (fun _ =>
  pbind prev.statement (fun then_branch => fun p =>
    let (m, p1) := match_token [TokenType.Else] p
    if m then
      (pbind prev.statement (fun els =>
        ppure (Stmt.If condition then_branch (some els)))) p1
    else (p1, .ok (Stmt.If condition then_branch Option.none))))))

/-- `while_statement`. -/
def while_statementF (prev : ParseFns) : PM Stmt :=
  pbind (consume TokenType.LeftParen "Expect '(' after 'while'.") (fun _ =>
  pbind (expressionF prev) (fun condition =>
  pbind (consume TokenType.RightParen "Expect ')' after 'while' condition.") (fun _ =>
  pbind prev.statement (fun body =>
  ppure (Stmt.While condition body)))))

/-- `for_statement`: desugars to `While` with the initializer and the
increment wrapped in blocks. -/
def for_statementF (prev : ParseFns) : PM Stmt :=
  pbind (consume TokenType.LeftParen "Expect '(' after 'for'.") (fun _ => fun p =>
    let initStep : PM (Option Stmt) := fun q =>
      let (m, q1) := match_token [TokenType.Semi] q
      if m then (q1, .ok Option.none)
      else
        let (m2, q2) := match_token [TokenType.Let] q1
        if m2 then (pbind (var_declarationF prev) (fun s => ppure (some s))) q2
        else (pbind (expression_statementF prev) (fun s => ppure (some s))) q2
    (pbind initStep (fun initializer => fun p2 =>
      let (c, p3) := check TokenType.Semi p2
      (pbind (if c then ppure Option.none
              else pbind (expressionF prev) (fun e => ppure (some e)))
        (fun condition =>
       pbind (consume TokenType.Semi "Expect ';' after loop condition.") (fun _ =>
         fun p5 =>
         let (c2, p6) := check TokenType.RightParen p5
         (pbind (if c2 then ppure Option.none
                 else pbind (expressionF prev) (fun e => ppure (some e)))
           (fun increment =>
          pbind (consume TokenType.RightParen "Expect ')' after for clauses.") (fun _ =>
          pbind prev.statement (fun body0 =>
          let body1 :=
            match increment with
            | some inc => Stmt.Block [body0, Stmt.Expression inc]
            | Option.none => body0
          let cond :=
            match condition with
            | some c => c
            | Option.none => Expr.Literal (Literal.boolean true)
          let body2 := Stmt.While cond body1
          let body3 :=
            match initializer with
            | some init => Stmt.Block [init, body2]
            | Option.none => body2
          ppure body3)))) p6))) p3)) p)

/-- The parameter loop of `function`: the cap check `params.len() >= 255`
runs before each parameter is consumed, so the 256th parameter trips it;
the error carries the function name's line. -/
def paramsLoopF (prev : ParseFns) (params : List Token) (name : Token) :
    PM (List Token) := fun p =>
  if params.length ≥ 255 then
    (p, .err ⟨"Cannot have more than 255 parameters.", name.line⟩)
  else
    (pbind (consume TokenType.Identifier "Expect parameter name.") (fun param =>
      fun p1 =>
      let (m, p2) := match_token [TokenType.Comma] p1
      if m then prev.paramsLoop (params ++ [param]) name p2
      else (p2, .ok (params ++ [param])))) p

/-- `function`. -/
def functionF (prev : ParseFns) (_kind : String) : PM Stmt :=
  pbind (consume TokenType.Identifier "Expect function name.") (fun name =>
  pbind (consume TokenType.LeftParen "Expect '(' after function name.") (fun _ =>
    fun p =>
    let (c, p1) := check TokenType.RightParen p
    (pbind (if c then ppure [] else paramsLoopF prev [] name) (fun params =>
     pbind (consume TokenType.RightParen "Expect ')' after function parameters.")
       (fun _ =>
     pbind (consume TokenType.LeftBrace "Expect '\x7b' before function body.") (fun _ =>
     pbind (blockF prev) (fun body =>
     ppure (Stmt.Function name params body)))))) p1))

/-- The method loop of `class_declaration`. -/
def methodsLoopF (prev : ParseFns) (methods : List Stmt) : PM (List Stmt) := fun p =>
  let (c, p1) := check TokenType.RightBrace p
  if c then (p1, .ok methods)
  else
    let (e, p2) := at_end p1
    if e then (p2, .ok methods)
    else
      (pbind (functionF prev "method") (fun m =>
        prev.methodsLoop (methods ++ [m]))) p2

/-- `class_declaration`. -/
def class_declarationF (prev : ParseFns) : PM Stmt :=
  pbind (consume TokenType.Identifier "Expect a class name") (fun name => fun p =>
    let superStep : PM (Option Expr) := fun q =>
      let (m, q1) := match_token [TokenType.Colon] q
      if m then
        (pbind (consume TokenType.Identifier "Expect a superclass name") (fun _ =>
          fun q2 => withPrevious q2 (fun prevTok =>
            (q2, .ok (some (Expr.Variable prevTok)))))) q1
      else (q1, .ok Option.none)
    (pbind superStep (fun super_class =>
     pbind (consume TokenType.LeftBrace "Expect '\x7b' before class body") (fun _ =>
     pbind (methodsLoopF prev []) (fun methods =>
     pbind (consume TokenType.RightBrace "Expect '\x7d' after class body.") (fun _ =>
     ppure (Stmt.Class name super_class methods)))))) p)

/-- `statement`. -/
def statementF (prev : ParseFns) : PM Stmt := fun p =>
  let (m, p1) := match_token [TokenType.For] p
  if m then for_statementF prev p1
  else
    let (m, p2) := match_token [TokenType.If] p1
    if m then if_statementF prev p2
    else
      let (m, p3) := match_token [TokenType.While] p2
      if m then while_statementF prev p3
      else
        let (m, p4) := match_token [TokenType.Print] p3
        if m then print_statementF prev p4
        else
          let (m, p5) := match_token [TokenType.Return] p4
          if m then return_statementF prev p5
          else
            let (m, p6) := match_token [TokenType.LeftBrace] p5
            if m then
              (pbind (blockF prev) (fun bs => ppure (Stmt.Block bs))) p6
            else expression_statementF prev p6

/-- The declaration selector: the `if`/`else if` chain at the head of
`declaration` (`m` records whether `Class` already matched). -/
def declSelectF (prev : ParseFns) (m : Bool) : PM Stmt := fun q =>
  if m then class_declarationF prev q
  else
    let (m2, q1) := match_token [TokenType.Def] q
    if m2 then functionF prev "function" q1
    else
      let (m3, q2) := match_token [TokenType.Let] q1
      if m3 then var_declarationF prev q2
      else statementF prev q2

/-- `declaration`: on error, `synchronize` runs before the error is
returned (a panic inside `synchronize` supersedes it). -/
def declarationF (prev : ParseFns) : PM Stmt := fun p =>
  let (m, p1) := match_token [TokenType.Class] p
  pstep (declSelectF prev m)
    (fun s => ppure s)
    (fun e =>
      pstep (synchronizeF prev)
        (fun _ => fun p3 => (p3, .err e))
        (fun e2 => fun p3 => (p3, .err e2)))
    p1

/-- The `while !self.at_end()` loop of `parse`, accumulating statements and
errors. -/
def parseLoopF (prev : ParseFns) (statements : List Stmt) (errors : List SyntaxError) :
    PM (List Stmt × List SyntaxError) := fun p =>
  let (e, p1) := at_end p
  if e then (p1, .ok (statements, errors))
  else
    pstep prev.declaration
      (fun s => prev.parseLoop (statements ++ [s]) errors)
      (fun er => prev.parseLoop statements (errors ++ [er]))
      p1

def parseZero : ParseFns :=
  { expression := fun p => (p, .fault "out of fuel"),
    statement := fun p => (p, .fault "out of fuel"),
    declaration := fun p => (p, .fault "out of fuel"),
    unary := fun p => (p, .fault "out of fuel"),
    callLoop := fun _ p => (p, .fault "out of fuel"),
    argsLoop := fun _ p => (p, .fault "out of fuel"),
    orLoop := fun _ p => (p, .fault "out of fuel"),
    andLoop := fun _ p => (p, .fault "out of fuel"),
    equalityLoop := fun _ p => (p, .fault "out of fuel"),
    comparisonLoop := fun _ p => (p, .fault "out of fuel"),
    termLoop := fun _ p => (p, .fault "out of fuel"),
    factorLoop := fun _ p => (p, .fault "out of fuel"),
    blockLoop := fun _ p => (p, .fault "out of fuel"),
    methodsLoop := fun _ p => (p, .fault "out of fuel"),
    paramsLoop := fun _ _ p => (p, .fault "out of fuel"),
    syncLoop := fun p => (p, .fault "out of fuel"),
    parseLoop := fun _ _ p => (p, .fault "out of fuel") }

def parseStep (prev : ParseFns) : ParseFns :=
  { expression := expressionF prev,
    statement := statementF prev,
    declaration := declarationF prev,
    unary := unaryF prev,
    callLoop := callLoopF prev,
    argsLoop := argsLoopF prev,
    orLoop := orLoopF prev,
    andLoop := andLoopF prev,
    equalityLoop := equalityLoopF prev,
    comparisonLoop := comparisonLoopF prev,
    termLoop := termLoopF prev,
    factorLoop := factorLoopF prev,
    blockLoop := pBlockLoopF prev,
    methodsLoop := methodsLoopF prev,
    paramsLoop := paramsLoopF prev,
    syncLoop := syncLoopF prev,
    parseLoop := parseLoopF prev }

def parseAt : Nat → ParseFns := fun n =>
  Nat.rec parseZero (fun _ prev => parseStep prev) n

/-- The overall result of `Parser::parse`. -/
inductive ParseOut where
| ok (stmts : List Stmt)
| errs (es : List SyntaxError)
| fault (s : String)
deriving Repr

/-- `Parser::parse` on a fresh parser over `tokens`. -/
def Parser.parse (fuel : Nat) (tokens : List Token) : ParseOut :=
  match (parseAt fuel).parseLoop [] [] ⟨tokens, []⟩ with
  | (_, .ok (stmts, [])) => .ok stmts
  | (_, .ok (_, e :: es)) => .errs (e :: es)
  | (_, .err _) => .fault "parse: declaration error escaped the loop"
  | (_, .fault s) => .fault s

/-! ### Token fixtures for the parser cap behaviour -/

/-- A token whose id plays no role in parsing. -/
def pTok (tt : TokenType) (lex : String) (line : Nat) : Token :=
  ⟨tt, lex, Literal.none, line, 0⟩

def numTok (n : Int) : Token :=
  ⟨TokenType.Number, "1", Literal.integer n, 1, 0⟩

/-- `n` comma-separated parameter name tokens. -/
def paramToks : Nat → List Token
  | 0 => []
  | 1 => [pTok .Identifier "p" 1]
  | n+2 => pTok .Identifier "p" 1 :: pTok .Comma "," 1 :: paramToks (n+1)

/-- `def f(p, …, p) \x7b \x7d` with `n` parameters, on `line`. -/
def funcToks (n : Nat) (line : Nat) : List Token :=
  pTok .Def "def" line :: pTok .Identifier "f" line :: pTok .LeftParen "(" line ::
  (paramToks n ++ [pTok .RightParen ")" line, pTok .LeftBrace "\x7b" line,
    pTok .RightBrace "\x7d" line])

def funcProg (n : Nat) : List Token := funcToks n 1 ++ [pTok .EOF "" 1]

/-- `n` comma-separated number-literal argument tokens. -/
def argToks : Nat → List Token
  | 0 => []
  | 1 => [numTok 1]
  | n+2 => numTok 1 :: pTok .Comma "," 1 :: argToks (n+1)

/-- `f(1, …, 1);` with `n` arguments. -/
def callToks (n : Nat) : List Token :=
  pTok .Identifier "f" 1 :: pTok .LeftParen "(" 1 ::
  (argToks n ++ [pTok .RightParen ")" 1, pTok .Semi ";" 1, pTok .EOF "" 1])

/-- Two over-limit function declarations in sequence, on lines 1 and 2. -/
def twoFuncProg : List Token := funcToks 256 1 ++ funcToks 256 2 ++ [pTok .EOF "" 2]

/-- The parameter count of a single parsed function declaration. -/
def parsedParamCount : ParseOut → Option Nat
  | .ok [Stmt.Function _ ps _] => some ps.length
  | _ => Option.none

/-- The argument count of a single parsed call statement. -/
def parsedArgCount : ParseOut → Option Nat
  | .ok [Stmt.Expression (Expr.Call _ _ args)] => some args.length
  | _ => Option.none



/-! ### Evaluation lemmas for the parser

The parser runs below are settled by rewriting, not by kernel evaluation:
`pbind_ok`/`pstep_ok` step through one combinator at a time, the loop
lemmas (`paramsLoop_ok`, `argsLoop_ok`, …) follow the source loops by
induction on the token count at symbolic fuel, and the `parse_*` lemmas
chain them through `declaration` and the `parse` loop. -/
theorem parseAt_succ (n : Nat) : parseAt (n + 1) = parseStep (parseAt n) := rfl

theorem pTok_token_type (tt : TokenType) (lex : String) (l : Nat) :
    (pTok tt lex l).token_type = tt := rfl

theorem pTok_line (tt : TokenType) (lex : String) (l : Nat) : (pTok tt lex l).line = l := rfl

theorem numTok_token_type (n : Int) : (numTok n).token_type = TokenType.Number := rfl

theorem numTok_literal (n : Int) : (numTok n).literal = Literal.integer n := rfl

theorem getLast?_append_one {α : Type} (l : List α) (a : α) :
    (l ++ [a]).getLast? = some a :=
  List.getLast?_concat l

theorem getLast?_append_two {α : Type} (l : List α) (a b : α) :
    (l ++ [a, b]).getLast? = some b := by
  rw [show l ++ [a, b] = (l ++ [a]) ++ [b] by simp]
  exact List.getLast?_concat _

theorem pbind_ok {α β : Type} (x : PM α) (f : α → PM β) (p p1 : PState) (a : α)
    (h : x p = (p1, .ok a)) : pbind x f p = f a p1 := by
  simp [pbind, h]

theorem pbind_err {α β : Type} (x : PM α) (f : α → PM β) (p p1 : PState)
    (e : SyntaxError) (h : x p = (p1, .err e)) : pbind x f p = (p1, .err e) := by
  simp [pbind, h]

theorem pstep_ok {α β : Type} (x : PM α) (k : α → PM β) (e : SyntaxError → PM β)
    (p p1 : PState) (a : α) (h : x p = (p1, .ok a)) : pstep x k e p = k a p1 := by
  simp [pstep, h]

theorem pstep_err {α β : Type} (x : PM α) (k : α → PM β) (e : SyntaxError → PM β)
    (p p1 : PState) (er : SyntaxError) (h : x p = (p1, .err er)) :
    pstep x k e p = e er p1 := by
  simp [pstep, h]

/-- `check` on a state whose head token is neither ignored nor `EOF`
inspects the head and leaves the state unchanged. -/
theorem check_of_head (tt : TokenType) (u : Token) (ts proc : List Token)
    (h1 : ¬ u.token_type ∈ TO_IGNORE) (h2 : ¬ u.token_type = TokenType.EOF) :
    check tt ⟨u :: ts, proc⟩ = (u.token_type == tt, ⟨u :: ts, proc⟩) := by
  simp [check, at_end, skipIgnored, h1, h2]

/-- `advance` on such a state pops the head onto `processed_tokens`. -/
theorem advance_of_head (u : Token) (ts proc : List Token)
    (h1 : ¬ u.token_type ∈ TO_IGNORE) (h2 : ¬ u.token_type = TokenType.EOF) :
    advance ⟨u :: ts, proc⟩ = (some u, ⟨ts, proc ++ [u]⟩) := by
  simp [advance, at_end, skipIgnored, h1, h2]

set_option maxHeartbeats 1600000 in
/-- Parsing one number literal followed by a comma or right paren consumes
exactly the number token: the whole expression chain runs at any positive
fuel without touching the back edges. -/
theorem expression_number (f : Nat) (u : Token) (ts proc : List Token)
    (hu : u.token_type = TokenType.Comma ∨ u.token_type = TokenType.RightParen) :
    (parseAt (f + 1)).expression ⟨numTok 1 :: u :: ts, proc⟩ =
      (⟨u :: ts, proc ++ [numTok 1]⟩, .ok (Expr.Literal (Literal.integer 1))) := by
  rcases hu with h | h <;>
    simp +decide [parseAt_succ, parseStep, expressionF, orF, orLoopF, andF, andLoopF,
      equalityF, equalityLoopF, comparisonF, comparisonLoopF, termF, termLoopF,
      factorF, factorLoopF, unaryF, callF, callLoopF, primaryF, match_token,
      consume, pbind, ppure, withPrevious, previous, check_of_head, advance_of_head,
      getLast?_append_one, pTok_token_type, numTok_token_type, numTok_literal,
      TO_IGNORE, h]

def pairToks : Nat → List Token
  | 0 => []
  | k+1 => pTok .Identifier "p" 1 :: pTok .Comma "," 1 :: pairToks k

theorem paramsLoop_ok (n : Nat) :
    ∀ (F : Nat) (params : List Token) (name : Token) (proc ts : List Token) (rl : Nat),
    1 ≤ n → params.length + n ≤ 255 → n ≤ F →
    (parseAt F).paramsLoop params name
      ⟨paramToks n ++ (pTok .RightParen ")" rl :: ts), proc⟩ =
      (⟨pTok .RightParen ")" rl :: ts, proc ++ paramToks n⟩,
       .ok (params ++ List.replicate n (pTok .Identifier "p" 1))) := by
  induction n using Nat.strong_induction_on with
  | _ n ih =>
    intro F params name proc ts rl h1 h2 hF
    match n, h1, h2, hF, ih with
    | 1, h1, h2, hF, ih =>
      obtain ⟨G, rfl⟩ : ∃ G, F = G + 1 := ⟨F - 1, by omega⟩
      simp +decide [parseAt_succ, parseStep, paramsLoopF, paramToks, consume, pbind,
        ppure, check_of_head, advance_of_head, match_token, pTok_token_type,
        TO_IGNORE, List.replicate, show ¬ params.length ≥ 255 by omega]
    | (m+2), h1, h2, hF, ih =>
      obtain ⟨G, rfl⟩ : ∃ G, F = G + 1 := ⟨F - 1, by omega⟩
      rw [parseAt_succ]
      rw [show paramToks (m+2) ++ (pTok .RightParen ")" rl :: ts) =
          pTok .Identifier "p" 1 :: pTok .Comma "," 1 ::
            (paramToks (m+1) ++ (pTok .RightParen ")" rl :: ts)) from rfl]
      simp only [parseStep]
      simp +decide [paramsLoopF, consume, pbind, ppure, check_of_head, advance_of_head,
        match_token, pTok_token_type, TO_IGNORE, show ¬ params.length ≥ 255 by omega]
      rw [ih (m+1) (by omega) G (params ++ [pTok .Identifier "p" 1]) name
        (proc ++ [pTok .Identifier "p" 1, pTok .Comma "," 1]) ts rl (by omega)
        (by simp; omega) (by omega)]
      simp [paramToks, List.replicate_succ, List.append_assoc]

theorem paramsLoop_err (F : Nat) (params : List Token) (name : Token) (p : PState)
    (h : 255 ≤ params.length) :
    (parseAt (F + 1)).paramsLoop params name p =
      (p, .err ⟨"Cannot have more than 255 parameters.", name.line⟩) := by
  simp [parseAt_succ, parseStep, paramsLoopF, show params.length ≥ 255 from h]

theorem paramsLoop_overrun (n : Nat) :
    ∀ (F : Nat) (params : List Token) (name : Token) (proc ts : List Token) (rl : Nat),
    params.length + n = 255 → n + 1 ≤ F →
    (parseAt F).paramsLoop params name
      ⟨paramToks (n+1) ++ (pTok .RightParen ")" rl :: ts), proc⟩ =
      (⟨paramToks 1 ++ (pTok .RightParen ")" rl :: ts), proc ++ pairToks n⟩,
       .err ⟨"Cannot have more than 255 parameters.", name.line⟩) := by
  induction n using Nat.strong_induction_on with
  | _ n ih =>
    intro F params name proc ts rl h2 hF
    match n, h2, hF, ih with
    | 0, h2, hF, ih =>
      obtain ⟨G, rfl⟩ : ∃ G, F = G + 1 := ⟨F - 1, by omega⟩
      rw [paramsLoop_err G params name _ (by omega)]
      simp [pairToks]
    | (m+1), h2, hF, ih =>
      obtain ⟨G, rfl⟩ : ∃ G, F = G + 1 := ⟨F - 1, by omega⟩
      rw [parseAt_succ]
      rw [show paramToks (m+2) ++ (pTok .RightParen ")" rl :: ts) =
          pTok .Identifier "p" 1 :: pTok .Comma "," 1 ::
            (paramToks (m+1) ++ (pTok .RightParen ")" rl :: ts)) from rfl]
      simp only [parseStep]
      simp +decide [paramsLoopF, consume, pbind, ppure, check_of_head, advance_of_head,
        match_token, pTok_token_type, TO_IGNORE, show ¬ params.length ≥ 255 by omega]
      rw [ih m (by omega) G (params ++ [pTok .Identifier "p" 1]) name
        (proc ++ [pTok .Identifier "p" 1, pTok .Comma "," 1]) ts rl
        (by simp; omega) (by omega)]
      simp [pairToks, List.append_assoc]

def argPairs : Nat → List Token
  | 0 => []
  | k+1 => numTok 1 :: pTok .Comma "," 1 :: argPairs k

theorem argsLoop_ok (n : Nat) :
    ∀ (F : Nat) (arguments : List Expr) (proc ts : List Token),
    1 ≤ n → arguments.length + n ≤ 256 → n + 1 ≤ F →
    (parseAt F).argsLoop arguments
      ⟨argToks n ++ (pTok .RightParen ")" 1 :: ts), proc⟩ =
      (⟨pTok .RightParen ")" 1 :: ts, proc ++ argToks n⟩,
       .ok (arguments ++ List.replicate n (Expr.Literal (Literal.integer 1)))) := by
  induction n using Nat.strong_induction_on with
  | _ n ih =>
    intro F arguments proc ts h1 h2 hF
    match n, h1, h2, hF, ih with
    | 1, h1, h2, hF, ih =>
      obtain ⟨G, rfl⟩ : ∃ G, F = G + 2 := ⟨F - 2, by omega⟩
      rw [show parseAt (G + 2) = parseStep (parseAt (G + 1)) from rfl]
      rw [show argToks 1 ++ (pTok .RightParen ")" 1 :: ts) =
          numTok 1 :: pTok .RightParen ")" 1 :: ts from rfl]
      simp only [parseStep]
      simp only [argsLoopF, if_neg (show ¬ arguments.length > 255 by omega)]
      rw [pbind_ok _ _ _ _ _ (expression_number G (pTok .RightParen ")" 1) ts proc
        (Or.inr rfl))]
      simp +decide [match_token, check_of_head, advance_of_head, pTok_token_type,
        TO_IGNORE, List.replicate, argToks]
    | (m+2), h1, h2, hF, ih =>
      obtain ⟨G, rfl⟩ : ∃ G, F = G + 2 := ⟨F - 2, by omega⟩
      rw [show parseAt (G + 2) = parseStep (parseAt (G + 1)) from rfl]
      rw [show argToks (m+2) ++ (pTok .RightParen ")" 1 :: ts) =
          numTok 1 :: pTok .Comma "," 1 ::
            (argToks (m+1) ++ (pTok .RightParen ")" 1 :: ts)) from rfl]
      simp only [parseStep]
      simp only [argsLoopF, if_neg (show ¬ arguments.length > 255 by omega)]
      rw [pbind_ok _ _ _ _ _ (expression_number G (pTok .Comma "," 1)
        (argToks (m+1) ++ (pTok .RightParen ")" 1 :: ts)) proc (Or.inl rfl))]
      simp +decide [match_token, check_of_head, advance_of_head, pTok_token_type,
        TO_IGNORE]
      rw [ih (m+1) (by omega) (G + 1)
        (arguments ++ [Expr.Literal (Literal.integer 1)])
        (proc ++ [numTok 1, pTok .Comma "," 1]) ts (by omega) (by simp; omega)
        (by omega)]
      simp [argToks, List.replicate_succ, List.append_assoc]

theorem argsLoop_err (F : Nat) (arguments : List Expr) (p : PState) (t : Token)
    (h : 255 < arguments.length) (hl : p.processed_tokens.getLast? = some t) :
    (parseAt (F + 1)).argsLoop arguments p =
      (p, .err ⟨"Function cannot have more than 255 arguments", t.line⟩) := by
  simp [parseAt_succ, parseStep, argsLoopF, withPrevious, previous, hl, h]

theorem argsLoop_overrun (n : Nat) :
    ∀ (F : Nat) (arguments : List Expr) (proc ts : List Token),
    arguments.length + n = 255 → n + 2 ≤ F →
    (parseAt F).argsLoop arguments
      ⟨argToks (n+2) ++ (pTok .RightParen ")" 1 :: ts), proc⟩ =
      (⟨argToks 1 ++ (pTok .RightParen ")" 1 :: ts), proc ++ argPairs (n+1)⟩,
       .err ⟨"Function cannot have more than 255 arguments", 1⟩) := by
  induction n using Nat.strong_induction_on with
  | _ n ih =>
    intro F arguments proc ts h2 hF
    match n, h2, hF, ih with
    | 0, h2, hF, ih =>
      obtain ⟨G, rfl⟩ : ∃ G, F = G + 2 := ⟨F - 2, by omega⟩
      rw [show parseAt (G + 2) = parseStep (parseAt (G + 1)) from rfl]
      rw [show argToks 2 ++ (pTok .RightParen ")" 1 :: ts) =
          numTok 1 :: pTok .Comma "," 1 ::
            (argToks 1 ++ (pTok .RightParen ")" 1 :: ts)) from rfl]
      simp only [parseStep]
      simp only [argsLoopF, if_neg (show ¬ arguments.length > 255 by omega)]
      rw [pbind_ok _ _ _ _ _ (expression_number G (pTok .Comma "," 1)
        (argToks 1 ++ (pTok .RightParen ")" 1 :: ts)) proc (Or.inl rfl))]
      simp +decide [match_token, check_of_head, advance_of_head, pTok_token_type,
        TO_IGNORE]
      rw [argsLoop_err G (arguments ++ [Expr.Literal (Literal.integer 1)])
        ⟨argToks 1 ++ (pTok .RightParen ")" 1 :: ts),
          proc ++ [numTok 1, pTok .Comma "," 1]⟩ (pTok .Comma "," 1)
        (by simp; omega) (getLast?_append_two proc (numTok 1) (pTok .Comma "," 1))]
      simp [argPairs, pTok_line]
    | (m+1), h2, hF, ih =>
      obtain ⟨G, rfl⟩ : ∃ G, F = G + 2 := ⟨F - 2, by omega⟩
      rw [show parseAt (G + 2) = parseStep (parseAt (G + 1)) from rfl]
      rw [show argToks (m+3) ++ (pTok .RightParen ")" 1 :: ts) =
          numTok 1 :: pTok .Comma "," 1 ::
            (argToks (m+2) ++ (pTok .RightParen ")" 1 :: ts)) from rfl]
      simp only [parseStep]
      simp only [argsLoopF, if_neg (show ¬ arguments.length > 255 by omega)]
      rw [pbind_ok _ _ _ _ _ (expression_number G (pTok .Comma "," 1)
        (argToks (m+2) ++ (pTok .RightParen ")" 1 :: ts)) proc (Or.inl rfl))]
      simp +decide [match_token, check_of_head, advance_of_head, pTok_token_type,
        TO_IGNORE]
      rw [ih m (by omega) (G + 1)
        (arguments ++ [Expr.Literal (Literal.integer 1)])
        (proc ++ [numTok 1, pTok .Comma "," 1]) ts (by simp; omega) (by omega)]
      simp [argPairs, List.append_assoc]

theorem consume_hit (tt : TokenType) (msg : String) (u : Token) (ts proc : List Token)
    (h : u.token_type = tt) (h1 : ¬ tt ∈ TO_IGNORE)
    (h2 : ¬ tt = TokenType.EOF) :
    consume tt msg ⟨u :: ts, proc⟩ = (⟨ts, proc ++ [u]⟩, .ok u) := by
  have h1' : ¬ u.token_type ∈ TO_IGNORE := by rw [h]; exact h1
  have h2' : ¬ u.token_type = TokenType.EOF := by rw [h]; exact h2
  rw [consume, check_of_head tt u ts proc h1' h2']
  simp [advance_of_head u ts proc h1' h2', h]

theorem pBlockLoop_rb (prev : ParseFns) (statements : List Stmt) (l : Nat)
    (ts proc : List Token) :
    pBlockLoopF prev statements ⟨pTok .RightBrace "\x7d" l :: ts, proc⟩ =
      (⟨pTok .RightBrace "\x7d" l :: ts, proc⟩, .ok statements) := by
  simp +decide [pBlockLoopF, check_of_head, pTok_token_type]

theorem paramToks_cons (n : Nat) (h : 1 ≤ n) :
    ∃ ts1, paramToks n = pTok .Identifier "p" 1 :: ts1 := by
  match n, h with
  | 1, _ => exact ⟨[], rfl⟩
  | (m+2), _ => exact ⟨_, rfl⟩

theorem blockF_rb (prev : ParseFns) (l : Nat) (ts proc : List Token) :
    blockF prev ⟨pTok .RightBrace "\x7d" l :: ts, proc⟩ =
      (⟨ts, proc ++ [pTok .RightBrace "\x7d" l]⟩, .ok []) := by
  simp only [blockF]
  rw [pbind_ok _ _ _ _ _ (pBlockLoop_rb prev [] l ts proc)]
  rw [pbind_ok _ _ _ _ _ (consume_hit TokenType.RightBrace _
    (pTok .RightBrace "\x7d" l) _ _ rfl (by decide) (by decide))]
  rfl

theorem functionF_params_ok (n : Nat) (F : Nat) (kind : String) (l : Nat)
    (rest proc : List Token) (h1 : 1 ≤ n) (h2 : n ≤ 255) (hF : n + 1 ≤ F) :
    ∃ proc2,
    functionF (parseAt F) kind
      ⟨pTok .Identifier "f" l :: pTok .LeftParen "(" l ::
        (paramToks n ++ (pTok .RightParen ")" l :: pTok .LeftBrace "\x7b" l ::
          pTok .RightBrace "\x7d" l :: rest)), proc⟩ =
      (⟨rest, proc2⟩, .ok (Stmt.Function (pTok .Identifier "f" l)
        (List.replicate n (pTok .Identifier "p" 1)) [])) := ⟨_, by
  simp only [functionF]
  rw [pbind_ok _ _ _ _ _ (consume_hit TokenType.Identifier _
    (pTok .Identifier "f" l) _ _ rfl (by decide) (by decide))]
  rw [pbind_ok _ _ _ _ _ (consume_hit TokenType.LeftParen _
    (pTok .LeftParen "(" l) _ _ rfl (by decide) (by decide))]
  obtain ⟨ts1, hts⟩ := paramToks_cons n h1
  rw [hts, List.cons_append]
  rw [check_of_head TokenType.RightParen _ _ _ (by decide) (by decide)]
  simp only [pTok_token_type]
  simp only [show (TokenType.Identifier == TokenType.RightParen) = false from rfl,
    Bool.false_eq_true, if_false]
  rw [← List.cons_append, ← hts]
  rw [show paramsLoopF (parseAt F) = (parseAt (F+1)).paramsLoop from rfl]
  rw [pbind_ok _ _ _ _ _ (paramsLoop_ok n (F+1) [] (pTok .Identifier "f" l) _ _ l h1
    (by simp; omega) (by omega))]
  rw [pbind_ok _ _ _ _ _ (consume_hit TokenType.RightParen _
    (pTok .RightParen ")" l) _ _ rfl (by decide) (by decide))]
  rw [pbind_ok _ _ _ _ _ (consume_hit TokenType.LeftBrace _
    (pTok .LeftBrace "\x7b" l) _ _ rfl (by decide) (by decide))]
  rw [pbind_ok _ _ _ _ _ (blockF_rb (parseAt F) l _ _)]
  simp only [ppure, List.nil_append]
  rfl⟩

theorem at_end_of_head (u : Token) (ts proc : List Token)
    (h1 : ¬ u.token_type ∈ TO_IGNORE) :
    at_end ⟨u :: ts, proc⟩ = (u.token_type == TokenType.EOF, ⟨u :: ts, proc⟩) := by
  simp [at_end, skipIgnored, h1]

theorem argToks_cons (n : Nat) (h : 1 ≤ n) :
    ∃ ts1, argToks n = numTok 1 :: ts1 := by
  match n, h with
  | 1, _ => exact ⟨[], rfl⟩
  | (m+2), _ => exact ⟨_, rfl⟩

theorem primary_ident (P : ParseFns) (u : Token) (ts proc : List Token)
    (hu : u.token_type = TokenType.Identifier) :
    primaryF P ⟨u :: ts, proc⟩ = (⟨ts, proc ++ [u]⟩, .ok (Expr.Variable u)) := by
  simp +decide [primaryF, match_token, check_of_head, advance_of_head, withPrevious,
    previous, getLast?_append_one, hu, TO_IGNORE]

theorem callLoop_noop (P : ParseFns) (e : Expr) (u : Token) (ts proc : List Token)
    (hu : u.token_type = TokenType.Semi) :
    callLoopF P e ⟨u :: ts, proc⟩ = (⟨u :: ts, proc⟩, .ok e) := by
  simp +decide [callLoopF, match_token, check_of_head, hu, TO_IGNORE]

theorem factorLoop_noop (P : ParseFns) (e : Expr) (u : Token) (ts proc : List Token)
    (hu : u.token_type = TokenType.Semi) :
    factorLoopF P e ⟨u :: ts, proc⟩ = (⟨u :: ts, proc⟩, .ok e) := by
  simp +decide [factorLoopF, match_token, check_of_head, hu, TO_IGNORE]

theorem termLoop_noop (P : ParseFns) (e : Expr) (u : Token) (ts proc : List Token)
    (hu : u.token_type = TokenType.Semi) :
    termLoopF P e ⟨u :: ts, proc⟩ = (⟨u :: ts, proc⟩, .ok e) := by
  simp +decide [termLoopF, match_token, check_of_head, hu, TO_IGNORE]

theorem comparisonLoop_noop (P : ParseFns) (e : Expr) (u : Token) (ts proc : List Token)
    (hu : u.token_type = TokenType.Semi) :
    comparisonLoopF P e ⟨u :: ts, proc⟩ = (⟨u :: ts, proc⟩, .ok e) := by
  simp +decide [comparisonLoopF, match_token, check_of_head, hu, TO_IGNORE]

theorem equalityLoop_noop (P : ParseFns) (e : Expr) (u : Token) (ts proc : List Token)
    (hu : u.token_type = TokenType.Semi) :
    equalityLoopF P e ⟨u :: ts, proc⟩ = (⟨u :: ts, proc⟩, .ok e) := by
  simp +decide [equalityLoopF, match_token, check_of_head, hu, TO_IGNORE]

theorem andLoop_noop (P : ParseFns) (e : Expr) (u : Token) (ts proc : List Token)
    (hu : u.token_type = TokenType.Semi) :
    andLoopF P e ⟨u :: ts, proc⟩ = (⟨u :: ts, proc⟩, .ok e) := by
  simp +decide [andLoopF, match_token, check_of_head, hu, TO_IGNORE]

theorem orLoop_noop (P : ParseFns) (e : Expr) (u : Token) (ts proc : List Token)
    (hu : u.token_type = TokenType.Semi) :
    orLoopF P e ⟨u :: ts, proc⟩ = (⟨u :: ts, proc⟩, .ok e) := by
  simp +decide [orLoopF, match_token, check_of_head, hu, TO_IGNORE]

theorem finishCall_args_ok (n F : Nat) (callee : Expr) (ts proc : List Token)
    (h1 : 1 ≤ n) (h2 : n ≤ 256) (hF : n + 1 ≤ F) :
    finishCallF (parseAt F) callee
      ⟨argToks n ++ (pTok .RightParen ")" 1 :: ts), proc⟩ =
      (⟨ts, (proc ++ argToks n) ++ [pTok .RightParen ")" 1]⟩,
       .ok (Expr.Call callee (pTok .RightParen ")" 1)
         (List.replicate n (Expr.Literal (Literal.integer 1))))) := by
  simp only [finishCallF]
  obtain ⟨ts1, hts⟩ := argToks_cons n h1
  rw [hts, List.cons_append]
  rw [check_of_head TokenType.RightParen _ _ _ (by decide) (by decide)]
  simp only [numTok_token_type]
  simp only [show (TokenType.Number == TokenType.RightParen) = false from rfl,
    Bool.false_eq_true, if_false]
  rw [← List.cons_append, ← hts]
  rw [show argsLoopF (parseAt F) = (parseAt (F+1)).argsLoop from rfl]
  rw [pbind_ok _ _ _ _ _ (argsLoop_ok n (F+1) [] _ _ h1 (by simp; omega) (by omega))]
  rw [pbind_ok _ _ _ _ _ (consume_hit TokenType.RightParen _
    (pTok .RightParen ")" 1) _ _ rfl (by decide) (by decide))]
  simp only [ppure, List.nil_append]

theorem finishCall_args_err (F : Nat) (callee : Expr) (ts proc : List Token)
    (hF : 257 ≤ F) :
    ∃ q2,
    finishCallF (parseAt F) callee
      ⟨argToks 257 ++ (pTok .RightParen ")" 1 :: ts), proc⟩ =
      (⟨argToks 1 ++ (pTok .RightParen ")" 1 :: ts), q2⟩,
       .err ⟨"Function cannot have more than 255 arguments", 1⟩) := ⟨_, by
  simp only [finishCallF]
  obtain ⟨ts1, hts⟩ := argToks_cons 257 (by norm_num)
  rw [hts, List.cons_append]
  rw [check_of_head TokenType.RightParen _ _ _ (by decide) (by decide)]
  simp only [numTok_token_type]
  simp only [show (TokenType.Number == TokenType.RightParen) = false from rfl,
    Bool.false_eq_true, if_false]
  rw [← List.cons_append, ← hts]
  rw [show argsLoopF (parseAt F) = (parseAt (F+1)).argsLoop from rfl]
  rw [show (argToks 257 : List Token) = argToks (255+2) from rfl]
  rw [pbind_err _ _ _ _ _ (argsLoop_overrun 255 (F+1) [] _ _ (by simp) (by omega))]⟩

theorem orF_of_unary (P : ParseFns) (p : PState) (ts proc2 : List Token) (e : Expr)
    (h : unaryF P p = (⟨pTok .Semi ";" 1 :: ts, proc2⟩, .ok e)) :
    orF P p = (⟨pTok .Semi ";" 1 :: ts, proc2⟩, .ok e) := by
  have h1 := (pbind_ok _ _ _ _ _ h).trans
    (factorLoop_noop P e (pTok .Semi ";" 1) ts proc2 rfl)
  have h2 := (pbind_ok _ _ _ _ _ h1).trans
    (termLoop_noop P e (pTok .Semi ";" 1) ts proc2 rfl)
  have h3 := (pbind_ok _ _ _ _ _ h2).trans
    (comparisonLoop_noop P e (pTok .Semi ";" 1) ts proc2 rfl)
  have h4 := (pbind_ok _ _ _ _ _ h3).trans
    (equalityLoop_noop P e (pTok .Semi ";" 1) ts proc2 rfl)
  have h5 := (pbind_ok _ _ _ _ _ h4).trans
    (andLoop_noop P e (pTok .Semi ";" 1) ts proc2 rfl)
  have h6 := (pbind_ok _ _ _ _ _ h5).trans
    (orLoop_noop P e (pTok .Semi ";" 1) ts proc2 rfl)
  simp only [orF, andF, equalityF, comparisonF, termF, factorF]
  exact h6

theorem expression_call_ok (n F : Nat) (ts proc : List Token)
    (h1 : 1 ≤ n) (h2 : n ≤ 256) (hF : n + 4 ≤ F) :
    ∃ q2,
    (parseAt F).expression
      ⟨pTok .Identifier "f" 1 :: pTok .LeftParen "(" 1 ::
        (argToks n ++ (pTok .RightParen ")" 1 :: pTok .Semi ";" 1 :: ts)), proc⟩ =
      (⟨pTok .Semi ";" 1 :: ts, q2⟩,
       .ok (Expr.Call (Expr.Variable (pTok .Identifier "f" 1)) (pTok .RightParen ")" 1)
         (List.replicate n (Expr.Literal (Literal.integer 1))))) := ⟨_, by
  obtain ⟨G, rfl⟩ : ∃ G, F = G + 2 := ⟨F - 2, by omega⟩
  rw [show (parseAt (G + 2)).expression = expressionF (parseAt (G + 1)) from rfl]
  have hprim := primary_ident (parseAt (G + 1)) (pTok .Identifier "f" 1)
    (pTok .LeftParen "(" 1 ::
      (argToks n ++ (pTok .RightParen ")" 1 :: pTok .Semi ";" 1 :: ts))) proc rfl
  have hcall : callF (parseAt (G + 1))
      ⟨pTok .Identifier "f" 1 :: pTok .LeftParen "(" 1 ::
        (argToks n ++ (pTok .RightParen ")" 1 :: pTok .Semi ";" 1 :: ts)), proc⟩ =
      (⟨pTok .Semi ";" 1 :: ts,
        ((proc ++ [pTok .Identifier "f" 1] ++ [pTok .LeftParen "(" 1]) ++ argToks n)
          ++ [pTok .RightParen ")" 1]⟩,
       .ok (Expr.Call (Expr.Variable (pTok .Identifier "f" 1)) (pTok .RightParen ")" 1)
         (List.replicate n (Expr.Literal (Literal.integer 1))))) := by
    simp only [callF]
    rw [pbind_ok _ _ _ _ _ hprim]
    simp only [callLoopF]
    rw [match_token, check_of_head TokenType.LeftParen _ _ _ (by decide) (by decide)]
    simp only [pTok_token_type]
    simp only [show (TokenType.LeftParen == TokenType.LeftParen) = true from rfl,
      if_true]
    rw [advance_of_head _ _ _ (by decide) (by decide)]
    simp only []
    rw [pbind_ok _ _ _ _ _ (finishCall_args_ok n (G + 1) _ _ _ h1 h2 (by omega))]
    rw [show (parseAt (G + 1)).callLoop = callLoopF (parseAt G) from rfl]
    rw [callLoop_noop (parseAt G) _ (pTok .Semi ";" 1) _ _ rfl]
  have hunary : unaryF (parseAt (G + 1))
      ⟨pTok .Identifier "f" 1 :: pTok .LeftParen "(" 1 ::
        (argToks n ++ (pTok .RightParen ")" 1 :: pTok .Semi ";" 1 :: ts)), proc⟩ =
      (⟨pTok .Semi ";" 1 :: ts,
        ((proc ++ [pTok .Identifier "f" 1] ++ [pTok .LeftParen "(" 1]) ++ argToks n)
          ++ [pTok .RightParen ")" 1]⟩,
       .ok (Expr.Call (Expr.Variable (pTok .Identifier "f" 1)) (pTok .RightParen ")" 1)
         (List.replicate n (Expr.Literal (Literal.integer 1))))) := by
    rw [unaryF]
    rw [match_token, check_of_head TokenType.Bang _ _ _ (by decide) (by decide)]
    simp only [pTok_token_type]
    simp only [show (TokenType.Identifier == TokenType.Bang) = false from rfl,
      Bool.false_eq_true, if_false]
    rw [match_token, check_of_head TokenType.Minus _ _ _ (by decide) (by decide)]
    simp only [pTok_token_type]
    simp only [show (TokenType.Identifier == TokenType.Minus) = false from rfl,
      Bool.false_eq_true, if_false, match_token]
    exact hcall
  have hor := orF_of_unary (parseAt (G + 1)) _ _ _ _ hunary
  simp only [expressionF]
  rw [pbind_ok _ _ _ _ _ hor]
  rw [match_token, check_of_head TokenType.Equal _ _ _ (by decide) (by decide)]
  simp only [pTok_token_type]
  simp only [show (TokenType.Semi == TokenType.Equal) = false from rfl,
    Bool.false_eq_true, if_false, match_token]
  rfl⟩

theorem orF_of_unary_err (P : ParseFns) (p q : PState) (e : SyntaxError)
    (h : unaryF P p = (q, .err e)) : orF P p = (q, .err e) := by
  have h1 := pbind_err _ (fun e => factorLoopF P e) _ _ _ h
  have h2 := pbind_err _ (fun e => termLoopF P e) _ _ _ h1
  have h3 := pbind_err _ (fun e => comparisonLoopF P e) _ _ _ h2
  have h4 := pbind_err _ (fun e => equalityLoopF P e) _ _ _ h3
  have h5 := pbind_err _ (fun e => andLoopF P e) _ _ _ h4
  have h6 := pbind_err _ (fun e => orLoopF P e) _ _ _ h5
  simp only [orF, andF, equalityF, comparisonF, termF, factorF]
  exact h6

theorem expression_call_err (F : Nat) (ts proc : List Token) (hF : 260 ≤ F) :
    ∃ q2,
    (parseAt F).expression
      ⟨pTok .Identifier "f" 1 :: pTok .LeftParen "(" 1 ::
        (argToks 257 ++ (pTok .RightParen ")" 1 :: pTok .Semi ";" 1 :: ts)), proc⟩ =
      (⟨argToks 1 ++ (pTok .RightParen ")" 1 :: pTok .Semi ";" 1 :: ts), q2⟩,
       .err ⟨"Function cannot have more than 255 arguments", 1⟩) := by
  obtain ⟨G, rfl⟩ : ∃ G, F = G + 1 := ⟨F - 1, by omega⟩
  obtain ⟨q2, hfin⟩ := finishCall_args_err G (Expr.Variable (pTok .Identifier "f" 1))
    (pTok .Semi ";" 1 :: ts)
    (proc ++ [pTok .Identifier "f" 1] ++ [pTok .LeftParen "(" 1]) (by omega)
  refine ⟨q2, ?_⟩
  rw [show (parseAt (G + 1)).expression = expressionF (parseAt G) from rfl]
  have hprim := primary_ident (parseAt G) (pTok .Identifier "f" 1)
    (pTok .LeftParen "(" 1 ::
      (argToks 257 ++ (pTok .RightParen ")" 1 :: pTok .Semi ";" 1 :: ts))) proc rfl
  have hcall : callF (parseAt G)
      ⟨pTok .Identifier "f" 1 :: pTok .LeftParen "(" 1 ::
        (argToks 257 ++ (pTok .RightParen ")" 1 :: pTok .Semi ";" 1 :: ts)), proc⟩ =
      (⟨argToks 1 ++ (pTok .RightParen ")" 1 :: pTok .Semi ";" 1 :: ts), q2⟩,
       .err ⟨"Function cannot have more than 255 arguments", 1⟩) := by
    simp only [callF]
    rw [pbind_ok _ _ _ _ _ hprim]
    simp only [callLoopF]
    rw [match_token, check_of_head TokenType.LeftParen _ _ _ (by decide) (by decide)]
    simp only [pTok_token_type]
    simp only [show (TokenType.LeftParen == TokenType.LeftParen) = true from rfl,
      if_true]
    rw [advance_of_head _ _ _ (by decide) (by decide)]
    simp only []
    rw [pbind_err _ _ _ _ _ hfin]
  have hunary : unaryF (parseAt G)
      ⟨pTok .Identifier "f" 1 :: pTok .LeftParen "(" 1 ::
        (argToks 257 ++ (pTok .RightParen ")" 1 :: pTok .Semi ";" 1 :: ts)), proc⟩ =
      (⟨argToks 1 ++ (pTok .RightParen ")" 1 :: pTok .Semi ";" 1 :: ts), q2⟩,
       .err ⟨"Function cannot have more than 255 arguments", 1⟩) := by
    rw [unaryF]
    rw [match_token, check_of_head TokenType.Bang _ _ _ (by decide) (by decide)]
    simp only [pTok_token_type]
    simp only [show (TokenType.Identifier == TokenType.Bang) = false from rfl,
      Bool.false_eq_true, if_false]
    rw [match_token, check_of_head TokenType.Minus _ _ _ (by decide) (by decide)]
    simp only [pTok_token_type]
    simp only [show (TokenType.Identifier == TokenType.Minus) = false from rfl,
      Bool.false_eq_true, if_false, match_token]
    exact hcall
  have hor := orF_of_unary_err (parseAt G) _ _ _ hunary
  simp only [expressionF]
  rw [pbind_err _ _ _ _ _ hor]

theorem statement_exprStmt (P : ParseFns) (u : Token) (ts proc : List Token)
    (hu : u.token_type = TokenType.Identifier) :
    statementF P ⟨u :: ts, proc⟩ = expression_statementF P ⟨u :: ts, proc⟩ := by
  simp +decide [statementF, match_token, check_of_head, hu, TO_IGNORE]

theorem declSelect_stmt (P : ParseFns) (u : Token) (ts proc : List Token)
    (hu : u.token_type = TokenType.Identifier) :
    declSelectF P false ⟨u :: ts, proc⟩ = statementF P ⟨u :: ts, proc⟩ := by
  simp +decide [declSelectF, match_token, check_of_head, hu, TO_IGNORE]

theorem declSelect_def (P : ParseFns) (u : Token) (ts proc : List Token)
    (hu : u.token_type = TokenType.Def) :
    declSelectF P false ⟨u :: ts, proc⟩ = functionF P "function" ⟨ts, proc ++ [u]⟩ := by
  simp +decide [declSelectF, match_token, check_of_head, advance_of_head, hu, TO_IGNORE]

theorem syncLoop_eof (P : ParseFns) (u : Token) (ts proc : List Token)
    (hu : u.token_type = TokenType.EOF) :
    syncLoopF P ⟨u :: ts, proc⟩ = (⟨u :: ts, proc⟩, .ok ()) := by
  simp +decide [syncLoopF, at_end_of_head, hu, TO_IGNORE]

theorem syncLoop_def (P : ParseFns) (u t0 : Token) (ts proc0 : List Token)
    (hu : u.token_type = TokenType.Def) (h4 : ¬ t0.token_type = TokenType.Semi) :
    syncLoopF P ⟨u :: ts, proc0 ++ [t0]⟩ = (⟨u :: ts, proc0 ++ [t0]⟩, .ok ()) := by
  simp +decide [syncLoopF, at_end_of_head, withPrevious, previous, getLast?_append_one,
    hu, h4, TO_IGNORE]

theorem syncLoop_skip (F : Nat) (u t0 : Token) (ts proc0 : List Token)
    (h1 : ¬ u.token_type ∈ TO_IGNORE) (h2 : ¬ u.token_type = TokenType.EOF)
    (h3 : ¬ u.token_type ∈ [TokenType.Class, TokenType.Def, TokenType.Let,
      TokenType.For, TokenType.If, TokenType.While, TokenType.Print, TokenType.Return])
    (h4 : ¬ t0.token_type = TokenType.Semi) :
    syncLoopF (parseAt (F + 1)) ⟨u :: ts, proc0 ++ [t0]⟩ =
      syncLoopF (parseAt F) ⟨ts, (proc0 ++ [t0]) ++ [u]⟩ := by
  conv_lhs => rw [syncLoopF]
  simp +decide [at_end_of_head, withPrevious, previous, getLast?_append_one,
    advance_of_head, h1, h2, h3, h4]
  rfl

theorem synchronize_after_params (F l : Nat) (u : Token) (us proc : List Token)
    (hu : u.token_type = TokenType.EOF ∨ u.token_type = TokenType.Def) (hF : 3 ≤ F) :
    ∃ proc2, synchronizeF (parseAt F)
      ⟨paramToks 1 ++ (pTok .RightParen ")" l :: pTok .LeftBrace "\x7b" l ::
        pTok .RightBrace "\x7d" l :: u :: us), proc⟩ =
      (⟨u :: us, proc2⟩, .ok ()) := by
  obtain ⟨G, rfl⟩ : ∃ G, F = G + 3 := ⟨F - 3, by omega⟩
  exact ⟨_, by
  rw [show paramToks 1 ++ (pTok .RightParen ")" l :: pTok .LeftBrace "\x7b" l ::
      pTok .RightBrace "\x7d" l :: u :: us) =
      pTok .Identifier "p" 1 :: pTok .RightParen ")" l :: pTok .LeftBrace "\x7b" l ::
        pTok .RightBrace "\x7d" l :: u :: us from rfl]
  simp only [synchronizeF]
  rw [advance_of_head _ _ _ (by decide) (by decide)]
  simp only []
  rw [show (parseAt (G + 3)) = parseAt ((G + 2) + 1) from rfl]
  rw [syncLoop_skip (G + 2) _ _ _ _ (by simp +decide [pTok_token_type, TO_IGNORE]) (by simp [pTok_token_type]) (by simp +decide [pTok_token_type]) (by simp [pTok_token_type])]
  rw [show (parseAt (G + 2)) = parseAt ((G + 1) + 1) from rfl]
  rw [syncLoop_skip (G + 1) _ _ _ _ (by simp +decide [pTok_token_type, TO_IGNORE]) (by simp [pTok_token_type]) (by simp +decide [pTok_token_type]) (by simp [pTok_token_type])]
  rw [show (parseAt (G + 1)) = parseAt (G + 1) from rfl]
  rw [syncLoop_skip G _ _ _ _ (by simp +decide [pTok_token_type, TO_IGNORE]) (by simp [pTok_token_type]) (by simp +decide [pTok_token_type]) (by simp [pTok_token_type])]
  rcases hu with h | h
  · rw [syncLoop_eof (parseAt G) u _ _ h]
  · rw [syncLoop_def (parseAt G) u (pTok .RightBrace "\x7d" l) _ _ h (by simp [pTok_token_type])]⟩

theorem synchronize_after_args (F : Nat) (u : Token) (us proc : List Token)
    (hu : u.token_type = TokenType.EOF) (hF : 3 ≤ F) :
    ∃ proc2, synchronizeF (parseAt F)
      ⟨argToks 1 ++ (pTok .RightParen ")" 1 :: pTok .Semi ";" 1 :: u :: us), proc⟩ =
      (⟨u :: us, proc2⟩, .ok ()) := by
  obtain ⟨G, rfl⟩ : ∃ G, F = G + 3 := ⟨F - 3, by omega⟩
  exact ⟨_, by
  rw [show argToks 1 ++ (pTok .RightParen ")" 1 :: pTok .Semi ";" 1 :: u :: us) =
      numTok 1 :: pTok .RightParen ")" 1 :: pTok .Semi ";" 1 :: u :: us from rfl]
  simp only [synchronizeF]
  rw [advance_of_head _ _ _ (by decide) (by decide)]
  simp only []
  rw [show (parseAt (G + 3)) = parseAt ((G + 2) + 1) from rfl]
  rw [syncLoop_skip (G + 2) _ _ _ _ (by decide) (by decide) (by decide) (by decide)]
  rw [show (parseAt (G + 2)) = parseAt ((G + 1) + 1) from rfl]
  rw [syncLoop_skip (G + 1) _ _ _ _ (by decide) (by decide) (by decide) (by decide)]
  rw [syncLoop_eof (parseAt (G + 1)) u _ _ hu]⟩

theorem functionF_params_err (F : Nat) (kind : String) (l : Nat)
    (rest proc : List Token) (hF : 257 ≤ F) :
    ∃ proc2,
    functionF (parseAt F) kind
      ⟨pTok .Identifier "f" l :: pTok .LeftParen "(" l ::
        (paramToks 256 ++ (pTok .RightParen ")" l :: pTok .LeftBrace "\x7b" l ::
          pTok .RightBrace "\x7d" l :: rest)), proc⟩ =
      (⟨paramToks 1 ++ (pTok .RightParen ")" l :: pTok .LeftBrace "\x7b" l ::
          pTok .RightBrace "\x7d" l :: rest), proc2⟩,
       .err ⟨"Cannot have more than 255 parameters.", l⟩) := ⟨_, by
  simp only [functionF]
  rw [pbind_ok _ _ _ _ _ (consume_hit TokenType.Identifier _
    (pTok .Identifier "f" l) _ _ rfl (by decide) (by decide))]
  rw [pbind_ok _ _ _ _ _ (consume_hit TokenType.LeftParen _
    (pTok .LeftParen "(" l) _ _ rfl (by decide) (by decide))]
  obtain ⟨ts1, hts⟩ := paramToks_cons 256 (by norm_num)
  rw [hts, List.cons_append]
  rw [check_of_head TokenType.RightParen _ _ _ (by decide) (by decide)]
  simp only [pTok_token_type]
  simp only [show (TokenType.Identifier == TokenType.RightParen) = false from rfl,
    Bool.false_eq_true, if_false]
  rw [← List.cons_append, ← hts]
  rw [show paramsLoopF (parseAt F) = (parseAt (F+1)).paramsLoop from rfl]
  rw [show (paramToks 256 : List Token) = paramToks (255+1) from rfl]
  rw [pbind_err _ _ _ _ _ (paramsLoop_overrun 255 (F+1) [] _ _ _ l (by simp)
    (by omega))]
  simp only [pTok_line]
  rfl⟩

theorem declaration_func_ok (n F l : Nat) (rest proc : List Token)
    (h1 : 1 ≤ n) (h2 : n ≤ 255) (hF : n + 2 ≤ F) :
    ∃ proc2, (parseAt F).declaration
      ⟨pTok .Def "def" l :: pTok .Identifier "f" l :: pTok .LeftParen "(" l ::
        (paramToks n ++ (pTok .RightParen ")" l :: pTok .LeftBrace "\x7b" l ::
          pTok .RightBrace "\x7d" l :: rest)), proc⟩ =
      (⟨rest, proc2⟩, .ok (Stmt.Function (pTok .Identifier "f" l)
        (List.replicate n (pTok .Identifier "p" 1)) [])) := by
  obtain ⟨G, rfl⟩ : ∃ G, F = G + 1 := ⟨F - 1, by omega⟩
  obtain ⟨proc2, hfn⟩ := functionF_params_ok n G "function" l rest
    (proc ++ [pTok .Def "def" l]) h1 h2 (by omega)
  refine ⟨proc2, ?_⟩
  rw [show (parseAt (G + 1)).declaration = declarationF (parseAt G) from rfl]
  simp only [declarationF]
  rw [match_token, check_of_head TokenType.Class _ _ _
    (by simp +decide [pTok_token_type, TO_IGNORE]) (by simp [pTok_token_type])]
  simp only [pTok_token_type, show (TokenType.Def == TokenType.Class) = false from rfl,
    Bool.false_eq_true, if_false, match_token]
  rw [pstep_ok _ _ _ _ _ _ ((declSelect_def (parseAt G) _ _ _ rfl).trans hfn)]
  rfl

theorem declaration_func256_err (F l : Nat) (u : Token) (us proc : List Token)
    (hu : u.token_type = TokenType.EOF ∨ u.token_type = TokenType.Def)
    (hF : 261 ≤ F) :
    ∃ proc2, (parseAt F).declaration
      ⟨pTok .Def "def" l :: pTok .Identifier "f" l :: pTok .LeftParen "(" l ::
        (paramToks 256 ++ (pTok .RightParen ")" l :: pTok .LeftBrace "\x7b" l ::
          pTok .RightBrace "\x7d" l :: u :: us)), proc⟩ =
      (⟨u :: us, proc2⟩, .err ⟨"Cannot have more than 255 parameters.", l⟩) := by
  obtain ⟨G, rfl⟩ : ∃ G, F = G + 1 := ⟨F - 1, by omega⟩
  obtain ⟨p2, hfn⟩ := functionF_params_err G "function" l (u :: us)
    (proc ++ [pTok .Def "def" l]) (by omega)
  obtain ⟨p3, hsync⟩ := synchronize_after_params G l u us p2 hu (by omega)
  refine ⟨p3, ?_⟩
  rw [show (parseAt (G + 1)).declaration = declarationF (parseAt G) from rfl]
  simp only [declarationF]
  rw [match_token, check_of_head TokenType.Class _ _ _
    (by simp +decide [pTok_token_type, TO_IGNORE]) (by simp [pTok_token_type])]
  simp only [pTok_token_type, show (TokenType.Def == TokenType.Class) = false from rfl,
    Bool.false_eq_true, if_false, match_token]
  rw [pstep_err _ _ _ _ _ _ ((declSelect_def (parseAt G) _ _ _ rfl).trans hfn)]
  rw [pstep_ok _ _ _ _ _ _ hsync]

theorem declaration_call_ok (n F : Nat) (ts proc : List Token) (h1 : 1 ≤ n)
    (h2 : n ≤ 256) (hF : n + 6 ≤ F) :
    ∃ proc2, (parseAt F).declaration
      ⟨pTok .Identifier "f" 1 :: pTok .LeftParen "(" 1 ::
        (argToks n ++ (pTok .RightParen ")" 1 :: pTok .Semi ";" 1 :: ts)), proc⟩ =
      (⟨ts, proc2⟩, .ok (Stmt.Expression (Expr.Call
        (Expr.Variable (pTok .Identifier "f" 1)) (pTok .RightParen ")" 1)
        (List.replicate n (Expr.Literal (Literal.integer 1)))))) := by
  obtain ⟨G, rfl⟩ : ∃ G, F = G + 1 := ⟨F - 1, by omega⟩
  obtain ⟨q2, hexp⟩ := expression_call_ok n (G + 1) ts proc h1 h2 (by omega)
  have hes : expression_statementF (parseAt G)
      ⟨pTok .Identifier "f" 1 :: pTok .LeftParen "(" 1 ::
        (argToks n ++ (pTok .RightParen ")" 1 :: pTok .Semi ";" 1 :: ts)), proc⟩ =
      (⟨ts, q2 ++ [pTok .Semi ";" 1]⟩, .ok (Stmt.Expression (Expr.Call
        (Expr.Variable (pTok .Identifier "f" 1)) (pTok .RightParen ")" 1)
        (List.replicate n (Expr.Literal (Literal.integer 1)))))) := by
    simp only [expression_statementF]
    rw [show expressionF (parseAt G) = (parseAt (G + 1)).expression from rfl]
    rw [pbind_ok _ _ _ _ _ hexp]
    rw [pbind_ok _ _ _ _ _ (consume_hit TokenType.Semi _ (pTok .Semi ";" 1) _ _ rfl
      (by decide) (by decide))]
    rfl
  refine ⟨q2 ++ [pTok .Semi ";" 1], ?_⟩
  rw [show (parseAt (G + 1)).declaration = declarationF (parseAt G) from rfl]
  simp only [declarationF]
  rw [match_token, check_of_head TokenType.Class _ _ _ (by decide) (by decide)]
  simp only [pTok_token_type,
    show (TokenType.Identifier == TokenType.Class) = false from rfl,
    Bool.false_eq_true, if_false, match_token]
  rw [pstep_ok _ _ _ _ _ _ (((declSelect_stmt (parseAt G) _ _ _ rfl).trans
    (statement_exprStmt (parseAt G) _ _ _ rfl)).trans hes)]
  rfl

theorem declaration_call257_err (F : Nat) (u : Token) (us proc : List Token)
    (hu : u.token_type = TokenType.EOF) (hF : 266 ≤ F) :
    ∃ proc2, (parseAt F).declaration
      ⟨pTok .Identifier "f" 1 :: pTok .LeftParen "(" 1 ::
        (argToks 257 ++ (pTok .RightParen ")" 1 :: pTok .Semi ";" 1 :: u :: us)), proc⟩ =
      (⟨u :: us, proc2⟩,
       .err ⟨"Function cannot have more than 255 arguments", 1⟩) := by
  obtain ⟨G, rfl⟩ : ∃ G, F = G + 1 := ⟨F - 1, by omega⟩
  obtain ⟨q2, hexp⟩ := expression_call_err (G + 1) (u :: us) proc (by omega)
  have hes : expression_statementF (parseAt G)
      ⟨pTok .Identifier "f" 1 :: pTok .LeftParen "(" 1 ::
        (argToks 257 ++ (pTok .RightParen ")" 1 :: pTok .Semi ";" 1 :: u :: us)), proc⟩ =
      (⟨argToks 1 ++ (pTok .RightParen ")" 1 :: pTok .Semi ";" 1 :: u :: us), q2⟩,
       .err ⟨"Function cannot have more than 255 arguments", 1⟩) := by
    simp only [expression_statementF]
    rw [show expressionF (parseAt G) = (parseAt (G + 1)).expression from rfl]
    rw [pbind_err _ _ _ _ _ hexp]
  obtain ⟨p3, hsync⟩ := synchronize_after_args G u us q2 hu (by omega)
  refine ⟨p3, ?_⟩
  rw [show (parseAt (G + 1)).declaration = declarationF (parseAt G) from rfl]
  simp only [declarationF]
  rw [match_token, check_of_head TokenType.Class _ _ _ (by decide) (by decide)]
  simp only [pTok_token_type,
    show (TokenType.Identifier == TokenType.Class) = false from rfl,
    Bool.false_eq_true, if_false, match_token]
  rw [pstep_err _ _ _ _ _ _ (((declSelect_stmt (parseAt G) _ _ _ rfl).trans
    (statement_exprStmt (parseAt G) _ _ _ rfl)).trans hes)]
  rw [pstep_ok _ _ _ _ _ _ hsync]

theorem parseLoop_eof (P : ParseFns) (stmts : List Stmt) (errs : List SyntaxError)
    (u : Token) (ts proc : List Token) (hu : u.token_type = TokenType.EOF) :
    parseLoopF P stmts errs ⟨u :: ts, proc⟩ = (⟨u :: ts, proc⟩, .ok (stmts, errs)) := by
  simp +decide [parseLoopF, at_end_of_head, hu, TO_IGNORE]

theorem parse_funcProg_ok (n F : Nat) (h1 : 1 ≤ n) (h2 : n ≤ 255) (hF : n + 4 ≤ F) :
    Parser.parse F (funcProg n) =
      ParseOut.ok [Stmt.Function (pTok .Identifier "f" 1)
        (List.replicate n (pTok .Identifier "p" 1)) []] := by
  obtain ⟨G, rfl⟩ : ∃ G, F = G + 2 := ⟨F - 2, by omega⟩
  obtain ⟨p2, hdecl⟩ := declaration_func_ok n (G + 1) 1 [pTok .EOF "" 1] [] h1 h2
    (by omega)
  rw [Parser.parse]
  rw [show (funcProg n : List Token) = pTok .Def "def" 1 :: pTok .Identifier "f" 1 ::
      pTok .LeftParen "(" 1 :: (paramToks n ++ (pTok .RightParen ")" 1 ::
        pTok .LeftBrace "\x7b" 1 :: pTok .RightBrace "\x7d" 1 :: [pTok .EOF "" 1]))
      from by simp [funcProg, funcToks, List.append_assoc]]
  rw [show (parseAt (G + 2)).parseLoop = parseLoopF (parseAt (G + 1)) from rfl]
  simp only [parseLoopF]
  rw [at_end_of_head _ _ _ (by decide)]
  simp only [pTok_token_type, show (TokenType.Def == TokenType.EOF) = false from rfl,
    Bool.false_eq_true, if_false]
  rw [pstep_ok _ _ _ _ _ _ hdecl]
  rw [show (parseAt (G + 1)).parseLoop = parseLoopF (parseAt G) from rfl]
  rw [parseLoop_eof (parseAt G) _ _ _ _ _ rfl]
  simp

theorem parse_funcProg256_err (F : Nat) (hF : 263 ≤ F) :
    Parser.parse F (funcProg 256) =
      ParseOut.errs [⟨"Cannot have more than 255 parameters.", 1⟩] := by
  obtain ⟨G, rfl⟩ : ∃ G, F = G + 2 := ⟨F - 2, by omega⟩
  obtain ⟨p2, hdecl⟩ := declaration_func256_err (G + 1) 1 (pTok .EOF "" 1) [] []
    (Or.inl rfl) (by omega)
  rw [Parser.parse]
  rw [show (funcProg 256 : List Token) = pTok .Def "def" 1 :: pTok .Identifier "f" 1 ::
      pTok .LeftParen "(" 1 :: (paramToks 256 ++ (pTok .RightParen ")" 1 ::
        pTok .LeftBrace "\x7b" 1 :: pTok .RightBrace "\x7d" 1 :: pTok .EOF "" 1 :: []))
      from by simp [funcProg, funcToks, List.append_assoc]]
  rw [show (parseAt (G + 2)).parseLoop = parseLoopF (parseAt (G + 1)) from rfl]
  simp only [parseLoopF]
  rw [at_end_of_head _ _ _ (by decide)]
  simp only [pTok_token_type, show (TokenType.Def == TokenType.EOF) = false from rfl,
    Bool.false_eq_true, if_false]
  rw [pstep_err _ _ _ _ _ _ hdecl]
  rw [show (parseAt (G + 1)).parseLoop = parseLoopF (parseAt G) from rfl]
  rw [parseLoop_eof (parseAt G) _ _ _ _ _ rfl]
  simp

theorem parse_twoFuncProg_err (F : Nat) (hF : 530 ≤ F) :
    Parser.parse F twoFuncProg = ParseOut.errs
      [⟨"Cannot have more than 255 parameters.", 1⟩,
       ⟨"Cannot have more than 255 parameters.", 2⟩] := by
  obtain ⟨G, rfl⟩ : ∃ G, F = G + 3 := ⟨F - 3, by omega⟩
  obtain ⟨p2, hd1⟩ := declaration_func256_err (G + 2) 1 (pTok .Def "def" 2)
    (pTok .Identifier "f" 2 :: pTok .LeftParen "(" 2 :: (paramToks 256 ++
      (pTok .RightParen ")" 2 :: pTok .LeftBrace "\x7b" 2 ::
        pTok .RightBrace "\x7d" 2 :: pTok .EOF "" 2 :: []))) []
    (Or.inr rfl) (by omega)
  obtain ⟨p3, hd2⟩ := declaration_func256_err (G + 1) 2 (pTok .EOF "" 2) [] p2
    (Or.inl rfl) (by omega)
  rw [Parser.parse]
  rw [show (twoFuncProg : List Token) = pTok .Def "def" 1 :: pTok .Identifier "f" 1 ::
      pTok .LeftParen "(" 1 :: (paramToks 256 ++ (pTok .RightParen ")" 1 ::
        pTok .LeftBrace "\x7b" 1 :: pTok .RightBrace "\x7d" 1 ::
        pTok .Def "def" 2 :: pTok .Identifier "f" 2 :: pTok .LeftParen "(" 2 ::
          (paramToks 256 ++ (pTok .RightParen ")" 2 :: pTok .LeftBrace "\x7b" 2 ::
            pTok .RightBrace "\x7d" 2 :: pTok .EOF "" 2 :: []))))
      from by simp [twoFuncProg, funcToks, List.append_assoc]]
  rw [show (parseAt (G + 3)).parseLoop = parseLoopF (parseAt (G + 2)) from rfl]
  simp only [parseLoopF]
  rw [at_end_of_head _ _ _ (by decide)]
  simp only [pTok_token_type, show (TokenType.Def == TokenType.EOF) = false from rfl,
    Bool.false_eq_true, if_false]
  rw [pstep_err _ _ _ _ _ _ hd1]
  rw [show (parseAt (G + 2)).parseLoop = parseLoopF (parseAt (G + 1)) from rfl]
  simp only [parseLoopF]
  rw [at_end_of_head _ _ _ (by decide)]
  simp only [pTok_token_type, show (TokenType.Def == TokenType.EOF) = false from rfl,
    Bool.false_eq_true, if_false]
  rw [pstep_err _ _ _ _ _ _ hd2]
  rw [show (parseAt (G + 1)).parseLoop = parseLoopF (parseAt G) from rfl]
  rw [parseLoop_eof (parseAt G) _ _ _ _ _ rfl]
  simp

theorem parse_callProg_ok (n F : Nat) (h1 : 1 ≤ n) (h2 : n ≤ 256) (hF : n + 8 ≤ F) :
    Parser.parse F (callToks n) = ParseOut.ok [Stmt.Expression (Expr.Call
      (Expr.Variable (pTok .Identifier "f" 1)) (pTok .RightParen ")" 1)
      (List.replicate n (Expr.Literal (Literal.integer 1))))] := by
  obtain ⟨G, rfl⟩ : ∃ G, F = G + 2 := ⟨F - 2, by omega⟩
  obtain ⟨p2, hdecl⟩ := declaration_call_ok n (G + 1) [pTok .EOF "" 1] [] h1 h2
    (by omega)
  rw [Parser.parse]
  rw [show (callToks n : List Token) = pTok .Identifier "f" 1 ::
      pTok .LeftParen "(" 1 :: (argToks n ++ (pTok .RightParen ")" 1 ::
        pTok .Semi ";" 1 :: pTok .EOF "" 1 :: []))
      from by simp [callToks, List.append_assoc]]
  rw [show (parseAt (G + 2)).parseLoop = parseLoopF (parseAt (G + 1)) from rfl]
  simp only [parseLoopF]
  rw [at_end_of_head _ _ _ (by decide)]
  simp only [pTok_token_type,
    show (TokenType.Identifier == TokenType.EOF) = false from rfl,
    Bool.false_eq_true, if_false]
  rw [pstep_ok _ _ _ _ _ _ hdecl]
  rw [show (parseAt (G + 1)).parseLoop = parseLoopF (parseAt G) from rfl]
  rw [parseLoop_eof (parseAt G) _ _ _ _ _ rfl]
  simp

theorem parse_callProg257_err (F : Nat) (hF : 274 ≤ F) :
    Parser.parse F (callToks 257) = ParseOut.errs
      [⟨"Function cannot have more than 255 arguments", 1⟩] := by
  obtain ⟨G, rfl⟩ : ∃ G, F = G + 2 := ⟨F - 2, by omega⟩
  obtain ⟨p2, hdecl⟩ := declaration_call257_err (G + 1) (pTok .EOF "" 1) [] []
    rfl (by omega)
  rw [Parser.parse]
  rw [show (callToks 257 : List Token) = pTok .Identifier "f" 1 ::
      pTok .LeftParen "(" 1 :: (argToks 257 ++ (pTok .RightParen ")" 1 ::
        pTok .Semi ";" 1 :: pTok .EOF "" 1 :: []))
      from by simp [callToks, List.append_assoc]]
  rw [show (parseAt (G + 2)).parseLoop = parseLoopF (parseAt (G + 1)) from rfl]
  simp only [parseLoopF]
  rw [at_end_of_head _ _ _ (by decide)]
  simp only [pTok_token_type,
    show (TokenType.Identifier == TokenType.EOF) = false from rfl,
    Bool.false_eq_true, if_false]
  rw [pstep_err _ _ _ _ _ _ hdecl]
  rw [show (parseAt (G + 1)).parseLoop = parseLoopF (parseAt G) from rfl]
  rw [parseLoop_eof (parseAt G) _ _ _ _ _ rfl]
  simp

end Sox

/-! ## Claim theorems -/

namespace Sox

/-- C1: the spec says boolean coercion yields false for `none` and for the
boolean `false`, and that an `if` whose condition is `none` runs the else
branch.  The code disagrees: `try_into_rust_bool` looks up a method named
"bool_" on the operand type, but every builtin registers its method under
"bool", so the lookup always misses and the fallback returns true.  Hence
`none` and `false` both coerce to true, and `if (none) a = 1; else a = 2;`
runs the then branch, leaving `a = 1`. -/
theorem c1_truthiness_code_bug :
    tryIntoRustBool (State.new 0) SoxObject.none = .ok true ∧
    tryIntoRustBool (State.new 0) (.boolean false) = .ok true ∧
    runProgram 30 progIfNone 10 = some ["1"] :=
  ⟨rfl, rfl, runProgram_stage (q := ⟨[], .None, .None, [], 10⟩) rfl rfl rfl⟩

/-- C2 counterexample: the spec says a mixed int/float comparison widens the
int, so `1 == 2.0` should be false.  The interpreted program prints "true"
instead: the blanket `FromArgs` impl reads `args[0]` without consuming it,
so `equals` compares the left operand with itself. -/
theorem c2_counterexample :
    runProgram 30 progIntEqFloat 10 = some ["true"] ∧ ("true" : String) ≠ "false" :=
  ⟨runProgram_stage (q := ⟨[], .None, .None, [], 10⟩) rfl rfl rfl, by decide⟩

/-- C2 amended: what `==` and `!=` actually do.  Dispatch does go through
the `equals` method of the class of the left operand, but because the
argument-extraction bug feeds the left operand to both sides of the
comparison, an int on the left compares equal to every right operand
(`==` yields true and `!=` yields false regardless of the right side), and
a type object on the left always compares unequal (its `equals` method is
a stub returning false).  No int-to-float widening happens anywhere on the
`==` path. -/
theorem c2_amended (st : State) (h : st.types = initialTypes) (n : Int) (v : SoxObject) :
    binEqualEqual st (.int n) v = .ok (.boolean true) ∧
    binBangEqual st (.int n) v = .ok (.boolean false) ∧
    (∀ r w, binEqualEqual st (.typ r) w = .ok (.boolean false)) := by
  refine ⟨?_, ?_, ?_⟩
  · simp [binEqualEqual, soxTypeOf, typeData, h, initialTypes, mkStaticType, intTypeRef,
      intMethodDefs, runMethod, firstArg, expectOk, tryFromInt, tryFromObject,
      SoxObject.as_int, SoxInt.equals, Outcome.obind]
  · simp [binBangEqual, binEqualEqual, soxTypeOf, typeData, h, initialTypes, mkStaticType,
      intTypeRef, intMethodDefs, runMethod, firstArg, expectOk, tryFromInt, tryFromObject,
      SoxObject.as_int, SoxInt.equals, Outcome.obind, tryIntoRustBool, slookup,
      boolMethodDefs, boolTypeRef, SoxObject.as_bool]
  · intro r w
    simp [binEqualEqual, soxTypeOf, typeData, h, initialTypes, mkStaticType, typeTypeRef,
      typeMethodDefs]

theorem c2_amended_witness :
    binEqualEqual (State.new 0) (.int 1) (.float 2) = .ok (.boolean true) ∧
    binBangEqual (State.new 0) (.int 1) (.float 2) = .ok (.boolean false) ∧
    binEqualEqual (State.new 0) (.typ 7) SoxObject.none = .ok (.boolean false) :=
  ⟨(c2_amended (State.new 0) rfl 1 (.float 2)).1,
   (c2_amended (State.new 0) rfl 1 (.float 2)).2.1,
   (c2_amended (State.new 0) rfl 1 (.float 2)).2.2 7 SoxObject.none⟩

/-- C3: integer `+ - * %` stay integer; `/` always produces a float, even
on two ints, with `7 / 2 = 3.5`; any float operand widens the int operand
and the operation is carried out on floats.  The concrete program
`print 1 + 2 * 3;` prints "7" end to end. -/
theorem c3_int_arith_and_slash :
    (∀ a b : Int, binPlus (.int a) (.int b) = .ok (.int (a + b))) ∧
    (∀ a b : Int, binMinus (.int a) (.int b) = .ok (.int (a - b))) ∧
    (∀ a b : Int, binStar (.int a) (.int b) = .ok (.int (a * b))) ∧
    (∀ a b : Int, b ≠ 0 → binRem (.int a) (.int b) = .ok (.int (Int.tmod a b))) ∧
    (∀ a b : Int, binSlash (.int a) (.int b) = .ok (.float ((a : Rat) / (b : Rat)))) ∧
    binSlash (.int 7) (.int 2) = .ok (.float (3.5 : Rat)) ∧
    (∀ (x y : Rat), binPlus (.float x) (.float y) = .ok (.float (x + y))) ∧
    (∀ (x : Rat) (b : Int), binPlus (.float x) (.int b) = .ok (.float (x + (b : Rat)))) ∧
    (∀ (a : Int) (y : Rat), binPlus (.int a) (.float y) = .ok (.float ((a : Rat) + y))) ∧
    (∀ (x : Rat) (b : Int), binSlash (.float x) (.int b) = .ok (.float (x / (b : Rat)))) ∧
    runProgram 30 progArith 10 = some ["7"] := by
  refine ⟨fun a b => rfl, fun a b => rfl, fun a b => rfl, ?_, fun a b => rfl, ?_,
    fun x y => rfl, fun x b => rfl, fun a y => rfl, fun x b => rfl,
    runProgram_stage (q := ⟨[], .None, .None, [], 10⟩) rfl rfl rfl⟩
  · intro a b hb
    simp [binRem, SoxObject.as_int, i64Rem, hb]
  · simp only [binSlash, SoxObject.as_int]
    norm_num

theorem c3_int_arith_and_slash_witness : binRem (.int 9) (.int 4) = .ok (.int 1) := by
  have := c3_int_arith_and_slash.2.2.2.1 9 4 (by decide)
  simpa using this

set_option maxRecDepth 4000 in
/-- C6 counterexample: the spec says a 256th entry in an argument list
produces a syntax error, but the cap check in `finish_call` is
`arguments.len() > 255`, which only trips once 256 arguments have already
been collected: a call with 256 arguments parses without any error. -/
theorem c6_counterexample :
    parsedArgCount (Parser.parse 300 (callToks 256)) = some 256 := by
  rw [parse_callProg_ok 256 300 (by norm_num) (by norm_num) (by norm_num)]
  simp [parsedArgCount, List.length_replicate]

set_option maxRecDepth 4000 in
/-- C6 amended: parameter lists accept exactly 255 entries and a 256th
parameter produces the syntax error `Cannot have more than 255 parameters.`
(the check `params.len() >= 255` runs before each parameter); argument
lists accept up to 256 entries and only a 257th argument produces the
syntax error `Function cannot have more than 255 arguments` (the check is
`arguments.len() > 255`); either error is collected without aborting the
parse: the parser synchronizes and keeps going, so two over-limit
declarations yield both errors. -/
theorem c6_amended :
    parsedParamCount (Parser.parse 300 (funcProg 255)) = some 255 ∧
    Parser.parse 300 (funcProg 256) =
      ParseOut.errs [⟨"Cannot have more than 255 parameters.", 1⟩] ∧
    parsedArgCount (Parser.parse 300 (callToks 255)) = some 255 ∧
    parsedArgCount (Parser.parse 300 (callToks 256)) = some 256 ∧
    Parser.parse 300 (callToks 257) =
      ParseOut.errs [⟨"Function cannot have more than 255 arguments", 1⟩] ∧
    Parser.parse 600 twoFuncProg =
      ParseOut.errs [⟨"Cannot have more than 255 parameters.", 1⟩,
        ⟨"Cannot have more than 255 parameters.", 2⟩] := by
  refine ⟨?_, ?_, ?_, ?_, ?_, ?_⟩
  · rw [parse_funcProg_ok 255 300 (by norm_num) (by norm_num) (by norm_num)]
    simp [parsedParamCount, List.length_replicate]
  · exact parse_funcProg256_err 300 (by norm_num)
  · rw [parse_callProg_ok 255 300 (by norm_num) (by norm_num) (by norm_num)]
    simp [parsedArgCount, List.length_replicate]
  · rw [parse_callProg_ok 256 300 (by norm_num) (by norm_num) (by norm_num)]
    simp [parsedArgCount, List.length_replicate]
  · exact parse_callProg257_err 300 (by norm_num)
  · exact parse_twoFuncProg_err 600 (by norm_num)

/-- C7 counterexample: the spec says the resolver rejects a duplicate
declaration in one non-global scope, but `declare` never inspects the
current scope: resolving `{ let a = 1; let a = 2; print a; }` succeeds with
no error. -/
theorem c7_counterexample : resolveStmts 30 progDupLocal (RState.new 10) =
    (⟨[], .None, .None, [(mkIdent "a" 2, (0, 1))], 10⟩, Except.ok ()) := rfl

/-- C7 amended: `declare` unconditionally appends the token to the
innermost scope when one exists (no duplicate check of any kind) and is a
no-op at global scope; the duplicate-declaration program therefore resolves
and runs, printing "2". -/
theorem c7_amended :
    (∀ (r : RState) (t : Token) (scope : List (Token × Bool)) (rest : List (List (Token × Bool))),
      r.scopes = scope :: rest →
      declare t r = ({ r with scopes := (scope ++ [(t, false)]) :: rest }, .ok ())) ∧
    (∀ (r : RState) (t : Token), r.scopes = [] → declare t r = (r, .ok ())) ∧
    runProgram 30 progDupLocal 10 = some ["2"] := by
  refine ⟨?_, ?_, runProgram_stage (q := ⟨[], .None, .None, [(mkIdent "a" 2, (0, 1))], 10⟩) rfl rfl rfl⟩
  · intro r t scope rest h
    simp [declare, h]
  · intro r t h
    simp [declare, h]

theorem c7_amended_witness :
    declare (mkIdent "b" 5) ⟨[[(mkIdent "a" 0, true)]], .None, .None, [], 9⟩ =
      (⟨[[(mkIdent "a" 0, true), (mkIdent "b" 5, false)]], .None, .None, [], 9⟩, .ok ()) ∧
    declare (mkIdent "b" 5) ⟨[], .None, .None, [], 9⟩ =
      (⟨[], .None, .None, [], 9⟩, .ok ()) := by
  constructor
  · simpa using c7_amended.1 ⟨[[(mkIdent "a" 0, true)]], .None, .None, [], 9⟩ (mkIdent "b" 5)
      [(mkIdent "a" 0, true)] [] rfl
  · exact c7_amended.2.1 ⟨[], .None, .None, [], 9⟩ (mkIdent "b" 5) rfl

/-- C8 counterexample: the spec quotes the runtime error without a trailing
period, but `get_from_global_scope` raises `NameError: name ... is not
defined.` with a trailing period (unlike `get`, which omits it), so running
`print undefined_name;` prints the message with the period. -/
theorem c8_counterexample :
    runProgram 30 progUndef 10 = some ["NameError: name 'undefined_name' is not defined."] ∧
    ("NameError: name 'undefined_name' is not defined." : String) ≠
      "NameError: name 'undefined_name' is not defined" :=
  ⟨runProgram_stage (q := ⟨[], .None, .None, [], 10⟩) rfl rfl rfl, by decide⟩

/-- C8 amended: when the resolver did not place a variable reference,
lookup searches only the global frame by name, and when no binding with
that name exists it raises exactly
`NameError: name <name-in-single-quotes> is not defined.` — with a trailing
period. -/
theorem c8_amended (st : State) (name : Token) (ns : EnvNamespace)
    (h1 : localsGet st.locals name = Option.none)
    (h2 : alookup st.env.global st.env.envs = some ns)
    (h3 : ns.bindings.find? (fun v => v.1 = name.lexeme) = Option.none) :
    lookupVariable name st =
      (st, .thr (.exceptionErr ("NameError: name '" ++ name.lexeme ++ "' is not defined."))) := by
  simp [lookupVariable, h1, Environment.get_from_global_scope, h2, h3, nameErrorPeriod]

theorem c8_amended_witness :
    lookupVariable (mkIdent "undefined_name" 0) (State.new 0) =
      ((State.new 0), .thr (.exceptionErr "NameError: name 'undefined_name' is not defined.")) :=
  c8_amended (State.new 0) (mkIdent "undefined_name" 0) { bindings := [] } rfl rfl rfl

/-- C9: a binary expression evaluates its right operand before its left
operand, and a call expression evaluates the callee first and then the
arguments strictly left to right.  The equations below are exact unfoldings
of the interpreter; the two concrete runs observe the orders through
assignment side effects: `(a = 2) + a` with `a = 1` prints "3"
(right-then-left), and `f(a = 10, a + 1)` prints "10" then "11"
(left-to-right arguments). -/
theorem c9_evaluation_order :
    (∀ (fuel : Nat) (l r : Expr) (op : Token),
      evalExpr (fuel + 1) (Expr.Binary l op r) =
        ebind (evalExpr fuel r) (fun right_val =>
        ebind (evalExpr fuel l) (fun left_val =>
        eread fun st => evalBinOp st op.token_type left_val right_val))) ∧
    (∀ (fuel : Nat) (c : Expr) (p : Token) (arguments : List Expr),
      evalExpr (fuel + 1) (Expr.Call c p arguments) =
        ebind (evalExpr fuel c) (fun callee_val =>
        ebind (evalArgs fuel arguments) (fun args =>
        fun st =>
          match soxTypeOf st callee_val with
          | Option.none => (st, .fault "sox_type: dangling instance reference")
          | some tref =>
            match typeData st tref with
            | Option.none => (st, .fault "sox_type: dangling type reference")
            | some callee_type =>
              match callee_type.name with
              | Option.none => (st, .fault "visit_call_expr: callee_type.name.clone().unwrap()")
              | some callee_type_name =>
                match callee_type.slots.call with
                | some .funcCall => callFunction fuel callee_val args st
                | some .typeCall => callType fuel callee_val args st
                | Option.none =>
                  (st, .thr (runtimeError (callee_type_name ++ " object is not callable.")))))) ∧
    (∀ (fuel : Nat) (a : Expr) (rest : List Expr),
      evalArgs (fuel + 1) (a :: rest) =
        ebind (evalExpr fuel a) (fun v =>
        ebind (evalArgs fuel rest) (fun vs => epure (v :: vs)))) ∧
    runProgram 30 progAssignOrder 10 = some ["3"] ∧
    runProgram 30 progCallOrder 20 = some ["10", "11"] := by
  refine ⟨fun fuel l r op => rfl, fun fuel c p arguments => rfl, fun fuel a rest => rfl,
    runProgram_stage (q := ⟨[], .None, .None, [(mkIdent "a" 1, (0,0)), (mkIdent "a" 3, (0,0))], 10⟩) rfl rfl rfl,
    runProgram_stage (q := ⟨[], .None, .None,
      [(mkIdent "x" 4, (0,0)), (mkIdent "y" 5, (0,1)), (mkIdent "f" 6, (0,1)),
       (mkIdent "a" 7, (0,0)), (mkIdent "a" 8, (0,0))], 20⟩) rfl rfl rfl⟩

/-- C10: the token id comes from a counter threaded through `Token.new` and
participates in derived equality, so tokens with distinct ids are unequal,
two tokens created at successive counter states are unequal, and a token
created after resolution (its id is at least the counter bound, like the
fresh `this` token built while evaluating `super`) can never hit any entry
of the locals table, whose keys all have smaller ids. -/
theorem c10_token_identity :
    (∀ t u : Token, t.id ≠ u.id → t ≠ u) ∧
    (∀ tt1 lex1 lit1 ln1 tt2 lex2 lit2 ln2 (c : Nat),
      (Token.new tt1 lex1 lit1 ln1 c).1 ≠
      (Token.new tt2 lex2 lit2 ln2 ((Token.new tt1 lex1 lit1 ln1 c).2)).1) ∧
    (∀ (locals : List (Token × (Nat × Nat))) (c : Nat),
      (∀ p ∈ locals, p.1.id < c) →
      localsGet locals (Token.new TokenType.This "this" Literal.none 0 c).1 = Option.none) := by
  refine ⟨fun t u hne heq => hne (congrArg Token.id heq), ?_, ?_⟩
  · intro tt1 lex1 lit1 ln1 tt2 lex2 lit2 ln2 c heq
    have := congrArg Token.id heq
    simp [Token.new] at this
  · intro locals c h
    unfold localsGet
    rw [List.find?_eq_none.mpr]
    · rfl
    · intro p hp
      simp only [decide_eq_true_eq]
      intro heq
      have hid := congrArg Token.id heq
      simp [Token.new] at hid
      have := h p hp
      omega

theorem c10_token_identity_witness :
    (mkIdent "x" 0 : Token) ≠ mkIdent "x" 1 ∧
    localsGet [(mkIdent "x" 0, (0, 0))] (Token.new TokenType.This "this" Literal.none 0 5).1 =
      Option.none :=
  ⟨c10_token_identity.1 (mkIdent "x" 0) (mkIdent "x" 1) (by decide),
   c10_token_identity.2.2 [(mkIdent "x" 0, (0, 0))] 5 (by decide)⟩

/-- C4: calls of initializers and of class values.  (1) `SoxFunction::call`
with `is_initializer` set returns the result of `find_and_get("this")` —
the bound instance — for every outcome `rv` of the body, so a bare
`return;` (or a body error) never supplies the call's value; the caller's
frame is restored.  (2) `SoxType::call` with an `init` method returns the
freshly allocated instance (index `st.instances.length`) for every
successful result `w` of the bound initializer call.  (3) Without `init`,
`SoxType::call` returns the freshly allocated instance directly. -/
theorem c4_initializer_and_class_call :
    (∀ (prev : InterpFns) (fo : SoxFunction) (args : List SoxObject)
       (st st1 : State) (rv : Except SoxObject SoxObject) (v : SoxObject),
      (args.length : Int) = usizeOfI8 fo.arity →
      fo.is_initializer = true →
      prev.callBody fo args { st with env := { st.env with active := fo.environment_ref } }
        = (st1, Outcome.ok rv) →
      st1.env.find_and_get "this" = Outcome.ok v →
      callFunctionF prev (SoxObject.func fo) args st
        = ({ st1 with env := { st1.env with active := st.env.active } }, Outcome.ok v)) ∧
    (∀ (prev : InterpFns) (to_ref : Nat) (args : List SoxObject) (st : State)
       (to_data : SoxType) (init_func : SoxObject) (func : SoxFunction)
       (st2 st3 : State) (bound w : SoxObject),
      st.types.get? to_ref = some to_data →
      findMethod st.types st.types.length to_data "init" = some init_func →
      init_func.as_func = some func →
      bindMethod func (SoxObject.typeInstance st.instances.length)
        { st with instances := st.instances ++ [{ typ := to_ref, fields := [] }] }
        = (st2, Outcome.ok bound) →
      prev.callFunction bound args st2 = (st3, Outcome.ok w) →
      callTypeF prev (SoxObject.typ to_ref) args st
        = (st3, Outcome.ok (SoxObject.typeInstance st.instances.length))) ∧
    (∀ (prev : InterpFns) (to_ref : Nat) (args : List SoxObject) (st : State)
       (to_data : SoxType),
      st.types.get? to_ref = some to_data →
      findMethod st.types st.types.length to_data "init" = Option.none →
      callTypeF prev (SoxObject.typ to_ref) args st
        = ({ st with instances := st.instances ++ [{ typ := to_ref, fields := [] }] },
           Outcome.ok (SoxObject.typeInstance st.instances.length))) :=
  ⟨fun prev fo args st st1 rv v harity hinit hbody hthis =>
      c4p1 prev fo args st st1 rv v harity hinit hbody hthis,
   fun prev to_ref args st to_data init_func func st2 st3 bound w h1 h2 h3 h4 h5 =>
      c4p2 prev to_ref args st to_data init_func func st2 st3 bound w h1 h2 h3 h4 h5,
   fun prev to_ref args st to_data h1 h2 =>
      c4p3 prev to_ref args st to_data h1 h2⟩

/-- C4 witness: concrete instantiations of all three parts — a bound
empty-body `init` returns the `this` instance, a class with `init`
returns the fresh instance, a class without `init` returns the fresh
instance. -/
theorem c4_initializer_and_class_call_witness :
    (∃ s, callFunctionF (interpAt 3) (SoxObject.func c4InitFn) [] c4State
        = (s, Outcome.ok (SoxObject.typeInstance 0))) ∧
    (∃ s, callTypeF (interpAt 4) (SoxObject.typ 8) [] c4State2
        = (s, Outcome.ok (SoxObject.typeInstance 0))) ∧
    (∃ s, callTypeF (interpAt 1) (SoxObject.typ 8) [] c4State3
        = (s, Outcome.ok (SoxObject.typeInstance 0))) :=
  ⟨⟨_, c4_initializer_and_class_call.1 (interpAt 3) c4InitFn [] c4State _ _ _
        (by decide) rfl rfl rfl⟩,
   ⟨_, c4_initializer_and_class_call.2.1 (interpAt 4) 8 [] c4State2 c4Class
        (SoxObject.func c4ClassInit) c4ClassInit _ _ _ _ rfl rfl rfl rfl rfl⟩,
   ⟨_, c4_initializer_and_class_call.2.2 (interpAt 1) 8 [] c4State3 c4ClassNoInit
        rfl rfl⟩⟩

/-- C5: every block entered during execution pops its frame — the active
environment pointer is restored to the enclosing frame — on every
non-panicking exit path.  Conjunct 1/2: a plain block
(`execute_block(stmts, None)`) pushes a fresh frame and ends with the
active pointer back where it started, on normal completion (`ok`) and on
a propagating exception (`thr`, which covers both `Exception::Return`
unwinds and `Exception::Err` runtime errors).  Conjunct 3/4: a
function-call block (`execute_block(stmts, Some k)`) enters the existing
frame `k` and ends with the active pointer on `k`'s recorded parent, on
both exit paths.  Proved for every fuel, statement list and start state
by induction over the interpreter's recursion (`frameOK_interpAt`). -/
theorem c5_block_frame_popped :
    (∀ (fuel : Nat) (stmts : List Stmt) (st st' : State) (u : Unit),
      execBlock fuel stmts Option.none st = (st', Outcome.ok u) →
      st'.env.active = st.env.active) ∧
    (∀ (fuel : Nat) (stmts : List Stmt) (st st' : State) (v : SoxObject),
      execBlock fuel stmts Option.none st = (st', Outcome.thr v) →
      st'.env.active = st.env.active) ∧
    (∀ (fuel : Nat) (stmts : List Stmt) (k p : Nat) (st st' : State) (u : Unit),
      execBlock fuel stmts (some k) st = (st', Outcome.ok u) →
      k < st.env.counter → alookup k st.env.env_link = some p →
      st'.env.active = p) ∧
    (∀ (fuel : Nat) (stmts : List Stmt) (k p : Nat) (st st' : State) (v : SoxObject),
      execBlock fuel stmts (some k) st = (st', Outcome.thr v) →
      k < st.env.counter → alookup k st.env.env_link = some p →
      st'.env.active = p) := by
  refine ⟨?_, ?_, ?_, ?_⟩
  · intro fuel stmts st st' u heq
    exact ((frameOK_interpAt fuel).execBlockNone stmts st st' _ heq trivial).2
  · intro fuel stmts st st' v heq
    exact ((frameOK_interpAt fuel).execBlockNone stmts st st' _ heq trivial).2
  · intro fuel stmts k p st st' u heq hk hp
    obtain ⟨_, p2, hp2, hact⟩ :=
      (frameOK_interpAt fuel).execBlockSome stmts k st st' _ heq trivial hk
    rw [hp] at hp2
    cases hp2
    exact hact
  · intro fuel stmts k p st st' v heq hk hp
    obtain ⟨_, p2, hp2, hact⟩ :=
      (frameOK_interpAt fuel).execBlockSome stmts k st st' _ heq trivial hk
    rw [hp] at hp2
    cases hp2
    exact hact

/-- C5 witness: concrete runs through all four conjuncts — an empty block
and a block unwound by `return;`, each as a plain block from the initial
state and as a function-call block entering frame 1 of `c5State`. -/
theorem c5_block_frame_popped_witness :
    ((execBlock 2 [] Option.none (State.new 0)).1).env.active
        = (State.new 0).env.active ∧
    ((execBlock 3 [Stmt.Return (mkIdent "return" 99) Option.none]
        Option.none (State.new 0)).1).env.active = (State.new 0).env.active ∧
    ((execBlock 2 [] (some 1) c5State).1).env.active = 0 ∧
    ((execBlock 3 [Stmt.Return (mkIdent "return" 99) Option.none]
        (some 1) c5State).1).env.active = 0 :=
  ⟨c5_block_frame_popped.1 2 [] (State.new 0) _ () rfl,
   c5_block_frame_popped.2.1 3 [Stmt.Return (mkIdent "return" 99) Option.none]
     (State.new 0) _ (SoxObject.exceptionRet SoxObject.none) rfl,
   c5_block_frame_popped.2.2.1 2 [] 1 0 c5State _ () rfl (by decide) rfl,
   c5_block_frame_popped.2.2.2 3 [Stmt.Return (mkIdent "return" 99) Option.none]
     1 0 c5State _ (SoxObject.exceptionRet SoxObject.none) rfl (by decide) rfl⟩

end Sox
